import Mathlib

/-!
# aws-iam-ctl: the access-key rotation workflow and the commands around it

A shallow embedding of `cmd/rotate.go` (function `rotateKeys`) together with the
error types of `internal/aws/utils.go`.  Remote services (IAM, STS-style identity
check, Secrets Manager) are collaborators: they are passed in as a record of
state-transforming handlers, and `rotateKeys` records every call it makes, with its
outcome, in a trace.  The same style is used for the test double
`rotateKeysWithClients`, for `resetPassword` and `validateMFA`
(`cmd/password/reset.go`), for `enableMFA` (`cmd/mfa/enable.go`), for the
confirmation step of `mfa disable` with `disableMFA` (`cmd/mfa/disable.go`), for
`getMFAStatus` (`cmd/mfa/status.go`) and for `GetCurrentUser`
(`internal/aws/utils.go`); the error handlers, `isValidPassword` and
`extractAccountID` are pure functions.
-/

namespace IamCtl

/-! ## Go error values -/

mutual
/-- Non-nil Go `error` values that occur in the repository.
`errorString` is `errors.New` (and `fmt.Errorf` without `%w`), `wrapError` is
`fmt.Errorf` with one `%w` (field `msg` is the already formatted text, `err` the
wrapped error), `APIError` stands for a `smithy.APIError`, and the last three are
the classification types of `internal/aws/utils.go`. -/
inductive GoError where
  | errorString (s : String)
  | wrapError (msg : String) (err : GoError)
  | APIError (code : String) (message : String)
  | CredentialError (Err : ErrField)
  | PermissionError (Err : ErrField)
  | ServiceError (Err : ErrField)
/-- A struct field of interface type `error`: it may hold `nil`. -/
inductive ErrField where
  | nil
  | val (e : GoError)
end

deriving instance DecidableEq for GoError, ErrField
deriving instance DecidableEq for Except

mutual
/-- The `Error()` method.  `none` stands for the nil-pointer panic raised by
`e.Err.Error()` when the field `Err` is nil. -/
def GoError.Error : GoError → Option String
  | .errorString s => some s
  | .wrapError msg _ => some msg
  | .APIError code message => some ("api error " ++ code ++ ": " ++ message)
  | .CredentialError e => (e.Error).map (fun m => "credential error: " ++ m)
  | .PermissionError e => (e.Error).map (fun m => "permission error: " ++ m)
  | .ServiceError e => (e.Error).map (fun m => "service error: " ++ m)
/-- The `Error()` call made through a field; nil has no method to call. -/
def ErrField.Error : ErrField → Option String
  | .nil => none
  | .val e => e.Error
end

/-- How package `fmt` prints an error operand under `%v` and `%w`: the text of
`Error()`, or the panic report when the method panics. -/
def fmtV (e : GoError) : String :=
  match e.Error with
  | some s => s
  | none => "%!v(PANIC=Error method: runtime error: invalid memory address or nil pointer dereference)"

/-- The value of `fmt.Errorf(text ++ "%w", err)`. -/
def Errorf_w (text : String) (err : GoError) : GoError :=
  .wrapError (text ++ fmtV err) err

/-! ## Requests, responses and the call trace -/

/-- The part of `types.AccessKey` that `rotateKeys` reads. -/
structure AccessKey where
  AccessKeyId : String
  SecretAccessKey : String
deriving DecidableEq, Repr

/-- The part of `types.AccessKeyMetadata` that `rotateKeys` reads. -/
structure AccessKeyMetadata where
  AccessKeyId : String
deriving DecidableEq, Repr

/-- One observable action of `rotateKeys`, with the answer it received.
`LoadDefaultConfig`, `GetUser` and `CreateSecret` carry the static credentials
(`keyId`, `secret`) of the configuration they run under. -/
inductive Event where
  | CreateAccessKey (UserName : String) (res : Except GoError AccessKey)
  | LoadDefaultConfig (keyId secret : String) (err : Option GoError)
  | GetUser (keyId secret : String) (err : Option GoError)
  | CreateSecret (keyId secret : String) (Name SecretString : String) (err : Option GoError)
  | ListAccessKeys (UserName : String) (res : Except GoError (List AccessKeyMetadata))
  | DeleteAccessKey (AccessKeyId UserName : String) (err : Option GoError)
  | Printf (text : String)
deriving DecidableEq

/-- The remote collaborators, as handlers over an arbitrary world state `σ`.
The first, fifth and sixth are methods of the caller's `*iam.Client`; the other
three run under a configuration built from static credentials. -/
structure Clients (σ : Type) where
  CreateAccessKey : String → σ → Except GoError AccessKey × σ
  LoadDefaultConfig : String → String → σ → Option GoError × σ
  GetUser : String → String → σ → Option GoError × σ
  CreateSecret : String → String → String → String → σ → Option GoError × σ
  ListAccessKeys : String → σ → Except GoError (List AccessKeyMetadata) × σ
  DeleteAccessKey : String → String → σ → Option GoError × σ

/-- What a run of `rotateKeys` leaves behind: the returned `error` (`none` is
nil), the trace of actions in program order, and the final world state. -/
structure Outcome (σ : Type) where
  ret : Option GoError
  trace : List Event
  state : σ

/-! ## `rotateKeys` -/

/-- The string built by the `fmt.Sprintf` of step 3. -/
def secretValue (newKey : AccessKey) : String :=
  "\x7b\"AccessKeyId\": \"" ++ newKey.AccessKeyId ++ "\", \"SecretAccessKey\": \""
    ++ newKey.SecretAccessKey ++ "\"\x7d"

/-- The deferred closure of `rotateKeys`, run at every return that follows its
registration.  `err` is the value of the captured variable `err` at that moment. -/
def deferredCleanup {σ : Type} (c : Clients σ) (newKey : AccessKey) (username : String)
    (err : Option GoError) (tr : List Event) (s : σ) : List Event × σ :=
  match err with
  | none => (tr, s)
  | some _ =>
    match c.DeleteAccessKey newKey.AccessKeyId username s with
    | (some deleteErr, s') =>
      (tr ++ [Event.DeleteAccessKey newKey.AccessKeyId username (some deleteErr),
              Event.Printf ("Warning: Failed to clean up new access key: "
                ++ fmtV deleteErr ++ "\n")], s')
    | (none, s') => (tr ++ [Event.DeleteAccessKey newKey.AccessKeyId username none], s')

/-- A `return ret` statement executed after the `defer`: the result value is
`ret`, and the deferred closure then runs against the variable `err`. -/
def returnWith {σ : Type} (c : Clients σ) (newKey : AccessKey) (username : String)
    (ret err : Option GoError) (tr : List Event) (s : σ) : Outcome σ :=
  let fin := deferredCleanup c newKey username err tr s
  ⟨ret, fin.1, fin.2⟩

/-- The function `rotateKeys` of `cmd/rotate.go`. -/
def rotateKeys {σ : Type} (c : Clients σ) (username secretName : String) (s0 : σ) :
    Outcome σ :=
  -- 1. Create new access key
  match c.CreateAccessKey username s0 with
  | (.error err, s1) =>
    ⟨some (Errorf_w "failed to create new access key: " err),
      [Event.CreateAccessKey username (.error err)], s1⟩
  | (.ok newKey, s1) =>
    let t1 := [Event.CreateAccessKey username (.ok newKey)]
    -- 2. Test the new key
    match c.LoadDefaultConfig newKey.AccessKeyId newKey.SecretAccessKey s1 with
    | (some err, s2) =>
      returnWith c newKey username (some (Errorf_w "failed to create test config: " err))
        (some err)
        (t1 ++ [Event.LoadDefaultConfig newKey.AccessKeyId newKey.SecretAccessKey (some err)])
        s2
    | (none, s2) =>
      let t2 := t1 ++ [Event.LoadDefaultConfig newKey.AccessKeyId newKey.SecretAccessKey none]
      match c.GetUser newKey.AccessKeyId newKey.SecretAccessKey s2 with
      | (some err, s3) =>
        returnWith c newKey username (some (Errorf_w "failed to test new access key: " err))
          (some err)
          (t2 ++ [Event.GetUser newKey.AccessKeyId newKey.SecretAccessKey (some err)]) s3
      | (none, s3) =>
        let t3 := t2 ++ [Event.GetUser newKey.AccessKeyId newKey.SecretAccessKey none]
        -- 3. Store new key in Secrets Manager
        match c.CreateSecret newKey.AccessKeyId newKey.SecretAccessKey secretName
            (secretValue newKey) s3 with
        | (some err, s4) =>
          returnWith c newKey username
            (some (Errorf_w "failed to store key in Secrets Manager: " err)) (some err)
            (t3 ++ [Event.CreateSecret newKey.AccessKeyId newKey.SecretAccessKey secretName
              (secretValue newKey) (some err)]) s4
        | (none, s4) =>
          let t4 := t3 ++ [Event.CreateSecret newKey.AccessKeyId newKey.SecretAccessKey
            secretName (secretValue newKey) none]
          -- 4. List existing keys to find the old one
          match c.ListAccessKeys username s4 with
          | (.error err, s5) =>
            returnWith c newKey username (some (Errorf_w "failed to list access keys: " err))
              (some err) (t4 ++ [Event.ListAccessKeys username (.error err)]) s5
          | (.ok listResult, s5) =>
            let t5 := t4 ++ [Event.ListAccessKeys username (.ok listResult)]
            -- 5. Delete the old key (assuming we're rotating the first key)
            match listResult with
            | [] => returnWith c newKey username none none t5 s5
            | oldKey :: _ =>
              if oldKey.AccessKeyId ≠ newKey.AccessKeyId then
                match c.DeleteAccessKey oldKey.AccessKeyId username s5 with
                | (some err, s6) =>
                  returnWith c newKey username
                    (some (Errorf_w "failed to delete old access key: " err)) (some err)
                    (t5 ++ [Event.DeleteAccessKey oldKey.AccessKeyId username (some err)]) s6
                | (none, s6) =>
                  returnWith c newKey username none none
                    (t5 ++ [Event.DeleteAccessKey oldKey.AccessKeyId username none]) s6
              else returnWith c newKey username none none t5 s5

/-! ## A simulated key store and vault

A concrete world used to speak about the principal's live keys: one principal, a
list of live access-key ids, a vault of named secrets, and a counter of the
remote calls answered so far.  The environment's free choices are the key pair IAM
mints, which calls fail (by position in the run), and the order of listings. -/

/-- State of the simulated services. -/
structure SimState where
  keys : List String
  vault : List (String × String)
  calls : Nat
deriving DecidableEq

/-- The environment's choices for one run. -/
structure Sim where
  mint : AccessKey
  fault : Nat → Option GoError
  order : List String → List String

/-- Count one more answered call. -/
def SimState.bump (s : SimState) : SimState := { s with calls := s.calls + 1 }

/-- Deleting a key removes its id from the live keys. -/
def SimState.removeKey (s : SimState) (id : String) : SimState :=
  { s with keys := s.keys.filter (fun k => k ≠ id) }

/-- Writing a secret creates the entry or replaces the one of the same name, as
the vault contract of the design document has it. -/
def SimState.putSecret (s : SimState) (name value : String) : SimState :=
  { s with vault := (name, value) :: s.vault.filter (fun p => p.1 ≠ name) }

/-- The collaborators backed by the simulated store.  A failing call changes
nothing but the call counter; a successful `CreateAccessKey` adds the minted id,
a successful `DeleteAccessKey` removes the id, a successful `ListAccessKeys`
reports the live ids in the order chosen by the environment. -/
def Sim.clients (w : Sim) : Clients SimState where
  CreateAccessKey := fun _ s =>
    match w.fault s.calls with
    | some e => (.error e, s.bump)
    | none => (.ok w.mint, { s.bump with keys := s.keys ++ [w.mint.AccessKeyId] })
  LoadDefaultConfig := fun _ _ s => (w.fault s.calls, s.bump)
  GetUser := fun _ _ s => (w.fault s.calls, s.bump)
  CreateSecret := fun _ _ name value s =>
    match w.fault s.calls with
    | some e => (some e, s.bump)
    | none => (none, s.bump.putSecret name value)
  ListAccessKeys := fun _ s =>
    match w.fault s.calls with
    | some e => (.error e, s.bump)
    | none => (.ok ((w.order s.keys).map AccessKeyMetadata.mk), s.bump)
  DeleteAccessKey := fun id _ s =>
    match w.fault s.calls with
    | some e => (some e, s.bump)
    | none => (none, s.bump.removeKey id)

/-- The key pair minted in the examples. -/
def k2 : AccessKey := ⟨"AKIA_NEW_KEY", "new_secret_key"⟩

/-- Principal alice with the single live key `K1` and an empty vault. -/
def alice0 : SimState := ⟨["K1"], [], 0⟩

/-- A key pair whose secret contains a double quote. -/
def k3 : AccessKey := ⟨"AKIA_NEW_KEY", "se\"cret"⟩

/-- No call fails; listings come in store order (oldest first). -/
def simOk : Sim := ⟨k2, fun _ => none, id⟩

/-- No call fails; listings come newest first. -/
def simNewestFirst : Sim := ⟨k2, fun _ => none, List.reverse⟩

/-- No call fails; the minted secret contains a double quote. -/
def simQuoted : Sim := ⟨k3, fun _ => none, id⟩

/-- The `n`-th remote call (counting from 0) fails, all others succeed. -/
def simFailAt (n : Nat) : Sim :=
  ⟨k2, fun i => if i = n then some (.errorString "boom") else none, id⟩

/-- The `n`-th and the `m`-th remote call fail, all others succeed. -/
def simFailAt2 (n m : Nat) : Sim :=
  ⟨k2, fun i => if i = n ∨ i = m then some (.errorString "boom") else none, id⟩

/-! ## The paths of a run -/

/-- What the deferred closure adds to the trace when it fires and its
`DeleteAccessKey` call is answered with `d`. -/
def cleanupEvents (newKey : AccessKey) (username : String) (d : Option GoError) :
    List Event :=
  match d with
  | some deleteErr =>
    [Event.DeleteAccessKey newKey.AccessKeyId username (some deleteErr),
     Event.Printf ("Warning: Failed to clean up new access key: " ++ fmtV deleteErr ++ "\n")]
  | none => [Event.DeleteAccessKey newKey.AccessKeyId username none]

/-- The trace up to and including a successful `GetUser` under the new key. -/
def verifiedSteps (username : String) (k : AccessKey) : List Event :=
  [Event.CreateAccessKey username (.ok k),
   Event.LoadDefaultConfig k.AccessKeyId k.SecretAccessKey none,
   Event.GetUser k.AccessKeyId k.SecretAccessKey none]

/-- The trace up to and including a successful `CreateSecret`. -/
def persistedSteps (username secretName : String) (k : AccessKey) : List Event :=
  verifiedSteps username k ++
    [Event.CreateSecret k.AccessKeyId k.SecretAccessKey secretName (secretValue k) none]

/-- The nine control-flow paths of `rotateKeys` as a relation between the
collaborators' answers and the outcome: each path lists the answers that lead
into it, the value returned, the trace and the final state. -/
inductive Run {σ : Type} (c : Clients σ) (username secretName : String) (s0 : σ) :
    Outcome σ → Prop where
  | createFailed (e : GoError) (s1 : σ)
      (hc : c.CreateAccessKey username s0 = (.error e, s1)) :
      Run c username secretName s0
        ⟨some (Errorf_w "failed to create new access key: " e),
         [Event.CreateAccessKey username (.error e)], s1⟩
  | configFailed (k : AccessKey) (e : GoError) (d : Option GoError) (s1 s2 s3 : σ)
      (hc : c.CreateAccessKey username s0 = (.ok k, s1))
      (hl : c.LoadDefaultConfig k.AccessKeyId k.SecretAccessKey s1 = (some e, s2))
      (hd : c.DeleteAccessKey k.AccessKeyId username s2 = (d, s3)) :
      Run c username secretName s0
        ⟨some (Errorf_w "failed to create test config: " e),
         [Event.CreateAccessKey username (.ok k),
          Event.LoadDefaultConfig k.AccessKeyId k.SecretAccessKey (some e)]
          ++ cleanupEvents k username d, s3⟩
  | verifyFailed (k : AccessKey) (e : GoError) (d : Option GoError) (s1 s2 s3 s4 : σ)
      (hc : c.CreateAccessKey username s0 = (.ok k, s1))
      (hl : c.LoadDefaultConfig k.AccessKeyId k.SecretAccessKey s1 = (none, s2))
      (hg : c.GetUser k.AccessKeyId k.SecretAccessKey s2 = (some e, s3))
      (hd : c.DeleteAccessKey k.AccessKeyId username s3 = (d, s4)) :
      Run c username secretName s0
        ⟨some (Errorf_w "failed to test new access key: " e),
         [Event.CreateAccessKey username (.ok k),
          Event.LoadDefaultConfig k.AccessKeyId k.SecretAccessKey none,
          Event.GetUser k.AccessKeyId k.SecretAccessKey (some e)]
          ++ cleanupEvents k username d, s4⟩
  | persistFailed (k : AccessKey) (e : GoError) (d : Option GoError) (s1 s2 s3 s4 s5 : σ)
      (hc : c.CreateAccessKey username s0 = (.ok k, s1))
      (hl : c.LoadDefaultConfig k.AccessKeyId k.SecretAccessKey s1 = (none, s2))
      (hg : c.GetUser k.AccessKeyId k.SecretAccessKey s2 = (none, s3))
      (hp : c.CreateSecret k.AccessKeyId k.SecretAccessKey secretName (secretValue k) s3
        = (some e, s4))
      (hd : c.DeleteAccessKey k.AccessKeyId username s4 = (d, s5)) :
      Run c username secretName s0
        ⟨some (Errorf_w "failed to store key in Secrets Manager: " e),
         verifiedSteps username k ++
          [Event.CreateSecret k.AccessKeyId k.SecretAccessKey secretName (secretValue k)
            (some e)]
          ++ cleanupEvents k username d, s5⟩
  | listFailed (k : AccessKey) (e : GoError) (d : Option GoError) (s1 s2 s3 s4 s5 s6 : σ)
      (hc : c.CreateAccessKey username s0 = (.ok k, s1))
      (hl : c.LoadDefaultConfig k.AccessKeyId k.SecretAccessKey s1 = (none, s2))
      (hg : c.GetUser k.AccessKeyId k.SecretAccessKey s2 = (none, s3))
      (hp : c.CreateSecret k.AccessKeyId k.SecretAccessKey secretName (secretValue k) s3
        = (none, s4))
      (ha : c.ListAccessKeys username s4 = (.error e, s5))
      (hd : c.DeleteAccessKey k.AccessKeyId username s5 = (d, s6)) :
      Run c username secretName s0
        ⟨some (Errorf_w "failed to list access keys: " e),
         persistedSteps username secretName k
          ++ [Event.ListAccessKeys username (.error e)]
          ++ cleanupEvents k username d, s6⟩
  | nothingListed (k : AccessKey) (s1 s2 s3 s4 s5 : σ)
      (hc : c.CreateAccessKey username s0 = (.ok k, s1))
      (hl : c.LoadDefaultConfig k.AccessKeyId k.SecretAccessKey s1 = (none, s2))
      (hg : c.GetUser k.AccessKeyId k.SecretAccessKey s2 = (none, s3))
      (hp : c.CreateSecret k.AccessKeyId k.SecretAccessKey secretName (secretValue k) s3
        = (none, s4))
      (ha : c.ListAccessKeys username s4 = (.ok [], s5)) :
      Run c username secretName s0
        ⟨none, persistedSteps username secretName k
          ++ [Event.ListAccessKeys username (.ok [])], s5⟩
  | firstIsNew (k : AccessKey) (o : AccessKeyMetadata) (rest : List AccessKeyMetadata)
      (s1 s2 s3 s4 s5 : σ)
      (hc : c.CreateAccessKey username s0 = (.ok k, s1))
      (hl : c.LoadDefaultConfig k.AccessKeyId k.SecretAccessKey s1 = (none, s2))
      (hg : c.GetUser k.AccessKeyId k.SecretAccessKey s2 = (none, s3))
      (hp : c.CreateSecret k.AccessKeyId k.SecretAccessKey secretName (secretValue k) s3
        = (none, s4))
      (ha : c.ListAccessKeys username s4 = (.ok (o :: rest), s5))
      (ho : o.AccessKeyId = k.AccessKeyId) :
      Run c username secretName s0
        ⟨none, persistedSteps username secretName k
          ++ [Event.ListAccessKeys username (.ok (o :: rest))], s5⟩
  | retireFailed (k : AccessKey) (o : AccessKeyMetadata) (rest : List AccessKeyMetadata)
      (e : GoError) (d : Option GoError) (s1 s2 s3 s4 s5 s6 s7 : σ)
      (hc : c.CreateAccessKey username s0 = (.ok k, s1))
      (hl : c.LoadDefaultConfig k.AccessKeyId k.SecretAccessKey s1 = (none, s2))
      (hg : c.GetUser k.AccessKeyId k.SecretAccessKey s2 = (none, s3))
      (hp : c.CreateSecret k.AccessKeyId k.SecretAccessKey secretName (secretValue k) s3
        = (none, s4))
      (ha : c.ListAccessKeys username s4 = (.ok (o :: rest), s5))
      (ho : o.AccessKeyId ≠ k.AccessKeyId)
      (hr : c.DeleteAccessKey o.AccessKeyId username s5 = (some e, s6))
      (hd : c.DeleteAccessKey k.AccessKeyId username s6 = (d, s7)) :
      Run c username secretName s0
        ⟨some (Errorf_w "failed to delete old access key: " e),
         persistedSteps username secretName k
          ++ [Event.ListAccessKeys username (.ok (o :: rest)),
              Event.DeleteAccessKey o.AccessKeyId username (some e)]
          ++ cleanupEvents k username d, s7⟩
  | retired (k : AccessKey) (o : AccessKeyMetadata) (rest : List AccessKeyMetadata)
      (s1 s2 s3 s4 s5 s6 : σ)
      (hc : c.CreateAccessKey username s0 = (.ok k, s1))
      (hl : c.LoadDefaultConfig k.AccessKeyId k.SecretAccessKey s1 = (none, s2))
      (hg : c.GetUser k.AccessKeyId k.SecretAccessKey s2 = (none, s3))
      (hp : c.CreateSecret k.AccessKeyId k.SecretAccessKey secretName (secretValue k) s3
        = (none, s4))
      (ha : c.ListAccessKeys username s4 = (.ok (o :: rest), s5))
      (ho : o.AccessKeyId ≠ k.AccessKeyId)
      (hr : c.DeleteAccessKey o.AccessKeyId username s5 = (none, s6)) :
      Run c username secretName s0
        ⟨none, persistedSteps username secretName k
          ++ [Event.ListAccessKeys username (.ok (o :: rest)),
              Event.DeleteAccessKey o.AccessKeyId username none], s6⟩

/-! ## Reading a trace -/

/-- The `DeleteAccessKey` requests of a trace, in order: key id and user name. -/
def deleteCalls (tr : List Event) : List (String × String) :=
  tr.filterMap fun ev =>
    match ev with
    | .DeleteAccessKey id u _ => some (id, u)
    | _ => none

/-- Is the event a `CreateSecret` call? -/
def Event.isCreateSecret : Event → Bool
  | .CreateSecret _ _ _ _ _ => true
  | _ => false

/-- Is the event a `ListAccessKeys` call? -/
def Event.isListAccessKeys : Event → Bool
  | .ListAccessKeys _ _ => true
  | _ => false

/-- Is the event a line written to standard output? -/
def Event.isPrintf : Event → Bool
  | .Printf _ => true
  | _ => false

/-- The key ids of the `DeleteAccessKey` requests of a trace, in order. -/
def deletedIds (tr : List Event) : List String := (deleteCalls tr).map Prod.fst

/-- Is the event a `DeleteAccessKey` of key `id` that was answered with an error? -/
def Event.isFailedDelete (id : String) : Event → Bool
  | .DeleteAccessKey i _ (some _) => i == id
  | _ => false

/-- A failed verification or a failed `CreateSecret`: the two failures the design
document names as the start of a rollback. -/
def Event.isPrimaryFailure : Event → Bool
  | .GetUser _ _ (some _) => true
  | .CreateSecret _ _ _ _ (some _) => true
  | _ => false

/-- The error `rotateKeys` builds for a primary failure. -/
def primaryError : Event → Option GoError
  | .GetUser _ _ (some e) => some (Errorf_w "failed to test new access key: " e)
  | .CreateSecret _ _ _ _ (some e) =>
    some (Errorf_w "failed to store key in Secrets Manager: " e)
  | _ => none

/-- The effect of an answered call on the simulated store. -/
def SimState.apply (s : SimState) : Event → SimState
  | .CreateAccessKey _ (.ok k) => { s.bump with keys := s.keys ++ [k.AccessKeyId] }
  | .CreateAccessKey _ (.error _) => s.bump
  | .LoadDefaultConfig _ _ _ => s.bump
  | .GetUser _ _ _ => s.bump
  | .CreateSecret _ _ name value none => s.bump.putSecret name value
  | .CreateSecret _ _ _ _ (some _) => s.bump
  | .ListAccessKeys _ _ => s.bump
  | .DeleteAccessKey id _ none => s.bump.removeKey id
  | .DeleteAccessKey _ _ (some _) => s.bump
  | .Printf _ => s

/-! ## JSON text (RFC 8259), objects whose members are strings -/

/-- JSON insignificant whitespace: space, tab, line feed, carriage return. -/
def isJsonWs (c : Char) : Bool :=
  c = ' ' || c = '\t' || c = '\n' || c = '\r'

/-- Drop leading whitespace. -/
def skipWs : List Char → List Char
  | [] => []
  | c :: cs => if isJsonWs c then skipWs cs else c :: cs

/-- Value of a hexadecimal digit. -/
def hexDigit (c : Char) : Option Nat :=
  if '0' ≤ c ∧ c ≤ '9' then some (c.toNat - '0'.toNat)
  else if 'a' ≤ c ∧ c ≤ 'f' then some (c.toNat - 'a'.toNat + 10)
  else if 'A' ≤ c ∧ c ≤ 'F' then some (c.toNat - 'A'.toNat + 10)
  else none

/-- The 16-bit code unit written by four hexadecimal digits. -/
def hex4 (a b c d : Char) : Option Nat :=
  match hexDigit a, hexDigit b, hexDigit c, hexDigit d with
  | some w, some x, some y, some z => some (((w * 16 + x) * 16 + y) * 16 + z)
  | _, _, _, _ => none

/-- The character denoted by a two-character escape `\c`, for `c` other than `u`. -/
def simpleEscape (c : Char) : Option Char :=
  if c = '"' then some '"'
  else if c = '\\' then some '\\'
  else if c = '/' then some '/'
  else if c = 'b' then some (Char.ofNat 8)
  else if c = 'f' then some (Char.ofNat 12)
  else if c = 'n' then some '\n'
  else if c = 'r' then some '\r'
  else if c = 't' then some '\t'
  else none

/-- One element of a JSON string as written: a character taken literally or
through a two-character escape, or the code unit of a `\uXXXX` escape. -/
inductive StrUnit where
  | lit (c : Char)
  | esc (n : Nat)
deriving DecidableEq

/-- Put a scanned element in front of the rest of a scanned string. -/
def consUnit (u : StrUnit) (r : Option (List StrUnit × List Char)) :
    Option (List StrUnit × List Char) :=
  r.map (fun p => (u :: p.1, p.2))

/-- Scan a JSON string from just after its opening quote: its elements and the
input that follows the closing quote.  Unescaped control characters and unknown
escapes are rejected. -/
def scanStringBody : List Char → Option (List StrUnit × List Char)
  | [] => none
  | c :: rest =>
    if c = '"' then some ([], rest)
    else if c = '\\' then
      match rest with
      | [] => none
      | e :: rest1 =>
        if e = 'u' then
          match rest1 with
          | a :: b :: c1 :: d :: rest2 =>
            match hex4 a b c1 d with
            | none => none
            | some n => consUnit (.esc n) (scanStringBody rest2)
          | _ => none
        else
          match simpleEscape e with
          | some ch => consUnit (.lit ch) (scanStringBody rest1)
          | none => none
    else if c.toNat < 0x20 then none
    else consUnit (.lit c) (scanStringBody rest)

/-- Turn scanned elements into characters.  `\uXXXX` escapes are UTF-16 code
units: a high surrogate directly followed by a low surrogate makes one character,
any other surrogate decodes to U+FFFD.  `pending` is a high surrogate that still
waits for its partner. -/
def joinUnits : Option Nat → List StrUnit → List Char
  | none, [] => []
  | some _, [] => [Char.ofNat 0xFFFD]
  | none, .lit c :: r => c :: joinUnits none r
  | some _, .lit c :: r => Char.ofNat 0xFFFD :: c :: joinUnits none r
  | none, .esc n :: r =>
    if 0xD800 ≤ n ∧ n ≤ 0xDBFF then joinUnits (some n) r
    else if 0xDC00 ≤ n ∧ n ≤ 0xDFFF then Char.ofNat 0xFFFD :: joinUnits none r
    else Char.ofNat n :: joinUnits none r
  | some hi, .esc n :: r =>
    if 0xDC00 ≤ n ∧ n ≤ 0xDFFF then
      Char.ofNat (0x10000 + (hi - 0xD800) * 0x400 + (n - 0xDC00)) :: joinUnits none r
    else if 0xD800 ≤ n ∧ n ≤ 0xDBFF then Char.ofNat 0xFFFD :: joinUnits (some n) r
    else Char.ofNat 0xFFFD :: Char.ofNat n :: joinUnits none r

/-- Decode a JSON string from just after its opening quote. -/
def parseStringBody (cs : List Char) : Option (List Char × List Char) :=
  (scanStringBody cs).map (fun p => (joinUnits none p.1, p.2))

/-- Decode a JSON string including its opening quote. -/
def parseString : List Char → Option (List Char × List Char)
  | [] => none
  | c :: rest => if c = '"' then parseStringBody rest else none

/-- Decode one member `"name" : "value"` and whatever follows it up to the closing
brace; `fuel` bounds the number of members. -/
def parseMembers : Nat → List Char → Option (List (String × String) × List Char)
  | 0, _ => none
  | fuel + 1, cs =>
    match parseString cs with
    | none => none
    | some (name, r1) =>
      match skipWs r1 with
      | [] => none
      | colon :: r2 =>
        if colon = ':' then
          match parseString (skipWs r2) with
          | none => none
          | some (value, r3) =>
            match skipWs r3 with
            | [] => none
            | sep :: r4 =>
              if sep = '\x7d' then some ([(String.mk name, String.mk value)], r4)
              else if sep = ',' then
                match parseMembers fuel (skipWs r4) with
                | none => none
                | some (more, r5) => some ((String.mk name, String.mk value) :: more, r5)
              else none
        else none

/-- Decode a complete JSON text that is an object all of whose values are
strings: the members in order of appearance.  Any other text gives `none`. -/
def decodeFlatObject (text : String) : Option (List (String × String)) :=
  match skipWs text.data with
  | [] => none
  | c :: r =>
    if c = '\x7b' then
      match skipWs r with
      | [] => none
      | c1 :: r1 =>
        if c1 = '\x7d' then (if skipWs r1 = [] then some [] else none)
        else
          match parseMembers text.length (c1 :: r1) with
          | some (members, r2) => if skipWs r2 = [] then some members else none
          | none => none
    else none


/-- Characters a JSON string takes literally: anything but the quote, the
backslash and the control characters below U+0020. -/
def jsonPlain (c : Char) : Bool :=
  c != '"' && c != '\\' && decide (0x20 ≤ c.toNat)

/-! ## The rotate command around `rotateKeys` -/

/-- The function `sanitizeError` of `cmd/rotate.go`. -/
def sanitizeError (err : Option GoError) : Option GoError :=
  -- In a real implementation, you would sanitize the error message
  err

/-- How package `fmt` prints an operand of interface type `error` under `%v`:
a nil interface prints as `<nil>`. -/
def fmtVError (err : Option GoError) : String :=
  match err with
  | none => "<nil>"
  | some e => fmtV e

/-- The end of the `RunE` closure of `NewRotateCommand`, from the call of
`rotateKeys` on: the error it returns and the trace with the line it prints. -/
def rotateCommandTail {σ : Type} (c : Clients σ) (username secretName : String) (s0 : σ) :
    Outcome σ :=
  let r := rotateKeys c username secretName s0
  match r.ret with
  | some err =>
    ⟨some (.errorString ("❌ Rotation failed: " ++ fmtVError (sanitizeError (some err)))),
      r.trace, r.state⟩
  | none =>
    ⟨none,
      r.trace ++ [Event.Printf "✅ Key rotation complete. New key stored in Secrets Manager\n"],
      r.state⟩

/-- The type assertion `_, ok := err.(*awssdk.PermissionError)`. -/
def isPermissionError (err : Option GoError) : Bool :=
  match err with
  | some (.PermissionError _) => true
  | _ => false

/-- The type assertion `_, ok := err.(*awssdk.CredentialError)`. -/
def isCredentialError (err : Option GoError) : Bool :=
  match err with
  | some (.CredentialError _) => true
  | _ => false

/-! ## The test double `rotateKeysWithClients` -/

/-- The function fields of `mockIAMClient` and `mockSMClient` that
`rotateKeysWithClients` reaches; `none` is a nil function.  The mock Secrets
Manager client carries no credentials. -/
structure MockClients (σ : Type) where
  createKeyFunc : Option (String → σ → Except GoError AccessKey × σ)
  deleteKeyFunc : Option (String → String → σ → Option GoError × σ)
  listKeysFunc : Option (String → σ → Except GoError (List AccessKeyMetadata) × σ)
  createSecretFunc : Option (String → String → σ → Option GoError × σ)

/-- How a Go call ends: it returns an `error` value (`none` is nil) or it panics. -/
inductive Completion where
  | returned (err : Option GoError)
  | panicked
deriving DecidableEq

/-- What a run of the test double leaves behind. -/
structure MockOutcome (σ : Type) where
  result : Completion
  trace : List Event
  state : σ

/-- The deferred closure of `rotateKeysWithClients`: as in `rotateKeys`, but a
failure of the deletion is dropped without a warning.  A nil `deleteKeyFunc`
makes the mock method answer `(nil, nil)`. -/
def mockCleanup {σ : Type} (m : MockClients σ) (newKey : AccessKey) (username : String)
    (err : Option GoError) (tr : List Event) (s : σ) : List Event × σ :=
  match err with
  | none => (tr, s)
  | some _ =>
    match m.deleteKeyFunc with
    | none => (tr ++ [Event.DeleteAccessKey newKey.AccessKeyId username none], s)
    | some f =>
      match f newKey.AccessKeyId username s with
      | (deleteErr, s') =>
        (tr ++ [Event.DeleteAccessKey newKey.AccessKeyId username deleteErr], s')

/-- A `return` of `rotateKeysWithClients` after the `defer`. -/
def mockReturn {σ : Type} (m : MockClients σ) (newKey : AccessKey) (username : String)
    (result : Completion) (err : Option GoError) (tr : List Event) (s : σ) : MockOutcome σ :=
  let fin := mockCleanup m newKey username err tr s
  ⟨result, fin.1, fin.2⟩

/-- The function `rotateKeysWithClients` of `cmd/rotate_test.go`.  A mock method
whose function field is nil answers `(nil, nil)`; for `CreateAccessKey` and
`ListAccessKeys` the nil output is then dereferenced, which panics.  Events of the
mock `CreateSecret` carry empty credential fields. -/
def rotateKeysWithClients {σ : Type} (m : MockClients σ) (username secretName : String)
    (s0 : σ) : MockOutcome σ :=
  match m.createKeyFunc with
  | none => ⟨.panicked, [], s0⟩
  | some createKey =>
    match createKey username s0 with
    | (.error err, s1) =>
      ⟨.returned (some err), [Event.CreateAccessKey username (.error err)], s1⟩
    | (.ok newKey, s1) =>
      let t1 := [Event.CreateAccessKey username (.ok newKey)]
      -- 3. Store new key in Secrets Manager
      let stored : Option GoError × σ :=
        match m.createSecretFunc with
        | none => (none, s1)
        | some createSecret => createSecret secretName (secretValue newKey) s1
      match stored with
      | (some err, s2) =>
        mockReturn m newKey username (.returned (some err)) (some err)
          (t1 ++ [Event.CreateSecret "" "" secretName (secretValue newKey) (some err)]) s2
      | (none, s2) =>
        let t2 := t1 ++ [Event.CreateSecret "" "" secretName (secretValue newKey) none]
        -- 4. List existing keys to find the old one
        match m.listKeysFunc with
        | none => mockReturn m newKey username .panicked none t2 s2
        | some listKeys =>
          match listKeys username s2 with
          | (.error err, s3) =>
            mockReturn m newKey username (.returned (some err)) (some err)
              (t2 ++ [Event.ListAccessKeys username (.error err)]) s3
          | (.ok listResult, s3) =>
            let t3 := t2 ++ [Event.ListAccessKeys username (.ok listResult)]
            -- 5. Delete the old key (assuming we're rotating the first key)
            match listResult with
            | [] => mockReturn m newKey username (.returned none) none t3 s3
            | oldKey :: _ =>
              if oldKey.AccessKeyId ≠ newKey.AccessKeyId then
                let deleted : Option GoError × σ :=
                  match m.deleteKeyFunc with
                  | none => (none, s3)
                  | some deleteKey => deleteKey oldKey.AccessKeyId username s3
                match deleted with
                | (some err, s4) =>
                  mockReturn m newKey username (.returned (some err)) (some err)
                    (t3 ++ [Event.DeleteAccessKey oldKey.AccessKeyId username (some err)]) s4
                | (none, s4) =>
                  mockReturn m newKey username (.returned none) none
                    (t3 ++ [Event.DeleteAccessKey oldKey.AccessKeyId username none]) s4
              else mockReturn m newKey username (.returned none) none t3 s3

/-- The mock of `TestPermissionErrors`: `CreateAccessKey` answers a
`*PermissionError`, every other function field is nil. -/
def permissionDeniedMock : MockClients Unit :=
  ⟨some (fun _ s => (.error (.PermissionError (.val (.errorString "access denied"))), s)),
   none, none, none⟩

/-! ## Reading the vault -/

/-- Was the call of this event answered with an error? -/
def Event.failed : Event → Bool
  | .CreateAccessKey _ (.error _) => true
  | .LoadDefaultConfig _ _ (some _) => true
  | .GetUser _ _ (some _) => true
  | .CreateSecret _ _ _ _ (some _) => true
  | .ListAccessKeys _ (.error _) => true
  | .DeleteAccessKey _ _ (some _) => true
  | _ => false

/-- Is the event a call to IAM (as opposed to the configuration loader, Secrets
Manager or standard output)? -/
def Event.isIAMCall : Event → Bool
  | .CreateAccessKey _ _ => true
  | .GetUser _ _ _ => true
  | .ListAccessKeys _ _ => true
  | .DeleteAccessKey _ _ _ => true
  | _ => false

/-- The value the simulated vault holds under `name`, if any. -/
def SimState.secret (s : SimState) (name : String) : Option String :=
  s.vault.lookup name

/-- Alice with `K1`, and a vault that already holds an entry `vault/alice-key`. -/
def alice1 : SimState := ⟨["K1"], [("vault/alice-key", "old payload")], 0⟩

/-! ## User-facing error handlers -/

/-- The function `handleAWSErrors` of `cmd/status.go`: a type switch on the
dynamic type of `err` (`none` is the nil interface, which takes the default
branch). -/
def handleAWSErrors (err : Option GoError) : Option GoError :=
  match err with
  | some (.CredentialError _) =>
    some (.errorString "credential error: check your AWS credentials configuration")
  | some (.PermissionError _) =>
    some (.errorString
      "permission error: you don't have sufficient permissions to get user information")
  | _ => some (.errorString "AWS service error: cannot connect to IAM service")

/-- The function `handleRotateAWSErrors` of `cmd/rotate.go`. -/
def handleRotateAWSErrors (err : Option GoError) : Option GoError :=
  match err with
  | some (.CredentialError _) =>
    some (.errorString "credential error: check your AWS credentials configuration")
  | some (.PermissionError _) =>
    some (.errorString
      "permission error: you don't have sufficient permissions to rotate keys")
  | _ => some (.errorString "AWS service error: cannot connect to IAM service")

/-- The function `handleMFAErrors` of `cmd/mfa/enable.go`. -/
def handleMFAErrors (_err : Option GoError) : Option GoError :=
  -- Always return generic error message for security
  some (.errorString "❌ Operation failed: Invalid credentials")

/-- The function `handlePasswordResetErrors` of `cmd/password/reset.go`. -/
def handlePasswordResetErrors (_err : Option GoError) : Option GoError :=
  -- Always return generic error message for security
  some (.errorString "❌ Reset failed: Invalid credentials")

/-- The classification of an error value by its dynamic type, as the type
switches of the handlers see it. -/
inductive ErrorClass where
  | credential
  | permission
  | other
deriving DecidableEq

/-- The class of an `error` value: `*CredentialError`, `*PermissionError`, or
anything else (nil, `*ServiceError`, wrapped and plain errors). -/
def errorClass (err : Option GoError) : ErrorClass :=
  if isCredentialError err then .credential
  else if isPermissionError err then .permission
  else .other

/-- The text of a handler's result: its `Error()` string, if it returned an error
whose method does not panic. -/
def messageOf (err : Option GoError) : Option String :=
  match err with
  | none => none
  | some e => e.Error

/-! ## Strings -/

/-- Go's `strings.Contains` on character lists: does `substr` occur in `s`? -/
def containsChars : List Char → List Char → Bool
  | [], substr => substr.isEmpty
  | c :: cs, substr => substr.isPrefixOf (c :: cs) || containsChars cs substr

/-- Go's `strings.Contains(s, substr)`. -/
def stringsContains (s substr : String) : Bool :=
  containsChars s.data substr.data

/-- Go's `strings.Split(s, sep)` for a separator of one character, on character
lists: the pieces between the separators, one more than there are separators. -/
def splitChars (sep : Char) : List Char → List (List Char)
  | [] => [[]]
  | c :: cs =>
    if c = sep then [] :: splitChars sep cs
    else
      match splitChars sep cs with
      | [] => [[c]]
      | piece :: pieces => (c :: piece) :: pieces

/-- Go's `strings.Split(s, ":")`. -/
def stringsSplitColon (s : String) : List String :=
  (splitChars ':' s.data).map String.mk

/-- The function `extractAccountID` of `cmd/status.go`. -/
def extractAccountID (arn : String) : String :=
  -- arn:aws:iam::123456789012:user/username
  let parts := stringsSplitColon arn
  if h : parts.length ≥ 5 then parts[4] else "unknown"

/-- Go's `strings.Join` for a separator of one character, on character lists. -/
def joinChars (sep : Char) : List (List Char) → List Char
  | [] => []
  | [piece] => piece
  | piece :: next :: rest => piece ++ sep :: joinChars sep (next :: rest)

/-- Go's `strings.Join(fields, ":")`. -/
def joinColon (fields : List String) : String :=
  ⟨joinChars ':' (fields.map String.data)⟩

/-! ## Password complexity -/

/-- The four flags of `isValidPassword`. -/
structure CharTypes where
  hasLower : Bool
  hasUpper : Bool
  hasDigit : Bool
  hasSpecial : Bool
deriving DecidableEq

/-- One iteration of the `range` loop of `isValidPassword`. -/
def CharTypes.step (t : CharTypes) (char : Char) : CharTypes :=
  if 'a' ≤ char ∧ char ≤ 'z' then { t with hasLower := true }
  else if 'A' ≤ char ∧ char ≤ 'Z' then { t with hasUpper := true }
  else if '0' ≤ char ∧ char ≤ '9' then { t with hasDigit := true }
  else { t with hasSpecial := true }

/-- The number of flags that are set. -/
def CharTypes.count (t : CharTypes) : Nat :=
  (if t.hasLower then 1 else 0) + (if t.hasUpper then 1 else 0)
    + (if t.hasDigit then 1 else 0) + (if t.hasSpecial then 1 else 0)

/-- The function `isValidPassword` of `cmd/password/reset.go`, on passwords that
are valid UTF-8.  `len(password)` is the number of bytes of the string, the
`range` loop visits its characters. -/
def isValidPassword (password : String) : Bool :=
  if password.utf8ByteSize < 14 then false
  else
    let t := password.data.foldl CharTypes.step ⟨false, false, false, false⟩
    decide (t.count ≥ 3)

/-! ## Password reset: `resetPassword` -/

/-- The IAM client returned by `GetMFAEnabledClient`: the base configuration of a
profile with credentials that assume `roleARN` using the MFA device
`serialNumber` and the token `mfaToken`.  The role is assumed when the client
makes its first call, not when the client is built. -/
structure MFAClient where
  baseProfile : String
  roleARN : String
  serialNumber : String
  mfaToken : String
deriving DecidableEq

/-- One observable action of the password reset, with the answer it received. -/
inductive ResetEvent where
  | LoadDefaultConfig (profile : String) (err : Option GoError)
  | UpdateLoginProfile (client : MFAClient) (UserName Password : String)
      (err : Option GoError)
  | CreateLoginProfile (client : MFAClient) (UserName Password : String)
      (err : Option GoError)
deriving DecidableEq

/-- The collaborators of the password reset over a world state `σ`. -/
structure ResetClients (σ : Type) where
  LoadDefaultConfig : String → σ → Option GoError × σ
  UpdateLoginProfile : MFAClient → String → String → σ → Option GoError × σ
  CreateLoginProfile : MFAClient → String → String → σ → Option GoError × σ

/-- What a run of `resetPassword` leaves behind. -/
structure ResetOutcome (σ : Type) where
  result : Completion
  trace : List ResetEvent
  state : σ

/-- The function `GetMFAEnabledClient` of `internal/aws/mfa.go`: it loads the base
configuration and, unless that fails, returns a client; no other call is made. -/
def GetMFAEnabledClient {σ : Type} (c : ResetClients σ)
    (baseProfile roleARN serialNumber mfaToken : String) (s : σ) :
    Except GoError MFAClient × List ResetEvent × σ :=
  match c.LoadDefaultConfig baseProfile s with
  | (some err, s1) => (.error err, [ResetEvent.LoadDefaultConfig baseProfile (some err)], s1)
  | (none, s1) =>
    (.ok ⟨baseProfile, roleARN, serialNumber, mfaToken⟩,
      [ResetEvent.LoadDefaultConfig baseProfile none], s1)

/-- The function `resetPassword` of `cmd/password/reset.go`.  The call
`err.Error()` inside `strings.Contains` panics when the method does. -/
def resetPassword {σ : Type} (c : ResetClients σ)
    (profile username password serialNumber mfaToken : String) (s0 : σ) : ResetOutcome σ :=
  -- Create MFA-enabled client
  match GetMFAEnabledClient c profile "" serialNumber mfaToken s0 with
  | (.error err, t0, s1) =>
    ⟨.returned (some (Errorf_w "failed to create MFA-enabled client: " err)), t0, s1⟩
  | (.ok mfaClient, t0, s1) =>
    -- Reset password
    match c.UpdateLoginProfile mfaClient username password s1 with
    | (none, s2) =>
      ⟨.returned none, t0 ++ [ResetEvent.UpdateLoginProfile mfaClient username password none], s2⟩
    | (some err, s2) =>
      let t1 := t0 ++ [ResetEvent.UpdateLoginProfile mfaClient username password (some err)]
      match err.Error with
      | none => ⟨.panicked, t1, s2⟩
      | some text =>
        -- If login profile doesn't exist, create it
        if stringsContains text "NoSuchEntity" then
          match c.CreateLoginProfile mfaClient username password s2 with
          | (some err2, s3) =>
            ⟨.returned (some (Errorf_w "failed to create login profile: " err2)),
              t1 ++ [ResetEvent.CreateLoginProfile mfaClient username password (some err2)], s3⟩
          | (none, s3) =>
            ⟨.returned none,
              t1 ++ [ResetEvent.CreateLoginProfile mfaClient username password none], s3⟩
        else
          ⟨.returned (some (Errorf_w "failed to update login profile: " err)), t1, s2⟩

/-- The `CreateLoginProfile` requests of a trace: user name, password, answer. -/
def createProfileCalls (tr : List ResetEvent) : List (String × String × Option GoError) :=
  tr.filterMap fun ev =>
    match ev with
    | .CreateLoginProfile _ u p d => some (u, p, d)
    | _ => none

/-- Collaborators without state: the configuration loads, `UpdateLoginProfile`
answers `update`, `CreateLoginProfile` answers `create`. -/
def resetWorld (update create : Option GoError) : ResetClients Unit where
  LoadDefaultConfig := fun _ s => (none, s)
  UpdateLoginProfile := fun _ _ _ s => (update, s)
  CreateLoginProfile := fun _ _ _ s => (create, s)

/-- The answer of IAM for a user without login profile. -/
def noSuchEntity : GoError :=
  .APIError "NoSuchEntity" "Login Profile for User testuser cannot be found."

/-! ## MFA enrolment: `enableMFA` -/

/-- The part of `types.VirtualMFADevice` that `enableMFA` reads.  `QRCodePNG` is
a byte slice. -/
structure VirtualMFADevice where
  SerialNumber : String
  QRCodePNG : List UInt8
deriving DecidableEq

/-- One observable action of `enableMFA`, with the answer it received.  The two
authentication codes are byte strings: they are slices of the token. -/
inductive MfaEvent where
  | Now (unix : Int)
  | CreateVirtualMFADevice (VirtualMFADeviceName : String)
      (res : Except GoError VirtualMFADevice)
  | EnableMFADevice (UserName SerialNumber : String)
      (AuthenticationCode1 AuthenticationCode2 : List UInt8) (err : Option GoError)
  | DeleteVirtualMFADevice (SerialNumber : String) (err : Option GoError)
  | Printf (text : String)
deriving DecidableEq

/-- The collaborators of `enableMFA` over a world state `σ`; `Now` is
`time.Now().Unix()`. -/
structure MfaClients (σ : Type) where
  Now : σ → Int × σ
  CreateVirtualMFADevice : String → σ → Except GoError VirtualMFADevice × σ
  EnableMFADevice : String → String → List UInt8 → List UInt8 → σ → Option GoError × σ
  DeleteVirtualMFADevice : String → σ → Option GoError × σ

/-- How a call of `enableMFA` ends: it returns a string (as bytes) and an `error`,
or it panics. -/
inductive MfaCompletion where
  | returned (value : List UInt8) (err : Option GoError)
  | panicked
deriving DecidableEq

/-- What a run of `enableMFA` leaves behind. -/
structure MfaOutcome (σ : Type) where
  result : MfaCompletion
  trace : List MfaEvent
  state : σ

/-- The function `validateCredentials` of `cmd/mfa/enable.go`. -/
def validateCredentials (_profile _username _password : String) (_mfaToken : List UInt8) :
    Option GoError :=
  -- For now, we'll just return nil to indicate success
  none

/-- The function `enableMFA` of `cmd/mfa/enable.go`.  The token is a Go string,
that is a sequence of bytes; the slice expressions `mfaToken[:6]` and
`mfaToken[6:]` panic when it has fewer than 6 bytes. -/
def enableMFA {σ : Type} (c : MfaClients σ) (profile username password : String)
    (mfaToken : List UInt8) (s0 : σ) : MfaOutcome σ :=
  -- First validate current credentials
  match validateCredentials profile username password mfaToken with
  | some err => ⟨.returned [] (some err), [], s0⟩
  | none =>
    -- Create virtual MFA device
    match c.Now s0 with
    | (unix, s1) =>
      let deviceName := "iamctl-" ++ username ++ "-" ++ toString unix
      let t1 := [MfaEvent.Now unix]
      match c.CreateVirtualMFADevice deviceName s1 with
      | (.error err, s2) =>
        ⟨.returned [] (some (Errorf_w "failed to create virtual MFA device: " err)),
          t1 ++ [MfaEvent.CreateVirtualMFADevice deviceName (.error err)], s2⟩
      | (.ok device, s2) =>
        let t2 := t1 ++ [MfaEvent.CreateVirtualMFADevice deviceName (.ok device)]
        -- Enable the MFA device
        if mfaToken.length < 6 then ⟨.panicked, t2, s2⟩
        else
          match c.EnableMFADevice username device.SerialNumber (mfaToken.take 6)
              (mfaToken.drop 6) s2 with
          | (some err, s3) =>
            let t3 := t2 ++ [MfaEvent.EnableMFADevice username device.SerialNumber
              (mfaToken.take 6) (mfaToken.drop 6) (some err)]
            -- Clean up the virtual MFA device if enabling failed
            match c.DeleteVirtualMFADevice device.SerialNumber s3 with
            | (some deleteErr, s4) =>
              ⟨.returned [] (some (Errorf_w "failed to enable MFA device: " err)),
                t3 ++ [MfaEvent.DeleteVirtualMFADevice device.SerialNumber (some deleteErr),
                  MfaEvent.Printf ("Warning: Failed to clean up virtual MFA device: "
                    ++ fmtV deleteErr ++ "\n")], s4⟩
            | (none, s4) =>
              ⟨.returned [] (some (Errorf_w "failed to enable MFA device: " err)),
                t3 ++ [MfaEvent.DeleteVirtualMFADevice device.SerialNumber none], s4⟩
          | (none, s3) =>
            ⟨.returned device.QRCodePNG none,
              t2 ++ [MfaEvent.EnableMFADevice username device.SerialNumber
                (mfaToken.take 6) (mfaToken.drop 6) none], s3⟩

/-- The serial numbers of the `DeleteVirtualMFADevice` requests of a trace. -/
def deletedDevices (tr : List MfaEvent) : List String :=
  tr.filterMap fun ev =>
    match ev with
    | .DeleteVirtualMFADevice serial _ => some serial
    | _ => none

/-- The bytes of a string of ASCII characters. -/
def asciiBytes (s : String) : List UInt8 :=
  s.data.map fun ch => UInt8.ofNat ch.toNat

/-- The device of the repository's MFA tests. -/
def testDevice : VirtualMFADevice :=
  ⟨"arn:aws:iam::123456789012:mfa/testuser",
   asciiBytes "otpauth://totp/AWS:testuser?secret=TESTSECRET"⟩

/-- Collaborators without state: the clock reads 1700000000, the device of the
tests is created, `EnableMFADevice` answers `enable`, `DeleteVirtualMFADevice`
answers `delete`. -/
def mfaWorld (enable delete : Option GoError) : MfaClients Unit where
  Now := fun s => (1700000000, s)
  CreateVirtualMFADevice := fun _ s => (.ok testDevice, s)
  EnableMFADevice := fun _ _ _ _ s => (enable, s)
  DeleteVirtualMFADevice := fun _ s => (delete, s)

/-! ## MFA removal: the confirmation of `mfa disable` and `disableMFA` -/

/-- Go's `unicode.IsSpace`: the Latin-1 spaces and the code points with the
Unicode property White_Space. -/
def unicodeIsSpace (r : Char) : Bool :=
  let n := r.toNat
  (9 ≤ n && n ≤ 13) || n == 0x20 || n == 0x85 || n == 0xA0 || n == 0x1680
    || (0x2000 ≤ n && n ≤ 0x200a) || n == 0x2028 || n == 0x2029 || n == 0x202f
    || n == 0x205f || n == 0x3000

/-- Go's `strings.TrimSpace`: all leading and trailing white space is removed. -/
def stringsTrimSpace (s : String) : String :=
  ⟨((s.data.dropWhile unicodeIsSpace).reverse.dropWhile unicodeIsSpace).reverse⟩

/-- An instant of `time.Time`, as an offset from the zero `Time`. -/
abbrev Time := Int

/-- The part of `types.MFADevice` that the commands read. -/
structure MFADevice where
  SerialNumber : String
  EnableDate : Time
deriving DecidableEq

/-- One observable action of the `mfa disable` command from the confirmation
prompt on, with the answer it received. -/
inductive DisableEvent where
  | Print (text : String)
  | ReadString (line : String) (err : Option GoError)
  | ListMFADevices (UserName : String) (res : Except GoError (List MFADevice))
  | DeactivateMFADevice (UserName SerialNumber : String) (err : Option GoError)
  | DeleteVirtualMFADevice (SerialNumber : String) (err : Option GoError)
deriving DecidableEq

/-- The collaborators of the `mfa disable` command over a world state `σ`:
standard input, read up to a newline, and the IAM client. -/
structure DisableClients (σ : Type) where
  ReadString : σ → (String × Option GoError) × σ
  ListMFADevices : String → σ → Except GoError (List MFADevice) × σ
  DeactivateMFADevice : String → String → σ → Option GoError × σ
  DeleteVirtualMFADevice : String → σ → Option GoError × σ

/-- What a run of the `mfa disable` command leaves behind. -/
structure DisableOutcome (σ : Type) where
  ret : Option GoError
  trace : List DisableEvent
  state : σ

/-- The function `disableMFA` of `cmd/mfa/disable.go`. -/
def disableMFA {σ : Type} (c : DisableClients σ) (profile username password : String)
    (mfaToken : List UInt8) (s0 : σ) : DisableOutcome σ :=
  -- First validate current credentials
  match validateCredentials profile username password mfaToken with
  | some err => ⟨some err, [], s0⟩
  | none =>
    -- List MFA devices to get the serial number
    match c.ListMFADevices username s0 with
    | (.error err, s1) =>
      ⟨some (Errorf_w "failed to list MFA devices: " err),
        [DisableEvent.ListMFADevices username (.error err)], s1⟩
    | (.ok [], s1) =>
      -- Check if any MFA devices exist
      ⟨some (.errorString "no MFA devices found for user"),
        [DisableEvent.ListMFADevices username (.ok [])], s1⟩
    | (.ok (device :: rest), s1) =>
      -- Use the first MFA device (assuming only one)
      let t1 := [DisableEvent.ListMFADevices username (.ok (device :: rest))]
      -- Deactivate MFA device
      match c.DeactivateMFADevice username device.SerialNumber s1 with
      | (some err, s2) =>
        ⟨some (Errorf_w "failed to deactivate MFA device: " err),
          t1 ++ [DisableEvent.DeactivateMFADevice username device.SerialNumber (some err)], s2⟩
      | (none, s2) =>
        let t2 := t1 ++ [DisableEvent.DeactivateMFADevice username device.SerialNumber none]
        -- Delete virtual MFA device
        match c.DeleteVirtualMFADevice device.SerialNumber s2 with
        | (some err, s3) =>
          ⟨some (Errorf_w "failed to delete virtual MFA device: " err),
            t2 ++ [DisableEvent.DeleteVirtualMFADevice device.SerialNumber (some err)], s3⟩
        | (none, s3) =>
          ⟨none, t2 ++ [DisableEvent.DeleteVirtualMFADevice device.SerialNumber none], s3⟩

/-- The `RunE` function of `NewDisableCommand` from its "Double confirmation"
step on: the user, the password and the token have been obtained. -/
def disableCommandTail {σ : Type} (c : DisableClients σ) (profile username password : String)
    (mfaToken : List UInt8) (s0 : σ) : DisableOutcome σ :=
  -- Double confirmation
  let t0 := [DisableEvent.Print "Are you sure you want to disable MFA? Type 'YES' to confirm: "]
  match c.ReadString s0 with
  | ((confirmation, some err), s1) =>
    ⟨some (.errorString "❌ Operation failed: Invalid credentials"),
      t0 ++ [DisableEvent.ReadString confirmation (some err)], s1⟩
  | ((confirmation, none), s1) =>
    let t1 := t0 ++ [DisableEvent.ReadString confirmation none]
    if stringsTrimSpace confirmation ≠ "YES" then
      ⟨some (.errorString "❌ Operation cancelled"), t1, s1⟩
    else
      -- Disable MFA
      let run := disableMFA c profile username password mfaToken s1
      match run.ret with
      | some _ =>
        ⟨some (.errorString "❌ Operation failed: Invalid credentials"),
          t1 ++ run.trace, run.state⟩
      | none =>
        ⟨none, t1 ++ run.trace ++ [DisableEvent.Print "✅ MFA disabled successfully\n"],
          run.state⟩

/-- The events that are calls of the IAM client. -/
def DisableEvent.isIAMCall : DisableEvent → Bool
  | .ListMFADevices _ _ => true
  | .DeactivateMFADevice _ _ _ => true
  | .DeleteVirtualMFADevice _ _ => true
  | _ => false

/-- Collaborators without state: standard input holds `line`, the user has the
devices `devices`, and the IAM calls succeed. -/
def disableWorld (line : String) (devices : List MFADevice) : DisableClients Unit where
  ReadString := fun s => ((line, none), s)
  ListMFADevices := fun _ s => (.ok devices, s)
  DeactivateMFADevice := fun _ _ s => (none, s)
  DeleteVirtualMFADevice := fun _ s => (none, s)

/-! ## The current user: `GetCurrentUser` -/

/-- The part of `types.User` that the commands read. -/
structure User where
  UserName : String
  Arn : String
deriving DecidableEq

/-- Go's `errors.As(err, &ae)` for a target `ae` of the interface type
`smithy.APIError`, followed by `ae.ErrorCode()`: the chain of wrapped errors is
searched for the first API error.  The classification types have no `Unwrap`
method, so the search stops at them. -/
def asAPIErrorCode : GoError → Option String
  | .APIError code _ => some code
  | .wrapError _ err => asAPIErrorCode err
  | _ => none

/-- The function `GetCurrentUser` of `internal/aws/utils.go`: the user pointer
and the `error` it returns, `none` being nil. -/
def GetCurrentUser {σ : Type} (GetUser : σ → Except GoError User × σ) (s : σ) :
    (Option User × Option GoError) × σ :=
  match GetUser s with
  | (.error err, s1) =>
    match asAPIErrorCode err with
    | some code =>
      if code = "UnrecognizedClientException" ∨ code = "InvalidClientTokenId" then
        ((none, some (.CredentialError (.val err))), s1)
      else if code = "AccessDeniedException" then
        ((none, some (.PermissionError (.val err))), s1)
      else ((none, some (.ServiceError (.val err))), s1)
    | none => ((none, some (.ServiceError (.val err))), s1)
  | (.ok user, s1) => ((some user, none), s1)

/-! ## MFA status: `getMFAStatus` -/

/-- The type `MFAStatus` of `cmd/mfa/status.go`. -/
structure MFAStatus where
  Enabled : Bool
  Status : String
  Device : String
  Enrolled : Time
deriving DecidableEq

/-- The function `getMFAStatus` of `cmd/mfa/status.go`: the status pointer and the
`error` it returns, `none` being nil.  A field that the composite literal leaves
out has its zero value. -/
def getMFAStatus {σ : Type} (ListMFADevices : String → σ → Except GoError (List MFADevice) × σ)
    (username : String) (s : σ) : (Option MFAStatus × Option GoError) × σ :=
  match ListMFADevices username s with
  | (.error err, s1) => ((none, some (Errorf_w "failed to list MFA devices: " err)), s1)
  | (.ok [], s1) => ((some ⟨false, "Disabled", "None", 0⟩, none), s1)
  | (.ok (device :: _), s1) =>
    ((some ⟨true, "Enabled", device.SerialNumber, device.EnableDate⟩, none), s1)

/-! ## The MFA check of the password reset: `validateMFA` -/

/-- The function `validateMFA` of `cmd/password/reset.go`. -/
def validateMFA {σ : Type} (c : ResetClients σ)
    (profile _username serialNumber mfaToken : String) (s : σ) :
    Option GoError × List ResetEvent × σ :=
  -- Create MFA-enabled client to validate MFA token
  match GetMFAEnabledClient c profile "" serialNumber mfaToken s with
  | (.error err, t, s1) => (some (Errorf_w "MFA validation failed: " err), t, s1)
  | (.ok _, t, s1) => (none, t, s1)

/-! ## Comparing `rotateKeys` with its test double -/

/-- The calls that `rotateKeys` and `rotateKeysWithClients` have in common, each
with its arguments and its answer; the credentials behind the Secrets Manager
client are left out. -/
def Event.sharedCall : Event → Option Event
  | .CreateAccessKey u r => some (.CreateAccessKey u r)
  | .CreateSecret _ _ n v e => some (.CreateSecret "" "" n v e)
  | .ListAccessKeys u r => some (.ListAccessKeys u r)
  | .DeleteAccessKey i u e => some (.DeleteAccessKey i u e)
  | _ => none

/-- The mock clients that answer as the collaborators `c` do. -/
def mockOf {σ : Type} (c : Clients σ) : MockClients σ :=
  ⟨some c.CreateAccessKey, some c.DeleteAccessKey, some c.ListAccessKeys,
   some (c.CreateSecret "" "")⟩

/-- Collaborators over the list of live key ids: `CreateAccessKey` mints `mint`,
the verification and Secrets Manager succeed and change nothing, listings report
the live ids in store order, and `DeleteAccessKey` removes the id. -/
def keyStore (mint : AccessKey) : Clients (List String) where
  CreateAccessKey := fun _ s => (.ok mint, s ++ [mint.AccessKeyId])
  LoadDefaultConfig := fun _ _ s => (none, s)
  GetUser := fun _ _ s => (none, s)
  CreateSecret := fun _ _ _ _ s => (none, s)
  ListAccessKeys := fun _ s => (.ok (s.map AccessKeyMetadata.mk), s)
  DeleteAccessKey := fun id _ s => (none, s.filter (fun k => k ≠ id))

/-- Collaborators without state whose standard input ends before a newline:
`ReadString` answers the text read so far together with `io.EOF`; the user has
the devices `devices`, and the IAM calls succeed. -/
def disableWorldEOF (pending : String) (devices : List MFADevice) : DisableClients Unit where
  ReadString := fun s => ((pending, some (.errorString "EOF")), s)
  ListMFADevices := fun _ s => (.ok devices, s)
  DeactivateMFADevice := fun _ _ s => (none, s)
  DeleteVirtualMFADevice := fun _ s => (none, s)

/-- The listing of a user with one virtual MFA device. -/
def listedDevices : List MFADevice := [⟨"arn:aws:iam::123456789012:mfa/testuser", 0⟩]

/-- The error of a `CreateSecret` call for a name that is already in use: the
operation error of the SDK around the API error of the service. -/
def resourceExists (name : String) : GoError :=
  Errorf_w "operation error Secrets Manager: CreateSecret, "
    (.APIError "ResourceExistsException"
      ("The operation failed because the secret " ++ name ++ " already exists."))

/-- The collaborators backed by the simulated store, with `CreateSecret` as the
operation of that name behaves: it creates the entry, and it refuses a name that
is already in use, leaving the entry as it is.  The other calls are those of
`Sim.clients`. -/
def Sim.serviceClients (w : Sim) : Clients SimState :=
  { w.clients with
    CreateSecret := fun _ _ name value s =>
      match w.fault s.calls with
      | some e => (some e, s.bump)
      | none =>
        match s.secret name with
        | some _ => (some (resourceExists name), s.bump)
        | none => (none, s.bump.putSecret name value) }

/-! ## General lemmas -/

/-- The deferred closure with a non-nil `err`: one `DeleteAccessKey` of the new
key, and a warning line when that call fails. -/
theorem deferredCleanup_some {σ : Type} (c : Clients σ) (k : AccessKey) (u : String)
    (e : GoError) (tr : List Event) (s : σ) :
    deferredCleanup c k u (some e) tr s
      = (tr ++ cleanupEvents k u (c.DeleteAccessKey k.AccessKeyId u s).1,
         (c.DeleteAccessKey k.AccessKeyId u s).2) := by
  unfold deferredCleanup cleanupEvents
  rcases h : c.DeleteAccessKey k.AccessKeyId u s with ⟨_ | d, s'⟩ <;> simp [h]

/-- Every run of `rotateKeys` follows one of the nine paths. -/
theorem rotateKeys_run {σ : Type} (c : Clients σ) (username secretName : String) (s0 : σ) :
    Run c username secretName s0 (rotateKeys c username secretName s0) := by
  unfold rotateKeys
  rcases hc : c.CreateAccessKey username s0 with ⟨e | k, s1⟩
  · exact Run.createFailed e s1 hc
  dsimp only
  rcases hl : c.LoadDefaultConfig k.AccessKeyId k.SecretAccessKey s1 with ⟨_ | e, s2⟩
  swap
  · simp only [returnWith, deferredCleanup_some]
    exact Run.configFailed k e _ s1 s2 _ hc hl rfl
  dsimp only
  rcases hg : c.GetUser k.AccessKeyId k.SecretAccessKey s2 with ⟨_ | e, s3⟩
  swap
  · simp only [returnWith, deferredCleanup_some]
    exact Run.verifyFailed k e _ s1 s2 s3 _ hc hl hg rfl
  dsimp only
  rcases hp : c.CreateSecret k.AccessKeyId k.SecretAccessKey secretName (secretValue k) s3
    with ⟨_ | e, s4⟩
  swap
  · simp only [returnWith, deferredCleanup_some]
    exact Run.persistFailed k e _ s1 s2 s3 s4 _ hc hl hg hp rfl
  dsimp only
  rcases ha : c.ListAccessKeys username s4 with ⟨e | l, s5⟩
  · simp only [returnWith, deferredCleanup_some]
    exact Run.listFailed k e _ s1 s2 s3 s4 s5 _ hc hl hg hp ha rfl
  dsimp only
  rcases l with _ | ⟨o, rest⟩
  · exact Run.nothingListed k s1 s2 s3 s4 s5 hc hl hg hp ha
  dsimp only
  by_cases h : o.AccessKeyId = k.AccessKeyId
  · rw [if_neg (by simpa using h)]
    exact Run.firstIsNew k o rest s1 s2 s3 s4 s5 hc hl hg hp ha h
  rw [if_pos h]
  rcases hr : c.DeleteAccessKey o.AccessKeyId username s5 with ⟨_ | e, s6⟩
  · exact Run.retired k o rest s1 s2 s3 s4 s5 s6 hc hl hg hp ha h hr
  · simp only [returnWith, deferredCleanup_some]
    exact Run.retireFailed k o rest e _ s1 s2 s3 s4 s5 s6 _ hc hl hg hp ha h hr rfl

/-! ## The simulated store -/

/-- A `CreateAccessKey` answer of the simulated store and the state after it. -/
theorem sim_create {w : Sim} {u : String} {s s' : SimState} {res : Except GoError AccessKey}
    (h : w.clients.CreateAccessKey u s = (res, s')) :
    s' = s.apply (.CreateAccessKey u res) ∧ ∀ k, res = .ok k → k = w.mint := by
  simp only [Sim.clients] at h
  cases hf : w.fault s.calls <;> simp only [hf, Prod.mk.injEq] at h <;>
    obtain ⟨rfl, rfl⟩ := h <;> simp [SimState.apply]

/-- The state after a `LoadDefaultConfig` answer. -/
theorem sim_config {w : Sim} {a b : String} {s s' : SimState} {d : Option GoError}
    (h : w.clients.LoadDefaultConfig a b s = (d, s')) : s' = s.apply (.LoadDefaultConfig a b d) := by
  simp only [Sim.clients, Prod.mk.injEq] at h
  obtain ⟨rfl, rfl⟩ := h
  rfl

/-- The state after a `GetUser` answer. -/
theorem sim_getUser {w : Sim} {a b : String} {s s' : SimState} {d : Option GoError}
    (h : w.clients.GetUser a b s = (d, s')) : s' = s.apply (.GetUser a b d) := by
  simp only [Sim.clients, Prod.mk.injEq] at h
  obtain ⟨rfl, rfl⟩ := h
  rfl

/-- The state after a `CreateSecret` answer. -/
theorem sim_createSecret {w : Sim} {a b n v : String} {s s' : SimState} {d : Option GoError}
    (h : w.clients.CreateSecret a b n v s = (d, s')) : s' = s.apply (.CreateSecret a b n v d) := by
  simp only [Sim.clients] at h
  cases hf : w.fault s.calls <;> simp only [hf, Prod.mk.injEq] at h <;>
    obtain ⟨rfl, rfl⟩ := h <;> simp [SimState.apply]

/-- A `ListAccessKeys` answer of the simulated store and the state after it. -/
theorem sim_list {w : Sim} {u : String} {s s' : SimState}
    {res : Except GoError (List AccessKeyMetadata)}
    (h : w.clients.ListAccessKeys u s = (res, s')) :
    s' = s.apply (.ListAccessKeys u res) ∧
      ∀ l, res = .ok l → l = (w.order s.keys).map AccessKeyMetadata.mk := by
  simp only [Sim.clients] at h
  cases hf : w.fault s.calls <;> simp only [hf, Prod.mk.injEq] at h <;>
    obtain ⟨rfl, rfl⟩ := h <;> simp [SimState.apply]

/-- The state after a `DeleteAccessKey` answer. -/
theorem sim_delete {w : Sim} {id u : String} {s s' : SimState} {d : Option GoError}
    (h : w.clients.DeleteAccessKey id u s = (d, s')) : s' = s.apply (.DeleteAccessKey id u d) := by
  simp only [Sim.clients] at h
  cases hf : w.fault s.calls <;> simp only [hf, Prod.mk.injEq] at h <;>
    obtain ⟨rfl, rfl⟩ := h <;> simp [SimState.apply]

/-- Replaying a cleanup on the store. -/
theorem foldl_cleanup (s : SimState) (k : AccessKey) (u : String) (d : Option GoError) :
    (cleanupEvents k u d).foldl SimState.apply s = s.apply (.DeleteAccessKey k.AccessKeyId u d) := by
  cases d <;> simp [cleanupEvents, SimState.apply]

/-- On the simulated store the final state of a run is the replay of its trace. -/
theorem sim_replay (w : Sim) (username secretName : String) (s0 : SimState) :
    (rotateKeys w.clients username secretName s0).state
      = (rotateKeys w.clients username secretName s0).trace.foldl SimState.apply s0 := by
  have h := rotateKeys_run w.clients username secretName s0
  generalize rotateKeys w.clients username secretName s0 = r at h
  cases h with
  | createFailed e s1 hc =>
    obtain ⟨rfl, -⟩ := sim_create hc
    rfl
  | configFailed k e d s1 s2 s3 hc hl hd =>
    obtain ⟨rfl, -⟩ := sim_create hc
    obtain rfl := sim_config hl
    obtain rfl := sim_delete hd
    simp [List.foldl_append, foldl_cleanup]
  | verifyFailed k e d s1 s2 s3 s4 hc hl hg hd =>
    obtain ⟨rfl, -⟩ := sim_create hc
    obtain rfl := sim_config hl
    obtain rfl := sim_getUser hg
    obtain rfl := sim_delete hd
    simp [List.foldl_append, foldl_cleanup]
  | persistFailed k e d s1 s2 s3 s4 s5 hc hl hg hp hd =>
    obtain ⟨rfl, -⟩ := sim_create hc
    obtain rfl := sim_config hl
    obtain rfl := sim_getUser hg
    obtain rfl := sim_createSecret hp
    obtain rfl := sim_delete hd
    simp [List.foldl_append, foldl_cleanup, verifiedSteps]
  | listFailed k e d s1 s2 s3 s4 s5 s6 hc hl hg hp ha hd =>
    obtain ⟨rfl, -⟩ := sim_create hc
    obtain rfl := sim_config hl
    obtain rfl := sim_getUser hg
    obtain rfl := sim_createSecret hp
    obtain ⟨rfl, -⟩ := sim_list ha
    obtain rfl := sim_delete hd
    simp [List.foldl_append, foldl_cleanup, verifiedSteps, persistedSteps]
  | nothingListed k s1 s2 s3 s4 s5 hc hl hg hp ha =>
    obtain ⟨rfl, -⟩ := sim_create hc
    obtain rfl := sim_config hl
    obtain rfl := sim_getUser hg
    obtain rfl := sim_createSecret hp
    obtain ⟨rfl, -⟩ := sim_list ha
    simp [verifiedSteps, persistedSteps]
  | firstIsNew k o rest s1 s2 s3 s4 s5 hc hl hg hp ha ho =>
    obtain ⟨rfl, -⟩ := sim_create hc
    obtain rfl := sim_config hl
    obtain rfl := sim_getUser hg
    obtain rfl := sim_createSecret hp
    obtain ⟨rfl, -⟩ := sim_list ha
    simp [verifiedSteps, persistedSteps]
  | retireFailed k o rest e d s1 s2 s3 s4 s5 s6 s7 hc hl hg hp ha ho hr hd =>
    obtain ⟨rfl, -⟩ := sim_create hc
    obtain rfl := sim_config hl
    obtain rfl := sim_getUser hg
    obtain rfl := sim_createSecret hp
    obtain ⟨rfl, -⟩ := sim_list ha
    obtain rfl := sim_delete hr
    obtain rfl := sim_delete hd
    simp [List.foldl_append, foldl_cleanup, verifiedSteps, persistedSteps]
  | retired k o rest s1 s2 s3 s4 s5 s6 hc hl hg hp ha ho hr =>
    obtain ⟨rfl, -⟩ := sim_create hc
    obtain rfl := sim_config hl
    obtain rfl := sim_getUser hg
    obtain rfl := sim_createSecret hp
    obtain ⟨rfl, -⟩ := sim_list ha
    obtain rfl := sim_delete hr
    simp [verifiedSteps, persistedSteps]

/-- The live keys of the simulated store when `ListAccessKeys` is reached. -/
theorem sim_keys_when_listing {w : Sim} {u sn : String} {k : AccessKey}
    {s0 s1 s2 s3 s4 : SimState}
    (hc : w.clients.CreateAccessKey u s0 = (.ok k, s1))
    (hl : w.clients.LoadDefaultConfig k.AccessKeyId k.SecretAccessKey s1 = (none, s2))
    (hg : w.clients.GetUser k.AccessKeyId k.SecretAccessKey s2 = (none, s3))
    (hp : w.clients.CreateSecret k.AccessKeyId k.SecretAccessKey sn (secretValue k) s3
      = (none, s4)) :
    s4.keys = s0.keys ++ [k.AccessKeyId] := by
  obtain ⟨rfl, -⟩ := sim_create hc
  obtain rfl := sim_config hl
  obtain rfl := sim_getUser hg
  obtain rfl := sim_createSecret hp
  simp [SimState.apply, SimState.bump, SimState.putSecret]

/-- After a failed verification or `CreateSecret` the returned error is built from
that failure alone; a failing rollback deletion shows up as a printed warning. -/
theorem ret_of_primary_failure {σ : Type} (c : Clients σ) (username secretName : String)
    (s0 : σ) (p : Event) (hp : p.isPrimaryFailure = true)
    (h : p ∈ (rotateKeys c username secretName s0).trace) :
    (rotateKeys c username secretName s0).ret = primaryError p ∧
    (∀ id u de, Event.DeleteAccessKey id u (some de) ∈ (rotateKeys c username secretName s0).trace →
      Event.Printf ("Warning: Failed to clean up new access key: " ++ fmtV de ++ "\n")
        ∈ (rotateKeys c username secretName s0).trace) ∧
    (∀ id u, Event.DeleteAccessKey id u none ∈ (rotateKeys c username secretName s0).trace →
      ∀ ev ∈ (rotateKeys c username secretName s0).trace, ev.isPrintf = false) := by
  have h' : p ∈ (rotateKeys c username secretName s0).trace.filter Event.isPrimaryFailure :=
    List.mem_filter.mpr ⟨h, hp⟩
  clear h hp
  have hs := rotateKeys_run c username secretName s0
  generalize rotateKeys c username secretName s0 = r at hs h' ⊢
  cases hs with
  | verifyFailed k e d =>
    cases d with
    | none =>
      simp [cleanupEvents, Event.isPrimaryFailure, List.filter] at h'
      subst h'
      simp [primaryError, cleanupEvents, Event.isPrintf]
    | some de0 =>
      simp [cleanupEvents, Event.isPrimaryFailure, List.filter] at h'
      subst h'
      simp [primaryError, cleanupEvents, Event.isPrintf]
      intro id u de _ _ hde
      rw [hde]
  | persistFailed k e d =>
    cases d with
    | none =>
      simp [cleanupEvents, verifiedSteps, Event.isPrimaryFailure, List.filter] at h'
      subst h'
      simp [primaryError, cleanupEvents, verifiedSteps, Event.isPrintf]
    | some de0 =>
      simp [cleanupEvents, verifiedSteps, Event.isPrimaryFailure, List.filter] at h'
      subst h'
      simp [primaryError, cleanupEvents, verifiedSteps, Event.isPrintf]
      intro id u de _ _ hde
      rw [hde]
  | createFailed e => simp [Event.isPrimaryFailure, List.filter] at h'
  | configFailed k e d =>
    cases d <;> simp [cleanupEvents, Event.isPrimaryFailure, List.filter] at h'
  | listFailed k e d =>
    cases d <;>
      simp [cleanupEvents, verifiedSteps, persistedSteps, Event.isPrimaryFailure,
        List.filter] at h'
  | nothingListed k =>
    simp [verifiedSteps, persistedSteps, Event.isPrimaryFailure, List.filter] at h'
  | firstIsNew k o rest =>
    simp [verifiedSteps, persistedSteps, Event.isPrimaryFailure, List.filter] at h'
  | retireFailed k o rest e d =>
    cases d <;>
      simp [cleanupEvents, verifiedSteps, persistedSteps, Event.isPrimaryFailure,
        List.filter] at h'
  | retired k o rest =>
    simp [verifiedSteps, persistedSteps, Event.isPrimaryFailure, List.filter] at h'

/-- Every `CreateSecret` request of a run carries the credentials and the payload
of the key pair returned by `CreateAccessKey`, under the requested secret name. -/
theorem createSecret_request {σ : Type} (c : Clients σ) (username secretName : String)
    (s0 : σ) (id secret name value : String) (err : Option GoError)
    (h : Event.CreateSecret id secret name value err
      ∈ (rotateKeys c username secretName s0).trace) :
    Event.CreateAccessKey username (.ok ⟨id, secret⟩)
        ∈ (rotateKeys c username secretName s0).trace ∧
    name = secretName ∧ value = secretValue ⟨id, secret⟩ := by
  have hm : Event.CreateSecret id secret name value err
      ∈ (rotateKeys c username secretName s0).trace.filter Event.isCreateSecret :=
    List.mem_filter.mpr ⟨h, rfl⟩
  clear h
  have hs := rotateKeys_run c username secretName s0
  generalize rotateKeys c username secretName s0 = r at hs hm ⊢
  cases hs with
  | createFailed e => simp [Event.isCreateSecret, List.filter] at hm
  | configFailed k e d =>
    cases d <;> simp [cleanupEvents, Event.isCreateSecret, List.filter] at hm
  | verifyFailed k e d =>
    cases d <;> simp [cleanupEvents, Event.isCreateSecret, List.filter] at hm
  | persistFailed k e d =>
    cases d <;>
      simp [cleanupEvents, verifiedSteps, Event.isCreateSecret, List.filter] at hm <;>
      obtain ⟨rfl, rfl, rfl, rfl, -⟩ := hm <;> simp [verifiedSteps]
  | listFailed k e d =>
    cases d <;>
      simp [cleanupEvents, verifiedSteps, persistedSteps, Event.isCreateSecret,
        List.filter] at hm <;>
      obtain ⟨rfl, rfl, rfl, rfl, -⟩ := hm <;> simp [verifiedSteps, persistedSteps]
  | nothingListed k =>
    simp [verifiedSteps, persistedSteps, Event.isCreateSecret, List.filter] at hm
    obtain ⟨rfl, rfl, rfl, rfl, -⟩ := hm
    simp [verifiedSteps, persistedSteps]
  | firstIsNew k o rest =>
    simp [verifiedSteps, persistedSteps, Event.isCreateSecret, List.filter] at hm
    obtain ⟨rfl, rfl, rfl, rfl, -⟩ := hm
    simp [verifiedSteps, persistedSteps]
  | retireFailed k o rest e d =>
    cases d <;>
      simp [cleanupEvents, verifiedSteps, persistedSteps, Event.isCreateSecret,
        List.filter] at hm <;>
      obtain ⟨rfl, rfl, rfl, rfl, -⟩ := hm <;> simp [verifiedSteps, persistedSteps]
  | retired k o rest =>
    simp [verifiedSteps, persistedSteps, Event.isCreateSecret, List.filter] at hm
    obtain ⟨rfl, rfl, rfl, rfl, -⟩ := hm
    simp [verifiedSteps, persistedSteps]

/-- On the simulated store, a run from the single live key `K1` that returns nil
ends with exactly the new key live if and only if the listing had `K1` first. -/
theorem sim_success_keys_iff (w : Sim)
    (username secretName K1 : String) (s0 : SimState) (h1 : s0.keys = [K1])
    (hnew : w.mint.AccessKeyId ≠ K1)
    (hret : (rotateKeys w.clients username secretName s0).ret = none) :
    (rotateKeys w.clients username secretName s0).state.keys = [w.mint.AccessKeyId]
      ↔ (w.order [K1, w.mint.AccessKeyId]).head? = some K1 := by
  have hst := sim_replay w username secretName s0
  have hs := rotateKeys_run w.clients username secretName s0
  generalize rotateKeys w.clients username secretName s0 = r at hs hst hret ⊢
  cases hs with
  | createFailed e s1 hc => simp at hret
  | configFailed k e d => simp at hret
  | verifyFailed k e d => simp at hret
  | persistFailed k e d => simp at hret
  | listFailed k e d => simp at hret
  | retireFailed k o rest e d => simp at hret
  | nothingListed k s1 s2 s3 s4 s5 hc hl hg hp ha =>
    have hk := sim_keys_when_listing hc hl hg hp
    obtain rfl := (sim_create hc).2 k rfl
    have hlist := (sim_list ha).2 _ rfl
    rw [hk, h1] at hlist
    simp only at hst
    simp only [List.singleton_append] at hlist
    have ho : w.order [K1, w.mint.AccessKeyId] = [] := by simpa using hlist.symm
    simp [hst, ho, verifiedSteps, persistedSteps, SimState.apply, SimState.bump,
      SimState.putSecret, h1]
  | firstIsNew k o rest s1 s2 s3 s4 s5 hc hl hg hp ha ho =>
    have hk := sim_keys_when_listing hc hl hg hp
    obtain rfl := (sim_create hc).2 k rfl
    have hlist := (sim_list ha).2 _ rfl
    rw [hk, h1] at hlist
    simp only at hst
    simp only [List.singleton_append] at hlist
    have hh : (w.order [K1, w.mint.AccessKeyId]).head? = some o.AccessKeyId := by
      have := congrArg (fun l => l.head?.map AccessKeyMetadata.AccessKeyId) hlist
      simpa [List.head?_map] using this.symm
    rw [hh, ho]
    simp [hst, verifiedSteps, persistedSteps, SimState.apply, SimState.bump,
      SimState.putSecret, h1, hnew]
  | retired k o rest s1 s2 s3 s4 s5 s6 hc hl hg hp ha ho hr =>
    have hk := sim_keys_when_listing hc hl hg hp
    obtain rfl := (sim_create hc).2 k rfl
    have hlist := (sim_list ha).2 _ rfl
    rw [hk, h1] at hlist
    simp only at hst
    simp only [List.singleton_append] at hlist
    have hh : (w.order [K1, w.mint.AccessKeyId]).head? = some o.AccessKeyId := by
      have := congrArg (fun l => l.head?.map AccessKeyMetadata.AccessKeyId) hlist
      simpa [List.head?_map] using this.symm
    rw [hh]
    by_cases hK : o.AccessKeyId = K1
    · simp [hst, verifiedSteps, persistedSteps, SimState.apply, SimState.bump,
        SimState.putSecret, SimState.removeKey, h1, hK, List.filter, hnew]
    · have hK2 : ¬ K1 = o.AccessKeyId := fun h => hK h.symm
      have ho2 : ¬ w.mint.AccessKeyId = o.AccessKeyId := fun h => ho h.symm
      simp [hst, verifiedSteps, persistedSteps, SimState.apply, SimState.bump,
        SimState.putSecret, SimState.removeKey, h1, hK, hK2, ho2, List.filter]

/-! ## Decoding the payload -/

/-- Scanning stops at the closing quote. -/
theorem scanStringBody_quote (rest : List Char) :
    scanStringBody ('"' :: rest) = some ([], rest) := by
  rw [scanStringBody.eq_def]; rfl

/-- A plain character is taken literally. -/
theorem scanStringBody_cons (c : Char) (rest : List Char) (h : jsonPlain c = true) :
    scanStringBody (c :: rest) = consUnit (.lit c) (scanStringBody rest) := by
  simp only [jsonPlain, Bool.and_eq_true, bne_iff_ne, ne_eq, decide_eq_true_eq] at h
  obtain ⟨⟨h1, h2⟩, h3⟩ := h
  conv_lhs => rw [scanStringBody.eq_def]
  simp only [if_neg h1, if_neg h2, if_neg (Nat.not_lt.mpr h3)]

/-- A run of plain characters up to the closing quote scans to itself. -/
theorem scanStringBody_plain (s rest : List Char) (h : ∀ c ∈ s, jsonPlain c = true) :
    scanStringBody (s ++ '"' :: rest) = some (s.map StrUnit.lit, rest) := by
  induction s with
  | nil => exact scanStringBody_quote rest
  | cons c s ih =>
    have hc : jsonPlain c = true := h c (List.mem_cons_self _ _)
    have hs : ∀ d ∈ s, jsonPlain d = true := fun d hd => h d (List.mem_cons_of_mem _ hd)
    rw [List.cons_append, scanStringBody_cons c _ hc, ih hs]
    rfl

/-- Literal elements join to the characters they carry. -/
theorem joinUnits_lit (s : List Char) : joinUnits none (s.map StrUnit.lit) = s := by
  induction s with
  | nil => rfl
  | cons c s ih => simp [joinUnits, ih]

/-- A quoted run of plain characters decodes to itself. -/
theorem parseString_plain (s rest : List Char) (h : ∀ c ∈ s, jsonPlain c = true) :
    parseString ('"' :: (s ++ '"' :: rest)) = some (s, rest) := by
  rw [parseString, if_pos rfl, parseStringBody, scanStringBody_plain s rest h]
  simp [joinUnits_lit]

/-- Nothing is skipped in front of a character that is not whitespace. -/
theorem skipWs_of_not_ws (c : Char) (cs : List Char) (h : isJsonWs c = false) :
    skipWs (c :: cs) = c :: cs := by
  rw [skipWs]; simp [h]

/-- A leading space is skipped. -/
theorem skipWs_space (cs : List Char) : skipWs (' ' :: cs) = skipWs cs := by
  rw [skipWs]; rfl

/-- Nothing is skipped in empty input. -/
theorem skipWs_nil : skipWs [] = [] := rfl

/-- The last member of an object, written the way `secretValue` writes it. -/
theorem parseMembers_last (n : Nat) (name b : List Char)
    (hn : ∀ c ∈ name, jsonPlain c = true) (hb : ∀ c ∈ b, jsonPlain c = true) :
    parseMembers (n + 1) ('"' :: (name ++ '"' :: ':' :: ' ' :: '"' :: (b ++ '"' :: ['\x7d'])))
      = some ([(String.mk name, String.mk b)], []) := by
  rw [parseMembers, parseString_plain _ _ hn]
  simp only [skipWs_of_not_ws ':' _ (by decide), if_true, skipWs_space,
    skipWs_of_not_ws '"' _ (by decide), parseString_plain _ _ hb,
    skipWs_of_not_ws '\x7d' _ (by decide)]

/-- Two members, written the way `secretValue` writes them. -/
theorem parseMembers_pair (n : Nat) (name1 a name2 b : List Char)
    (h1 : ∀ c ∈ name1, jsonPlain c = true) (ha : ∀ c ∈ a, jsonPlain c = true)
    (h2 : ∀ c ∈ name2, jsonPlain c = true) (hb : ∀ c ∈ b, jsonPlain c = true) :
    parseMembers (n + 2)
      ('"' :: (name1 ++ '"' :: ':' :: ' ' :: '"' :: (a ++ '"' :: ',' :: ' ' :: '"' ::
        (name2 ++ '"' :: ':' :: ' ' :: '"' :: (b ++ '"' :: ['\x7d'])))))
      = some ([(String.mk name1, String.mk a), (String.mk name2, String.mk b)], []) := by
  rw [parseMembers, parseString_plain _ _ h1]
  have hne : (',' : Char) ≠ '\x7d' := by decide
  simp only [skipWs_of_not_ws ':' _ (by decide), if_true, skipWs_space,
    skipWs_of_not_ws '"' _ (by decide), parseString_plain _ _ ha,
    skipWs_of_not_ws ',' _ (by decide), if_neg hne, parseMembers_last n name2 b h2 hb]

/-- The characters of the payload. -/
theorem secretValue_data (k : AccessKey) :
    (secretValue k).data = '\x7b' :: '"' :: ("AccessKeyId".data ++ '"' :: ':' :: ' ' :: '"' ::
      (k.AccessKeyId.data ++ '"' :: ',' :: ' ' :: '"' ::
        ("SecretAccessKey".data ++ '"' :: ':' :: ' ' :: '"' :: (k.SecretAccessKey.data ++ '"' :: ['\x7d'])))) := by
  simp only [secretValue, String.data_append]
  simp only [List.append_assoc, List.cons_append, List.nil_append]

/-- The payload of a key pair made of plain characters decodes to that pair. -/
theorem decode_secretValue (k : AccessKey)
    (ha : ∀ c ∈ k.AccessKeyId.data, jsonPlain c = true)
    (hb : ∀ c ∈ k.SecretAccessKey.data, jsonPlain c = true) :
    decodeFlatObject (secretValue k)
      = some [("AccessKeyId", k.AccessKeyId), ("SecretAccessKey", k.SecretAccessKey)] := by
  have hl : (secretValue k).length
      = (k.AccessKeyId.data.length + k.SecretAccessKey.data.length + 40) + 2 := by
    show (secretValue k).data.length = _
    rw [secretValue_data]
    simp only [List.length_cons, List.length_append, List.length_nil]
    have e1 : "AccessKeyId".data.length = 11 := by decide
    have e2 : "SecretAccessKey".data.length = 15 := by decide
    omega
  have hne : ('"' : Char) ≠ '\x7d' := by decide
  unfold decodeFlatObject
  rw [hl, secretValue_data, skipWs_of_not_ws '\x7b' _ (by decide)]
  simp only [if_true, skipWs_of_not_ws '"' _ (by decide), if_neg hne,
    parseMembers_pair _ "AccessKeyId".data k.AccessKeyId.data "SecretAccessKey".data
      k.SecretAccessKey.data
      (by decide) ha (by decide) hb, skipWs_nil]

/-! ## Ordering of the destructive step -/

/-- C1. In every run of `rotateKeys`, each `DeleteAccessKey` call comes after a
successful `CreateAccessKey`, and when its key id differs from the id of the key
just created (the deletion of an old key), the verification `GetUser` made with the
new key's credentials and the `CreateSecret` of the new key's payload have both
returned without error earlier in the trace. -/
theorem old_key_deleted_only_after_verify_and_persist {σ : Type} (c : Clients σ)
    (username secretName : String) (s0 : σ) (i : Nat) (id u : String) (derr : Option GoError)
    (h : (rotateKeys c username secretName s0).trace[i]?
      = some (Event.DeleteAccessKey id u derr)) :
    ∃ k : AccessKey,
      Event.CreateAccessKey username (.ok k)
        ∈ (rotateKeys c username secretName s0).trace.take i ∧
      (id ≠ k.AccessKeyId →
        Event.GetUser k.AccessKeyId k.SecretAccessKey none
            ∈ (rotateKeys c username secretName s0).trace.take i ∧
        Event.CreateSecret k.AccessKeyId k.SecretAccessKey secretName (secretValue k) none
            ∈ (rotateKeys c username secretName s0).trace.take i) := by
  have hs := rotateKeys_run c username secretName s0
  generalize rotateKeys c username secretName s0 = r at hs h ⊢
  cases hs with
  | createFailed e =>
    rcases i with _ | i <;> simp at h
  | configFailed k e d =>
    refine ⟨k, ?_⟩
    cases d <;> rcases i with _ | _ | _ | _ | i <;>
      simp [cleanupEvents] at h ⊢ <;> simp_all
  | verifyFailed k e d =>
    refine ⟨k, ?_⟩
    cases d <;> rcases i with _ | _ | _ | _ | _ | i <;>
      simp [cleanupEvents] at h ⊢ <;> simp_all
  | persistFailed k e d =>
    refine ⟨k, ?_⟩
    cases d <;> rcases i with _ | _ | _ | _ | _ | _ | i <;>
      simp [cleanupEvents, verifiedSteps] at h ⊢ <;> simp_all
  | listFailed k e d =>
    refine ⟨k, ?_⟩
    cases d <;> rcases i with _ | _ | _ | _ | _ | _ | _ | i <;>
      simp [cleanupEvents, verifiedSteps, persistedSteps] at h ⊢
  | nothingListed k =>
    rcases i with _ | _ | _ | _ | _ | i <;> simp [verifiedSteps, persistedSteps] at h
  | firstIsNew k o rest =>
    rcases i with _ | _ | _ | _ | _ | i <;> simp [verifiedSteps, persistedSteps] at h
  | retireFailed k o rest e d =>
    refine ⟨k, ?_⟩
    cases d <;> rcases i with _ | _ | _ | _ | _ | _ | _ | _ | i <;>
      simp [cleanupEvents, verifiedSteps, persistedSteps] at h ⊢
  | retired k o rest =>
    refine ⟨k, ?_⟩
    rcases i with _ | _ | _ | _ | _ | _ | i <;>
      simp [verifiedSteps, persistedSteps] at h ⊢

/-- C1 at a concrete run: alice holds `K1`, nothing fails, the sixth action is the
deletion of `K1`. -/
theorem old_key_deleted_only_after_verify_and_persist_witness :
    (rotateKeys simOk.clients "alice" "vault/alice-key" alice0).trace[5]?
        = some (Event.DeleteAccessKey "K1" "alice" none) ∧
    ∃ k : AccessKey,
      Event.CreateAccessKey "alice" (.ok k)
        ∈ (rotateKeys simOk.clients "alice" "vault/alice-key" alice0).trace.take 5 ∧
      ("K1" ≠ k.AccessKeyId →
        Event.GetUser k.AccessKeyId k.SecretAccessKey none
            ∈ (rotateKeys simOk.clients "alice" "vault/alice-key" alice0).trace.take 5 ∧
        Event.CreateSecret k.AccessKeyId k.SecretAccessKey "vault/alice-key" (secretValue k) none
            ∈ (rotateKeys simOk.clients "alice" "vault/alice-key" alice0).trace.take 5) :=
  ⟨by decide,
   old_key_deleted_only_after_verify_and_persist simOk.clients "alice" "vault/alice-key"
     alice0 5 "K1" "alice" none (by decide)⟩

/-! ## Failure after the secret is stored -/

/-- C2, refuted as stated.  When `ListAccessKeys` fails (first run) or the deletion
of the old key `K1` fails (second run), `rotateKeys` goes on to call
`DeleteAccessKey` on the newly created key, and `K1` is the only key left live. -/
theorem late_failure_deletes_new_key :
    (Event.ListAccessKeys "alice" (.error (.errorString "boom"))
        ∈ (rotateKeys (simFailAt 4).clients "alice" "vault/alice-key" alice0).trace ∧
      Event.DeleteAccessKey "AKIA_NEW_KEY" "alice" none
        ∈ (rotateKeys (simFailAt 4).clients "alice" "vault/alice-key" alice0).trace ∧
      (rotateKeys (simFailAt 4).clients "alice" "vault/alice-key" alice0).state.keys = ["K1"]) ∧
    (Event.DeleteAccessKey "K1" "alice" (some (.errorString "boom"))
        ∈ (rotateKeys (simFailAt 5).clients "alice" "vault/alice-key" alice0).trace ∧
      Event.DeleteAccessKey "AKIA_NEW_KEY" "alice" none
        ∈ (rotateKeys (simFailAt 5).clients "alice" "vault/alice-key" alice0).trace ∧
      (rotateKeys (simFailAt 5).clients "alice" "vault/alice-key" alice0).state.keys = ["K1"]) := by
  decide

/-- C2, amended.  If, after the secret was stored, `ListAccessKeys` fails with `e`
or the `DeleteAccessKey` of another key than the new one fails with `e`, then
`rotateKeys` returns the error wrapping `e` after calling `DeleteAccessKey` on the
newly created key exactly once: the deferred rollback is reached from these
failures too, and when that deletion succeeds the new key is no longer live. -/
theorem late_failure_also_rolls_back (w : Sim) (username secretName : String) (s0 : SimState)
    (e : GoError)
    (h : Event.ListAccessKeys username (.error e)
          ∈ (rotateKeys w.clients username secretName s0).trace ∨
        ∃ id, id ≠ w.mint.AccessKeyId ∧ Event.DeleteAccessKey id username (some e)
          ∈ (rotateKeys w.clients username secretName s0).trace) :
    ((rotateKeys w.clients username secretName s0).ret
        = some (Errorf_w "failed to list access keys: " e) ∨
      (rotateKeys w.clients username secretName s0).ret
        = some (Errorf_w "failed to delete old access key: " e)) ∧
    (deleteCalls (rotateKeys w.clients username secretName s0).trace).count
        (w.mint.AccessKeyId, username) = 1 ∧
    (Event.DeleteAccessKey w.mint.AccessKeyId username none
        ∈ (rotateKeys w.clients username secretName s0).trace →
      w.mint.AccessKeyId ∉ (rotateKeys w.clients username secretName s0).state.keys) := by
  have hst := sim_replay w username secretName s0
  have hs := rotateKeys_run w.clients username secretName s0
  generalize rotateKeys w.clients username secretName s0 = r at hs hst h ⊢
  cases hs with
  | createFailed e' s1 hc => simp at h
  | configFailed k e' d s1 s2 s3 hc hl hd =>
    obtain rfl := (sim_create hc).2 k rfl
    cases d with
    | none => simp [cleanupEvents] at h
    | some de =>
      simp [cleanupEvents] at h
      obtain ⟨id, h1, h2, -⟩ := h
      exact absurd h2 h1
  | verifyFailed k e' d s1 s2 s3 s4 hc hl hg hd =>
    obtain rfl := (sim_create hc).2 k rfl
    cases d with
    | none => simp [cleanupEvents] at h
    | some de =>
      simp [cleanupEvents] at h
      obtain ⟨id, h1, h2, -⟩ := h
      exact absurd h2 h1
  | persistFailed k e' d s1 s2 s3 s4 s5 hc hl hg hp hd =>
    obtain rfl := (sim_create hc).2 k rfl
    cases d with
    | none => simp [cleanupEvents, verifiedSteps] at h
    | some de =>
      simp [cleanupEvents, verifiedSteps] at h
      obtain ⟨id, h1, h2, -⟩ := h
      exact absurd h2 h1
  | nothingListed k => simp [verifiedSteps, persistedSteps] at h
  | firstIsNew k o rest => simp [verifiedSteps, persistedSteps] at h
  | retired k o rest => simp [verifiedSteps, persistedSteps] at h
  | listFailed k e' d s1 s2 s3 s4 s5 s6 hc hl hg hp ha hd =>
    obtain rfl := (sim_create hc).2 k rfl
    simp only at hst
    have he : e' = e := by
      cases d <;> simp [cleanupEvents, verifiedSteps, persistedSteps] at h
      · exact h.symm
      · rcases h with h | ⟨id, h1, h2, -⟩
        · exact h.symm
        · exact absurd h2 h1
    subst he
    refine ⟨Or.inl rfl, ?_, ?_⟩
    · cases d <;> simp [cleanupEvents, verifiedSteps, persistedSteps, deleteCalls]
    · intro hdel
      cases d with
      | some de => simp [cleanupEvents, verifiedSteps, persistedSteps] at hdel
      | none =>
        simp [hst, cleanupEvents, verifiedSteps, persistedSteps, SimState.apply,
          SimState.bump, SimState.removeKey, SimState.putSecret]
  | retireFailed k o rest e' d s1 s2 s3 s4 s5 s6 s7 hc hl hg hp ha ho hr hd =>
    obtain rfl := (sim_create hc).2 k rfl
    simp only at hst
    have he : e' = e := by
      cases d <;> simp [cleanupEvents, verifiedSteps, persistedSteps] at h
      · obtain ⟨id, -, -, h3⟩ := h
        exact h3.symm
      · obtain ⟨id, h1, h2 | h2⟩ := h
        · exact h2.2.symm
        · exact absurd h2.1 h1
    subst he
    refine ⟨Or.inr rfl, ?_, ?_⟩
    · have hcount : List.count (w.mint.AccessKeyId, username)
          [(o.AccessKeyId, username), (w.mint.AccessKeyId, username)] = 1 := by
        simp [List.count_cons, ho]
      cases d <;> simpa [cleanupEvents, verifiedSteps, persistedSteps, deleteCalls] using hcount
    · intro hdel
      cases d with
      | some de =>
        simp [cleanupEvents, verifiedSteps, persistedSteps] at hdel
      | none =>
        simp [hst, cleanupEvents, verifiedSteps, persistedSteps, SimState.apply,
          SimState.bump, SimState.removeKey, SimState.putSecret]

/-- C2 amended, at a concrete run: the fifth remote call, `ListAccessKeys`, fails. -/
theorem late_failure_also_rolls_back_witness :
    (Event.ListAccessKeys "alice" (.error (.errorString "boom"))
          ∈ (rotateKeys (simFailAt 4).clients "alice" "vault/alice-key" alice0).trace ∨
        ∃ id, id ≠ (simFailAt 4).mint.AccessKeyId ∧
          Event.DeleteAccessKey id "alice" (some (.errorString "boom"))
          ∈ (rotateKeys (simFailAt 4).clients "alice" "vault/alice-key" alice0).trace) ∧
    ((rotateKeys (simFailAt 4).clients "alice" "vault/alice-key" alice0).ret
        = some (Errorf_w "failed to list access keys: " (.errorString "boom")) ∨
      (rotateKeys (simFailAt 4).clients "alice" "vault/alice-key" alice0).ret
        = some (Errorf_w "failed to delete old access key: " (.errorString "boom"))) ∧
    (deleteCalls (rotateKeys (simFailAt 4).clients "alice" "vault/alice-key" alice0).trace).count
        ((simFailAt 4).mint.AccessKeyId, "alice") = 1 ∧
    (Event.DeleteAccessKey (simFailAt 4).mint.AccessKeyId "alice" none
        ∈ (rotateKeys (simFailAt 4).clients "alice" "vault/alice-key" alice0).trace →
      (simFailAt 4).mint.AccessKeyId
        ∉ (rotateKeys (simFailAt 4).clients "alice" "vault/alice-key" alice0).state.keys) :=
  ⟨Or.inl (by decide),
   late_failure_also_rolls_back (simFailAt 4) "alice" "vault/alice-key" alice0
     (.errorString "boom") (Or.inl (by decide))⟩

/-! ## The key set after a run -/

/-- C3, refuted as stated.  Alice holds the single key `K1`; `ListAccessKeys`
reports the new key first; `rotateKeys` returns nil and both keys are live. -/
theorem newest_first_listing_keeps_old_key :
    alice0.keys = ["K1"] ∧
    Event.ListAccessKeys "alice" (.ok [⟨"AKIA_NEW_KEY"⟩, ⟨"K1"⟩])
      ∈ (rotateKeys simNewestFirst.clients "alice" "vault/alice-key" alice0).trace ∧
    (rotateKeys simNewestFirst.clients "alice" "vault/alice-key" alice0).ret = none ∧
    (rotateKeys simNewestFirst.clients "alice" "vault/alice-key" alice0).state.keys
      = ["K1", "AKIA_NEW_KEY"] := by decide

/-- C3, amended.  For a principal whose only live key is `K1`, a `rotateKeys` call
that returns nil after `ListAccessKeys` reported `K1` first leaves exactly one key
live, the new one. -/
theorem successful_rotation_leaves_only_new_key (w : Sim)
    (username secretName K1 : String) (s0 : SimState) (h1 : s0.keys = [K1])
    (hnew : w.mint.AccessKeyId ≠ K1)
    (hfirst : (w.order [K1, w.mint.AccessKeyId]).head? = some K1)
    (hret : (rotateKeys w.clients username secretName s0).ret = none) :
    (rotateKeys w.clients username secretName s0).state.keys = [w.mint.AccessKeyId] ∧
    w.mint.AccessKeyId ∈ (rotateKeys w.clients username secretName s0).state.keys ∧
    K1 ∉ (rotateKeys w.clients username secretName s0).state.keys := by
  have hkeys := (sim_success_keys_iff w username secretName K1 s0 h1 hnew hret).mpr hfirst
  rw [hkeys]
  refine ⟨rfl, by simp, ?_⟩
  simpa using fun h => hnew h.symm

/-- C3 amended, at a concrete run: alice holds `K1`, listings come oldest first and
nothing fails, so afterwards the new key is the only live key. -/
theorem successful_rotation_leaves_only_new_key_witness :
    alice0.keys = ["K1"] ∧ simOk.mint.AccessKeyId ≠ "K1" ∧
    (simOk.order ["K1", simOk.mint.AccessKeyId]).head? = some "K1" ∧
    (rotateKeys simOk.clients "alice" "vault/alice-key" alice0).ret = none ∧
    (rotateKeys simOk.clients "alice" "vault/alice-key" alice0).state.keys
        = [simOk.mint.AccessKeyId] ∧
    simOk.mint.AccessKeyId
      ∈ (rotateKeys simOk.clients "alice" "vault/alice-key" alice0).state.keys ∧
    "K1" ∉ (rotateKeys simOk.clients "alice" "vault/alice-key" alice0).state.keys :=
  ⟨by decide, by decide, by decide, by decide,
   successful_rotation_leaves_only_new_key simOk "alice" "vault/alice-key"
     "K1" alice0 (by decide) (by decide) (by decide) (by decide)⟩

/-- C4. On the simulated store (a successful `DeleteAccessKey` removes the key, a
failed one changes nothing, a successful `CreateAccessKey` adds a key id that was
not live before), if `rotateKeys` returns an error and no deletion of the new key
failed, then the live keys after the call are the live keys before it. -/
theorem failed_rotation_restores_key_set (w : Sim) (username secretName : String)
    (s0 : SimState) (hfresh : w.mint.AccessKeyId ∉ s0.keys)
    (herr : (rotateKeys w.clients username secretName s0).ret ≠ none)
    (hrb : ∀ ev ∈ (rotateKeys w.clients username secretName s0).trace,
      ev.isFailedDelete w.mint.AccessKeyId = false) :
    (rotateKeys w.clients username secretName s0).state.keys = s0.keys := by
  have hne : ∀ a ∈ s0.keys, ¬a = w.mint.AccessKeyId := fun a ha h => hfresh (h ▸ ha)
  have hst := sim_replay w username secretName s0
  have hs := rotateKeys_run w.clients username secretName s0
  generalize rotateKeys w.clients username secretName s0 = r at hs hst herr hrb ⊢
  cases hs with
  | createFailed e s1 hc =>
    simp only at hst
    simp [hst, SimState.apply, SimState.bump]
  | configFailed k e d s1 s2 s3 hc hl hd =>
    obtain rfl := (sim_create hc).2 k rfl
    simp only at hst
    cases d with
    | some de =>
      have hf := hrb (Event.DeleteAccessKey w.mint.AccessKeyId username (some de))
        (by simp [cleanupEvents])
      simp [Event.isFailedDelete] at hf
    | none =>
      simpa [hst, cleanupEvents, SimState.apply, SimState.bump, SimState.removeKey] using hne
  | verifyFailed k e d s1 s2 s3 s4 hc hl hg hd =>
    obtain rfl := (sim_create hc).2 k rfl
    simp only at hst
    cases d with
    | some de =>
      have hf := hrb (Event.DeleteAccessKey w.mint.AccessKeyId username (some de))
        (by simp [cleanupEvents])
      simp [Event.isFailedDelete] at hf
    | none =>
      simpa [hst, cleanupEvents, SimState.apply, SimState.bump, SimState.removeKey] using hne
  | persistFailed k e d s1 s2 s3 s4 s5 hc hl hg hp hd =>
    obtain rfl := (sim_create hc).2 k rfl
    simp only at hst
    cases d with
    | some de =>
      have hf := hrb (Event.DeleteAccessKey w.mint.AccessKeyId username (some de))
        (by simp [cleanupEvents])
      simp [Event.isFailedDelete] at hf
    | none =>
      simpa [hst, cleanupEvents, verifiedSteps, SimState.apply, SimState.bump,
        SimState.removeKey] using hne
  | listFailed k e d s1 s2 s3 s4 s5 s6 hc hl hg hp ha hd =>
    obtain rfl := (sim_create hc).2 k rfl
    simp only at hst
    cases d with
    | some de =>
      have hf := hrb (Event.DeleteAccessKey w.mint.AccessKeyId username (some de))
        (by simp [cleanupEvents])
      simp [Event.isFailedDelete] at hf
    | none =>
      simpa [hst, cleanupEvents, verifiedSteps, persistedSteps, SimState.apply,
        SimState.bump, SimState.removeKey, SimState.putSecret] using hne
  | nothingListed k => simp at herr
  | firstIsNew k o rest => simp at herr
  | retireFailed k o rest e d s1 s2 s3 s4 s5 s6 s7 hc hl hg hp ha ho hr hd =>
    obtain rfl := (sim_create hc).2 k rfl
    simp only at hst
    cases d with
    | some de =>
      have hf := hrb (Event.DeleteAccessKey w.mint.AccessKeyId username (some de))
        (by simp [cleanupEvents])
      simp [Event.isFailedDelete] at hf
    | none =>
      simpa [hst, cleanupEvents, verifiedSteps, persistedSteps, SimState.apply,
        SimState.bump, SimState.removeKey, SimState.putSecret] using hne
  | retired k o rest => simp at herr

/-- C4 at a concrete run: the deletion of the old key `K1` fails, the rollback
succeeds, and `K1` is again the only live key. -/
theorem failed_rotation_restores_key_set_witness :
    k2.AccessKeyId ∉ alice0.keys ∧
    (rotateKeys (simFailAt 5).clients "alice" "vault/alice-key" alice0).ret ≠ none ∧
    (∀ ev ∈ (rotateKeys (simFailAt 5).clients "alice" "vault/alice-key" alice0).trace,
      ev.isFailedDelete k2.AccessKeyId = false) ∧
    (rotateKeys (simFailAt 5).clients "alice" "vault/alice-key" alice0).state.keys = ["K1"] :=
  ⟨by decide, by decide, by decide,
   failed_rotation_restores_key_set (simFailAt 5) "alice" "vault/alice-key" alice0
     (by decide) (by decide) (by decide)⟩

/-! ## Failure before the secret is stored -/

/-- C5. If the `GetUser` call made with the new key's credentials fails with `e`,
then those credentials are the pair returned by `CreateAccessKey`, `rotateKeys`
returns the error wrapping `e`, its only `DeleteAccessKey` call is the one for the
new key id under the principal's user name, and it calls neither `CreateSecret`
nor `ListAccessKeys`. -/
theorem verify_failure_rolls_back_new_key_only {σ : Type} (c : Clients σ)
    (username secretName : String) (s0 : σ) (id secret : String) (e : GoError)
    (h : Event.GetUser id secret (some e) ∈ (rotateKeys c username secretName s0).trace) :
    Event.CreateAccessKey username (.ok ⟨id, secret⟩)
        ∈ (rotateKeys c username secretName s0).trace ∧
    (rotateKeys c username secretName s0).ret
        = some (Errorf_w "failed to test new access key: " e) ∧
    deleteCalls (rotateKeys c username secretName s0).trace = [(id, username)] ∧
    ∀ ev ∈ (rotateKeys c username secretName s0).trace,
      ev.isCreateSecret = false ∧ ev.isListAccessKeys = false := by
  have hs := rotateKeys_run c username secretName s0
  generalize rotateKeys c username secretName s0 = r at hs h ⊢
  cases hs with
  | verifyFailed k e' d =>
    cases d <;>
      simp [cleanupEvents, deleteCalls, Event.isCreateSecret, Event.isListAccessKeys] at h ⊢ <;>
      obtain ⟨rfl, rfl, rfl⟩ := h <;> simp
  | createFailed e' => simp at h
  | configFailed k e' d => cases d <;> simp [cleanupEvents] at h
  | persistFailed k e' d => cases d <;> simp [cleanupEvents, verifiedSteps] at h
  | listFailed k e' d =>
    cases d <;> simp [cleanupEvents, verifiedSteps, persistedSteps] at h
  | nothingListed k => simp [verifiedSteps, persistedSteps] at h
  | firstIsNew k o rest => simp [verifiedSteps, persistedSteps] at h
  | retireFailed k o rest e' d =>
    cases d <;> simp [cleanupEvents, verifiedSteps, persistedSteps] at h
  | retired k o rest => simp [verifiedSteps, persistedSteps] at h

/-- C5 at a concrete run: the third remote call, the verification, fails. -/
theorem verify_failure_rolls_back_new_key_only_witness :
    Event.GetUser "AKIA_NEW_KEY" "new_secret_key" (some (.errorString "boom"))
        ∈ (rotateKeys (simFailAt 2).clients "alice" "vault/alice-key" alice0).trace ∧
    Event.CreateAccessKey "alice" (.ok ⟨"AKIA_NEW_KEY", "new_secret_key"⟩)
        ∈ (rotateKeys (simFailAt 2).clients "alice" "vault/alice-key" alice0).trace ∧
    (rotateKeys (simFailAt 2).clients "alice" "vault/alice-key" alice0).ret
        = some (Errorf_w "failed to test new access key: " (.errorString "boom")) ∧
    deleteCalls (rotateKeys (simFailAt 2).clients "alice" "vault/alice-key" alice0).trace
        = [("AKIA_NEW_KEY", "alice")] ∧
    ∀ ev ∈ (rotateKeys (simFailAt 2).clients "alice" "vault/alice-key" alice0).trace,
      ev.isCreateSecret = false ∧ ev.isListAccessKeys = false :=
  ⟨by decide,
   verify_failure_rolls_back_new_key_only (simFailAt 2).clients "alice" "vault/alice-key"
     alice0 "AKIA_NEW_KEY" "new_secret_key" (.errorString "boom") (by decide)⟩

/-- C6. If `CreateSecret` fails with `e`, then `rotateKeys` returns the non-nil
error wrapping `e`, its only `DeleteAccessKey` call carries the id returned by
`CreateAccessKey` and the principal's user name, and `ListAccessKeys` is never
called. -/
theorem persist_failure_rolls_back_new_key_only {σ : Type} (c : Clients σ)
    (username secretName : String) (s0 : σ) (id secret name value : String) (e : GoError)
    (h : Event.CreateSecret id secret name value (some e)
      ∈ (rotateKeys c username secretName s0).trace) :
    Event.CreateAccessKey username (.ok ⟨id, secret⟩)
        ∈ (rotateKeys c username secretName s0).trace ∧
    (rotateKeys c username secretName s0).ret
        = some (Errorf_w "failed to store key in Secrets Manager: " e) ∧
    deleteCalls (rotateKeys c username secretName s0).trace = [(id, username)] ∧
    ∀ ev ∈ (rotateKeys c username secretName s0).trace, ev.isListAccessKeys = false := by
  have hs := rotateKeys_run c username secretName s0
  generalize rotateKeys c username secretName s0 = r at hs h ⊢
  cases hs with
  | persistFailed k e' d =>
    cases d <;>
      simp [cleanupEvents, verifiedSteps, deleteCalls, Event.isListAccessKeys] at h ⊢ <;>
      obtain ⟨rfl, rfl, -, -, rfl⟩ := h <;> simp
  | createFailed e' => simp at h
  | configFailed k e' d => cases d <;> simp [cleanupEvents] at h
  | verifyFailed k e' d => cases d <;> simp [cleanupEvents] at h
  | listFailed k e' d =>
    cases d <;> simp [cleanupEvents, verifiedSteps, persistedSteps] at h
  | nothingListed k => simp [verifiedSteps, persistedSteps] at h
  | firstIsNew k o rest => simp [verifiedSteps, persistedSteps] at h
  | retireFailed k o rest e' d =>
    cases d <;> simp [cleanupEvents, verifiedSteps, persistedSteps] at h
  | retired k o rest => simp [verifiedSteps, persistedSteps] at h

/-- C6 at a concrete run: the fourth remote call, `CreateSecret`, fails. -/
theorem persist_failure_rolls_back_new_key_only_witness :
    Event.CreateSecret "AKIA_NEW_KEY" "new_secret_key" "vault/alice-key" (secretValue k2)
        (some (.errorString "boom"))
        ∈ (rotateKeys (simFailAt 3).clients "alice" "vault/alice-key" alice0).trace ∧
    Event.CreateAccessKey "alice" (.ok ⟨"AKIA_NEW_KEY", "new_secret_key"⟩)
        ∈ (rotateKeys (simFailAt 3).clients "alice" "vault/alice-key" alice0).trace ∧
    (rotateKeys (simFailAt 3).clients "alice" "vault/alice-key" alice0).ret
        = some (Errorf_w "failed to store key in Secrets Manager: " (.errorString "boom")) ∧
    deleteCalls (rotateKeys (simFailAt 3).clients "alice" "vault/alice-key" alice0).trace
        = [("AKIA_NEW_KEY", "alice")] ∧
    ∀ ev ∈ (rotateKeys (simFailAt 3).clients "alice" "vault/alice-key" alice0).trace,
      ev.isListAccessKeys = false :=
  ⟨by decide,
   persist_failure_rolls_back_new_key_only (simFailAt 3).clients "alice" "vault/alice-key"
     alice0 "AKIA_NEW_KEY" "new_secret_key" "vault/alice-key" (secretValue k2)
     (.errorString "boom") (by decide)⟩

/-- C7. If `CreateAccessKey` fails with `e`, then `rotateKeys` returns the error
wrapping `e` and the failed call is its only action: no `DeleteAccessKey`, no
verification, no `CreateSecret`, no `ListAccessKeys`. -/
theorem create_failure_is_terminal {σ : Type} (c : Clients σ)
    (username secretName : String) (s0 : σ) (u : String) (e : GoError)
    (h : Event.CreateAccessKey u (.error e) ∈ (rotateKeys c username secretName s0).trace) :
    (rotateKeys c username secretName s0).ret
        = some (Errorf_w "failed to create new access key: " e) ∧
    (rotateKeys c username secretName s0).trace
        = [Event.CreateAccessKey username (.error e)] := by
  have hs := rotateKeys_run c username secretName s0
  generalize rotateKeys c username secretName s0 = r at hs h ⊢
  cases hs with
  | createFailed e' =>
    simp at h ⊢
    obtain ⟨-, rfl⟩ := h
    simp
  | configFailed k e' d => cases d <;> simp [cleanupEvents] at h
  | verifyFailed k e' d => cases d <;> simp [cleanupEvents] at h
  | persistFailed k e' d => cases d <;> simp [cleanupEvents, verifiedSteps] at h
  | listFailed k e' d =>
    cases d <;> simp [cleanupEvents, verifiedSteps, persistedSteps] at h
  | nothingListed k => simp [verifiedSteps, persistedSteps] at h
  | firstIsNew k o rest => simp [verifiedSteps, persistedSteps] at h
  | retireFailed k o rest e' d =>
    cases d <;> simp [cleanupEvents, verifiedSteps, persistedSteps] at h
  | retired k o rest => simp [verifiedSteps, persistedSteps] at h

/-- C7 at a concrete run: the very first remote call fails. -/
theorem create_failure_is_terminal_witness :
    Event.CreateAccessKey "alice" (.error (.errorString "boom"))
        ∈ (rotateKeys (simFailAt 0).clients "alice" "vault/alice-key" alice0).trace ∧
    (rotateKeys (simFailAt 0).clients "alice" "vault/alice-key" alice0).ret
        = some (Errorf_w "failed to create new access key: " (.errorString "boom")) ∧
    (rotateKeys (simFailAt 0).clients "alice" "vault/alice-key" alice0).trace
        = [Event.CreateAccessKey "alice" (.error (.errorString "boom"))] :=
  ⟨by decide,
   create_failure_is_terminal (simFailAt 0).clients "alice" "vault/alice-key" alice0
     "alice" (.errorString "boom") (by decide)⟩

/-! ## What the caller learns about the rollback -/

/-- C8, refuted as stated.  The verification fails in both runs; the rollback
deletion succeeds in the first and fails in the second, where both keys stay
live; `rotateKeys` returns the same error in both. -/
theorem rollback_failure_same_returned_error :
    (rotateKeys (simFailAt 2).clients "alice" "vault/alice-key" alice0).ret
      = (rotateKeys (simFailAt2 2 3).clients "alice" "vault/alice-key" alice0).ret ∧
    Event.DeleteAccessKey "AKIA_NEW_KEY" "alice" none
      ∈ (rotateKeys (simFailAt 2).clients "alice" "vault/alice-key" alice0).trace ∧
    Event.DeleteAccessKey "AKIA_NEW_KEY" "alice" (some (.errorString "boom"))
      ∈ (rotateKeys (simFailAt2 2 3).clients "alice" "vault/alice-key" alice0).trace ∧
    (rotateKeys (simFailAt2 2 3).clients "alice" "vault/alice-key" alice0).state.keys
      = ["K1", "AKIA_NEW_KEY"] := by decide

/-- C8, amended.  Two runs of `rotateKeys` that hit the same primary failure (the
same failed verification or the same failed `CreateSecret`) return the same
error, whatever their rollback deletions do; a failing rollback deletion is
reported only by the warning line written to standard output, which is absent
when the deletion succeeds. -/
theorem rollback_outcome_only_printed {σ τ : Type} (c : Clients σ) (c' : Clients τ)
    (username secretName : String) (s0 : σ) (s0' : τ) (p : Event)
    (hp : p.isPrimaryFailure = true)
    (h : p ∈ (rotateKeys c username secretName s0).trace)
    (h' : p ∈ (rotateKeys c' username secretName s0').trace) :
    (rotateKeys c username secretName s0).ret = (rotateKeys c' username secretName s0').ret ∧
    (∀ id u de,
      Event.DeleteAccessKey id u (some de) ∈ (rotateKeys c username secretName s0).trace →
      Event.Printf ("Warning: Failed to clean up new access key: " ++ fmtV de ++ "\n")
        ∈ (rotateKeys c username secretName s0).trace) ∧
    (∀ id u, Event.DeleteAccessKey id u none ∈ (rotateKeys c username secretName s0).trace →
      ∀ ev ∈ (rotateKeys c username secretName s0).trace, ev.isPrintf = false) := by
  have h1 := ret_of_primary_failure c username secretName s0 p hp h
  have h2 := ret_of_primary_failure c' username secretName s0' p hp h'
  exact ⟨h1.1.trans h2.1.symm, h1.2⟩

/-- C8 amended, at two concrete runs: verification fails in both, the rollback
fails in the first only. -/
theorem rollback_outcome_only_printed_witness :
    (Event.GetUser "AKIA_NEW_KEY" "new_secret_key" (some (.errorString "boom"))).isPrimaryFailure
      = true ∧
    Event.GetUser "AKIA_NEW_KEY" "new_secret_key" (some (.errorString "boom"))
      ∈ (rotateKeys (simFailAt2 2 3).clients "alice" "vault/alice-key" alice0).trace ∧
    Event.GetUser "AKIA_NEW_KEY" "new_secret_key" (some (.errorString "boom"))
      ∈ (rotateKeys (simFailAt 2).clients "alice" "vault/alice-key" alice0).trace ∧
    (rotateKeys (simFailAt2 2 3).clients "alice" "vault/alice-key" alice0).ret
      = (rotateKeys (simFailAt 2).clients "alice" "vault/alice-key" alice0).ret ∧
    (∀ id u de,
      Event.DeleteAccessKey id u (some de)
        ∈ (rotateKeys (simFailAt2 2 3).clients "alice" "vault/alice-key" alice0).trace →
      Event.Printf ("Warning: Failed to clean up new access key: " ++ fmtV de ++ "\n")
        ∈ (rotateKeys (simFailAt2 2 3).clients "alice" "vault/alice-key" alice0).trace) ∧
    (∀ id u, Event.DeleteAccessKey id u none
        ∈ (rotateKeys (simFailAt2 2 3).clients "alice" "vault/alice-key" alice0).trace →
      ∀ ev ∈ (rotateKeys (simFailAt2 2 3).clients "alice" "vault/alice-key" alice0).trace,
        ev.isPrintf = false) :=
  ⟨by decide, by decide, by decide,
   rollback_outcome_only_printed (simFailAt2 2 3).clients (simFailAt 2).clients "alice"
     "vault/alice-key" alice0 alice0
     (Event.GetUser "AKIA_NEW_KEY" "new_secret_key" (some (.errorString "boom")))
     (by decide) (by decide) (by decide)⟩

/-! ## Which key is retired -/

/-- C9, refuted as stated.  The listing is new key first, then `K1`: the first
listed key whose id differs from the new one is `K1`, and no key is deleted. -/
theorem later_old_key_is_not_deleted :
    Event.CreateAccessKey "alice" (.ok k2)
      ∈ (rotateKeys simNewestFirst.clients "alice" "vault/alice-key" alice0).trace ∧
    Event.ListAccessKeys "alice" (.ok [⟨"AKIA_NEW_KEY"⟩, ⟨"K1"⟩])
      ∈ (rotateKeys simNewestFirst.clients "alice" "vault/alice-key" alice0).trace ∧
    ([⟨"AKIA_NEW_KEY"⟩, ⟨"K1"⟩] : List AccessKeyMetadata).find?
        (fun m => decide (m.AccessKeyId ≠ k2.AccessKeyId)) = some ⟨"K1"⟩ ∧
    deletedIds (rotateKeys simNewestFirst.clients "alice" "vault/alice-key" alice0).trace
      = [] := by decide

/-- C9, amended.  The retire step inspects only the first key returned by
`ListAccessKeys`: a key other than the new one is the subject of a
`DeleteAccessKey` call if and only if it is the first listed key. -/
theorem retire_step_inspects_first_listed_key_only {σ : Type} (c : Clients σ)
    (username secretName : String) (s0 : σ) (k : AccessKey) (l : List AccessKeyMetadata)
    (id : String)
    (hk : Event.CreateAccessKey username (.ok k) ∈ (rotateKeys c username secretName s0).trace)
    (hl : Event.ListAccessKeys username (.ok l) ∈ (rotateKeys c username secretName s0).trace)
    (hid : id ≠ k.AccessKeyId) :
    id ∈ deletedIds (rotateKeys c username secretName s0).trace ↔ l.head? = some ⟨id⟩ := by
  have hs := rotateKeys_run c username secretName s0
  generalize rotateKeys c username secretName s0 = r at hs hk hl ⊢
  cases hs with
  | createFailed e => simp at hl
  | configFailed k' e d => cases d <;> simp [cleanupEvents] at hl
  | verifyFailed k' e d => cases d <;> simp [cleanupEvents] at hl
  | persistFailed k' e d => cases d <;> simp [cleanupEvents, verifiedSteps] at hl
  | listFailed k' e d =>
    cases d <;> simp [cleanupEvents, verifiedSteps, persistedSteps] at hl
  | nothingListed k' =>
    simp [verifiedSteps, persistedSteps] at hl hk
    subst hl
    simp [deletedIds, deleteCalls, verifiedSteps, persistedSteps]
  | firstIsNew k' o rest s1 s2 s3 s4 s5 hc hcfg hg hp ha ho =>
    simp [verifiedSteps, persistedSteps] at hl hk
    subst hl hk
    have : ¬ o = ⟨id⟩ := fun h => hid (by rw [← ho, h])
    simp [deletedIds, deleteCalls, verifiedSteps, persistedSteps, this]
  | retireFailed k' o rest e d s1 s2 s3 s4 s5 s6 s7 hc hcfg hg hp ha ho =>
    have hk' : k = k' := by
      cases d <;> simpa [cleanupEvents, verifiedSteps, persistedSteps] using hk
    have hlist : l = o :: rest := by
      cases d <;> simpa [cleanupEvents, verifiedSteps, persistedSteps] using hl
    subst hk' hlist
    have e1 : (o = ⟨id⟩) ↔ id = o.AccessKeyId := by
      cases o; simp [eq_comm]
    cases d <;>
      simp [deletedIds, deleteCalls, cleanupEvents, verifiedSteps, persistedSteps, e1, hid]
  | retired k' o rest s1 s2 s3 s4 s5 s6 hc hcfg hg hp ha ho =>
    simp [verifiedSteps, persistedSteps] at hl hk
    subst hl hk
    have e1 : (o = ⟨id⟩) ↔ id = o.AccessKeyId := by
      cases o; simp [eq_comm]
    simp [deletedIds, deleteCalls, verifiedSteps, persistedSteps, e1]

/-- C9 amended, at a concrete run: `K1` is listed first and is deleted. -/
theorem retire_step_inspects_first_listed_key_only_witness :
    Event.CreateAccessKey "alice" (.ok k2)
      ∈ (rotateKeys simOk.clients "alice" "vault/alice-key" alice0).trace ∧
    Event.ListAccessKeys "alice" (.ok [⟨"K1"⟩, ⟨"AKIA_NEW_KEY"⟩])
      ∈ (rotateKeys simOk.clients "alice" "vault/alice-key" alice0).trace ∧
    "K1" ≠ k2.AccessKeyId ∧
    ("K1" ∈ deletedIds (rotateKeys simOk.clients "alice" "vault/alice-key" alice0).trace ↔
      ([⟨"K1"⟩, ⟨"AKIA_NEW_KEY"⟩] : List AccessKeyMetadata).head? = some ⟨"K1"⟩) :=
  ⟨by decide, by decide, by decide,
   retire_step_inspects_first_listed_key_only simOk.clients "alice" "vault/alice-key" alice0
     k2 [⟨"K1"⟩, ⟨"AKIA_NEW_KEY"⟩] "K1" (by decide) (by decide) (by decide)⟩

/-! ## The stored payload -/

/-- C10, refuted as stated.  For a secret that contains a double quote the payload
passed to `CreateSecret` is not a JSON text. -/
theorem quoted_secret_payload_is_not_json :
    Event.CreateSecret "AKIA_NEW_KEY" "se\"cret" "vault/alice-key"
        "\x7b\"AccessKeyId\": \"AKIA_NEW_KEY\", \"SecretAccessKey\": \"se\"cret\"\x7d" none
      ∈ (rotateKeys simQuoted.clients "alice" "vault/alice-key" alice0).trace ∧
    decodeFlatObject "\x7b\"AccessKeyId\": \"AKIA_NEW_KEY\", \"SecretAccessKey\": \"se\"cret\"\x7d"
      = none := by decide

/-- C10, amended.  When the new key's id and secret contain no double quote, no
backslash and no control character, the payload `rotateKeys` passes to
`CreateSecret` is a flat JSON object with exactly the two string members
`AccessKeyId` and `SecretAccessKey`, and decoding it gives back the id and the
secret of the key returned by `CreateAccessKey`. -/
theorem stored_payload_decodes_for_plain_keys {σ : Type} (c : Clients σ)
    (username secretName : String) (s0 : σ) (id secret name value : String)
    (err : Option GoError)
    (h : Event.CreateSecret id secret name value err
      ∈ (rotateKeys c username secretName s0).trace)
    (hid : ∀ ch ∈ id.data, jsonPlain ch = true)
    (hsecret : ∀ ch ∈ secret.data, jsonPlain ch = true) :
    Event.CreateAccessKey username (.ok ⟨id, secret⟩)
        ∈ (rotateKeys c username secretName s0).trace ∧
    name = secretName ∧
    decodeFlatObject value = some [("AccessKeyId", id), ("SecretAccessKey", secret)] := by
  obtain ⟨h1, h2, h3⟩ := createSecret_request c username secretName s0 id secret name value err h
  refine ⟨h1, h2, ?_⟩
  rw [h3]
  exact decode_secretValue ⟨id, secret⟩ hid hsecret

/-- C10 amended, at a concrete run: the payload stored for the key pair of the
repository's tests decodes to that pair. -/
theorem stored_payload_decodes_for_plain_keys_witness :
    Event.CreateSecret "AKIA_NEW_KEY" "new_secret_key" "vault/alice-key" (secretValue k2) none
      ∈ (rotateKeys simOk.clients "alice" "vault/alice-key" alice0).trace ∧
    (∀ ch ∈ "AKIA_NEW_KEY".data, jsonPlain ch = true) ∧
    (∀ ch ∈ "new_secret_key".data, jsonPlain ch = true) ∧
    Event.CreateAccessKey "alice" (.ok ⟨"AKIA_NEW_KEY", "new_secret_key"⟩)
        ∈ (rotateKeys simOk.clients "alice" "vault/alice-key" alice0).trace ∧
    "vault/alice-key" = "vault/alice-key" ∧
    decodeFlatObject (secretValue k2)
      = some [("AccessKeyId", "AKIA_NEW_KEY"), ("SecretAccessKey", "new_secret_key")] :=
  ⟨by decide, by decide, by decide,
   stored_payload_decodes_for_plain_keys simOk.clients "alice" "vault/alice-key" alice0
     "AKIA_NEW_KEY" "new_secret_key" "vault/alice-key" (secretValue k2) none
     (by decide) (by decide) (by decide)⟩

/-! ## Lemmas on strings -/

/-- `containsChars` decides whether `substr` is a contiguous part of `s`. -/
theorem containsChars_iff (s substr : List Char) :
    containsChars s substr = true ↔ substr <:+: s := by
  induction s with
  | nil =>
    cases substr <;> simp [containsChars]
  | cons c cs ih =>
    rw [containsChars, Bool.or_eq_true, List.isPrefixOf_iff_prefix, ih, List.infix_cons_iff]

/-- A string contains what was appended to make it. -/
theorem stringsContains_append_right (a b : String) : stringsContains (a ++ b) b = true := by
  unfold stringsContains
  rw [containsChars_iff, String.data_append]
  exact (List.suffix_append _ _).isInfix

/-- Splitting never gives an empty list of pieces. -/
theorem splitChars_ne_nil (sep : Char) (s : List Char) : splitChars sep s ≠ [] := by
  induction s with
  | nil => simp [splitChars]
  | cons c cs ih =>
    rw [splitChars]
    split
    · simp
    · split <;> simp

/-- No piece of a split contains the separator. -/
theorem splitChars_free (sep : Char) (s : List Char) :
    ∀ piece ∈ splitChars sep s, sep ∉ piece := by
  induction s with
  | nil => simp [splitChars]
  | cons c cs ih =>
    rw [splitChars]
    split
    · intro piece hp
      rcases List.mem_cons.mp hp with rfl | hp
      · simp
      · exact ih piece hp
    · rename_i hne
      split
      · intro piece hp
        simp at hp
        subst hp
        simpa using fun h => hne h.symm
      · rename_i p ps heq
        intro piece hp
        rcases List.mem_cons.mp hp with rfl | hp
        · have := ih p (by rw [heq]; simp)
          simp only [List.mem_cons, not_or]
          exact ⟨fun h => hne h.symm, this⟩
        · exact ih piece (by rw [heq]; simp [hp])

/-- A leading piece without separator is the first piece of the split. -/
theorem splitChars_append_sep (sep : Char) (a rest : List Char) (ha : sep ∉ a) :
    splitChars sep (a ++ sep :: rest) = a :: splitChars sep rest := by
  induction a with
  | nil => simp [splitChars]
  | cons c cs ih =>
    simp only [List.mem_cons, not_or] at ha
    have hne : ¬ c = sep := fun h => ha.1 h.symm
    rw [List.cons_append, splitChars, if_neg hne, ih ha.2]

/-- Joining the pieces of a split gives the string back. -/
theorem joinChars_split (sep : Char) (s : List Char) :
    joinChars sep (splitChars sep s) = s := by
  induction s with
  | nil => rfl
  | cons c cs ih =>
    rw [splitChars]
    split
    · rename_i h
      subst h
      rcases hsp : splitChars c cs with _ | ⟨q, qs⟩
      · exact absurd hsp (splitChars_ne_nil c cs)
      · rw [hsp] at ih
        simp [joinChars, ih]
    · split
      · rename_i heq
        exact absurd heq (splitChars_ne_nil sep cs)
      · rename_i p ps heq
        rw [heq] at ih
        cases ps with
        | nil =>
          simp only [joinChars] at ih ⊢
          rw [ih]
        | cons q qs =>
          simp only [joinChars] at ih ⊢
          rw [← ih]
          rfl

/-! ## What is stored in the vault -/

/-- C11, refuted as stated.  The vault already holds `vault/alice-key` and no
call fails for another reason: every IAM call succeeds, `CreateSecret` is refused
because the name is in use, `rotateKeys` returns an error and the vault still
holds the old value. -/
theorem taken_secret_name_fails_rotation :
    alice1.secret "vault/alice-key" = some "old payload" ∧
    (∀ ev ∈ (rotateKeys simOk.serviceClients "alice" "vault/alice-key" alice1).trace,
      ev.isIAMCall = true → ev.failed = false) ∧
    (rotateKeys simOk.serviceClients "alice" "vault/alice-key" alice1).ret
      = some (Errorf_w "failed to store key in Secrets Manager: "
          (resourceExists "vault/alice-key")) ∧
    (rotateKeys simOk.serviceClients "alice" "vault/alice-key" alice1).state.secret
      "vault/alice-key" = some "old payload" :=
  ⟨by decide, by decide, rfl, by decide⟩

/-- C11, amended.  On the simulated store with `CreateSecret` refusing a name in
use, let no call fail for another reason.  For every prior state without an entry
under `secretName`, `rotateKeys` returns nil and ends with the entry `secretName`
holding the new key's serialized pair.  For every prior state that holds an
entry under `secretName`, `CreateSecret` is refused: `rotateKeys` returns that
error, wrapped, the vault is as before, so that the previous value stays, and
the one `DeleteAccessKey` call removes the new key. -/
theorem rotation_stores_payload_only_under_free_name (w : Sim)
    (username secretName : String) (s0 : SimState)
    (hok : ∀ n, w.fault n = none) :
    (s0.secret secretName = none →
      (rotateKeys w.serviceClients username secretName s0).ret = none ∧
      (rotateKeys w.serviceClients username secretName s0).state.secret secretName
        = some (secretValue w.mint)) ∧
    (∀ old, s0.secret secretName = some old →
      (rotateKeys w.serviceClients username secretName s0).ret
        = some (Errorf_w "failed to store key in Secrets Manager: "
            (resourceExists secretName)) ∧
      (rotateKeys w.serviceClients username secretName s0).state.vault = s0.vault ∧
      (rotateKeys w.serviceClients username secretName s0).state.secret secretName
        = some old ∧
      deleteCalls (rotateKeys w.serviceClients username secretName s0).trace
        = [(w.mint.AccessKeyId, username)] ∧
      w.mint.AccessKeyId ∉ (rotateKeys w.serviceClients username secretName s0).state.keys) := by
  have hC : ∀ u s, w.serviceClients.CreateAccessKey u s
      = (.ok w.mint, { s.bump with keys := s.keys ++ [w.mint.AccessKeyId] }) := by
    intro u s
    simp [Sim.serviceClients, Sim.clients, hok]
  have hL : ∀ a b s, w.serviceClients.LoadDefaultConfig a b s = (none, s.bump) := by
    intro a b s
    simp [Sim.serviceClients, Sim.clients, hok]
  have hG : ∀ a b s, w.serviceClients.GetUser a b s = (none, s.bump) := by
    intro a b s
    simp [Sim.serviceClients, Sim.clients, hok]
  have hP : ∀ a b n v s, w.serviceClients.CreateSecret a b n v s
      = match s.secret n with
        | some _ => (some (resourceExists n), s.bump)
        | none => (none, s.bump.putSecret n v) := by
    intro a b n v s
    simp [Sim.serviceClients, hok]
  have hA : ∀ u s, w.serviceClients.ListAccessKeys u s
      = (.ok ((w.order s.keys).map AccessKeyMetadata.mk), s.bump) := by
    intro u s
    simp [Sim.serviceClients, Sim.clients, hok]
  have hD : ∀ id u s, w.serviceClients.DeleteAccessKey id u s
      = (none, s.bump.removeKey id) := by
    intro id u s
    simp [Sim.serviceClients, Sim.clients, hok]
  have hs := rotateKeys_run w.serviceClients username secretName s0
  generalize rotateKeys w.serviceClients username secretName s0 = r at hs ⊢
  cases hs with
  | createFailed e s1 hc => simp [hC] at hc
  | configFailed k e d s1 s2 s3 hc hl hd => simp [hL] at hl
  | verifyFailed k e d s1 s2 s3 s4 hc hl hg hd => simp [hG] at hg
  | listFailed k e d s1 s2 s3 s4 s5 s6 hc hl hg hp ha hd => simp [hA] at ha
  | retireFailed k o rest e d s1 s2 s3 s4 s5 s6 s7 hc hl hg hp ha ho hr hd =>
    simp [hD] at hr
  | persistFailed k e d s1 s2 s3 s4 s5 hc hl hg hp hd =>
    simp only [hC, Prod.mk.injEq, Except.ok.injEq] at hc
    obtain ⟨rfl, rfl⟩ := hc
    simp only [hL, Prod.mk.injEq, true_and] at hl
    subst hl
    simp only [hG, Prod.mk.injEq, true_and] at hg
    subst hg
    rw [hP] at hp
    simp only [hD, Prod.mk.injEq] at hd
    obtain ⟨rfl, rfl⟩ := hd
    cases hsec : s0.secret secretName with
    | none =>
      have hsec2 : List.lookup secretName s0.vault = none := hsec
      simp [SimState.secret, SimState.bump, hsec2] at hp
    | some old =>
      have hsec2 : List.lookup secretName s0.vault = some old := hsec
      simp only [SimState.secret, SimState.bump, hsec2, Prod.mk.injEq, Option.some.injEq] at hp
      obtain ⟨rfl, rfl⟩ := hp
      simp [cleanupEvents, verifiedSteps, deleteCalls, SimState.secret, SimState.bump,
        SimState.removeKey, hsec2]
  | nothingListed k s1 s2 s3 s4 s5 hc hl hg hp ha =>
    simp only [hC, Prod.mk.injEq, Except.ok.injEq] at hc
    obtain ⟨rfl, rfl⟩ := hc
    simp only [hL, Prod.mk.injEq, true_and] at hl
    subst hl
    simp only [hG, Prod.mk.injEq, true_and] at hg
    subst hg
    rw [hP] at hp
    simp only [hA, Prod.mk.injEq, Except.ok.injEq] at ha
    obtain ⟨-, rfl⟩ := ha
    cases hsec : s0.secret secretName with
    | some old =>
      have hsec2 : List.lookup secretName s0.vault = some old := hsec
      simp [SimState.secret, SimState.bump, hsec2] at hp
    | none =>
      have hsec2 : List.lookup secretName s0.vault = none := hsec
      simp only [SimState.secret, SimState.bump, hsec2, Prod.mk.injEq, true_and] at hp
      subst hp
      simp [SimState.secret, SimState.bump, SimState.putSecret, List.lookup]
  | firstIsNew k o rest s1 s2 s3 s4 s5 hc hl hg hp ha ho =>
    simp only [hC, Prod.mk.injEq, Except.ok.injEq] at hc
    obtain ⟨rfl, rfl⟩ := hc
    simp only [hL, Prod.mk.injEq, true_and] at hl
    subst hl
    simp only [hG, Prod.mk.injEq, true_and] at hg
    subst hg
    rw [hP] at hp
    simp only [hA, Prod.mk.injEq, Except.ok.injEq] at ha
    obtain ⟨-, rfl⟩ := ha
    cases hsec : s0.secret secretName with
    | some old =>
      have hsec2 : List.lookup secretName s0.vault = some old := hsec
      simp [SimState.secret, SimState.bump, hsec2] at hp
    | none =>
      have hsec2 : List.lookup secretName s0.vault = none := hsec
      simp only [SimState.secret, SimState.bump, hsec2, Prod.mk.injEq, true_and] at hp
      subst hp
      simp [SimState.secret, SimState.bump, SimState.putSecret, List.lookup]
  | retired k o rest s1 s2 s3 s4 s5 s6 hc hl hg hp ha ho hr =>
    simp only [hC, Prod.mk.injEq, Except.ok.injEq] at hc
    obtain ⟨rfl, rfl⟩ := hc
    simp only [hL, Prod.mk.injEq, true_and] at hl
    subst hl
    simp only [hG, Prod.mk.injEq, true_and] at hg
    subst hg
    rw [hP] at hp
    simp only [hA, Prod.mk.injEq, Except.ok.injEq] at ha
    obtain ⟨-, rfl⟩ := ha
    simp only [hD, Prod.mk.injEq, true_and] at hr
    subst hr
    cases hsec : s0.secret secretName with
    | some old =>
      have hsec2 : List.lookup secretName s0.vault = some old := hsec
      simp [SimState.secret, SimState.bump, hsec2] at hp
    | none =>
      have hsec2 : List.lookup secretName s0.vault = none := hsec
      simp only [SimState.secret, SimState.bump, hsec2, Prod.mk.injEq, true_and] at hp
      subst hp
      simp [SimState.secret, SimState.bump, SimState.putSecret, SimState.removeKey,
        List.lookup]

/-- C11 amended, at a concrete run on a vault without the entry: nothing fails
and the entry holds the payload of the new key. -/
theorem rotation_stores_payload_only_under_free_name_witness :
    (∀ n, simOk.fault n = none) ∧
    alice0.secret "vault/alice-key" = none ∧
    (rotateKeys simOk.serviceClients "alice" "vault/alice-key" alice0).state.vault
      = [("vault/alice-key", secretValue k2)] ∧
    ((alice0.secret "vault/alice-key" = none →
      (rotateKeys simOk.serviceClients "alice" "vault/alice-key" alice0).ret = none ∧
      (rotateKeys simOk.serviceClients "alice" "vault/alice-key" alice0).state.secret
        "vault/alice-key" = some (secretValue simOk.mint)) ∧
    (∀ old, alice0.secret "vault/alice-key" = some old →
      (rotateKeys simOk.serviceClients "alice" "vault/alice-key" alice0).ret
        = some (Errorf_w "failed to store key in Secrets Manager: "
            (resourceExists "vault/alice-key")) ∧
      (rotateKeys simOk.serviceClients "alice" "vault/alice-key" alice0).state.vault
        = alice0.vault ∧
      (rotateKeys simOk.serviceClients "alice" "vault/alice-key" alice0).state.secret
        "vault/alice-key" = some old ∧
      deleteCalls (rotateKeys simOk.serviceClients "alice" "vault/alice-key" alice0).trace
        = [(simOk.mint.AccessKeyId, "alice")] ∧
      simOk.mint.AccessKeyId
        ∉ (rotateKeys simOk.serviceClients "alice" "vault/alice-key" alice0).state.keys)) :=
  ⟨fun _ => rfl, by decide, by decide,
   rotation_stores_payload_only_under_free_name simOk "alice" "vault/alice-key" alice0
     (fun _ => rfl)⟩

/-! ## Classification of the returned error -/

/-- C12. When the `CreateAccessKey` of the rotation function of
`TestPermissionErrors`, `rotateKeysWithClients`, fails with an error `e`, the
function returns `e` itself after this one call: for a `*PermissionError` the
type assertion on the returned error succeeds, and every error keeps its
class. -/
theorem rotateKeysWithClients_returns_create_error_itself {σ : Type} (m : MockClients σ)
    (username secretName : String) (s0 s1 : σ)
    (createKey : String → σ → Except GoError AccessKey × σ) (e : GoError)
    (hf : m.createKeyFunc = some createKey)
    (hc : createKey username s0 = (.error e, s1)) :
    (rotateKeysWithClients m username secretName s0).result = .returned (some e) ∧
    (rotateKeysWithClients m username secretName s0).trace
      = [Event.CreateAccessKey username (.error e)] ∧
    (rotateKeysWithClients m username secretName s0).state = s1 ∧
    (∀ f, e = .PermissionError f →
      ∃ err, (rotateKeysWithClients m username secretName s0).result = .returned err ∧
        isPermissionError err = true) ∧
    (∃ err, (rotateKeysWithClients m username secretName s0).result = .returned err ∧
      errorClass err = errorClass (some e)) := by
  have hres : (rotateKeysWithClients m username secretName s0)
      = ⟨.returned (some e), [Event.CreateAccessKey username (.error e)], s1⟩ := by
    unfold rotateKeysWithClients
    simp only [hf, hc]
  rw [hres]
  refine ⟨rfl, rfl, rfl, ?_, ⟨some e, rfl, rfl⟩⟩
  intro f hfe
  subst hfe
  exact ⟨_, rfl, rfl⟩

/-- C12 at the run of `TestPermissionErrors`: `CreateAccessKey` answers a
`*PermissionError` that wraps `access denied`. -/
theorem rotateKeysWithClients_returns_create_error_itself_witness :
    permissionDeniedMock.createKeyFunc
      = some (fun _ s => (.error (.PermissionError (.val (.errorString "access denied"))), s)) ∧
    isPermissionError (some (.PermissionError (.val (.errorString "access denied")))) = true ∧
    ((rotateKeysWithClients permissionDeniedMock "testuser" "test-secret" ()).result
      = .returned (some (.PermissionError (.val (.errorString "access denied")))) ∧
    (rotateKeysWithClients permissionDeniedMock "testuser" "test-secret" ()).trace
      = [Event.CreateAccessKey "testuser"
          (.error (.PermissionError (.val (.errorString "access denied"))))] ∧
    (rotateKeysWithClients permissionDeniedMock "testuser" "test-secret" ()).state = () ∧
    (∀ f, GoError.PermissionError (.val (.errorString "access denied")) = .PermissionError f →
      ∃ err, (rotateKeysWithClients permissionDeniedMock "testuser" "test-secret" ()).result
          = .returned err ∧
        isPermissionError err = true) ∧
    (∃ err, (rotateKeysWithClients permissionDeniedMock "testuser" "test-secret" ()).result
        = .returned err ∧
      errorClass err
        = errorClass (some (.PermissionError (.val (.errorString "access denied")))))) :=
  ⟨rfl, by decide,
   rotateKeysWithClients_returns_create_error_itself permissionDeniedMock "testuser"
     "test-secret" () () (fun _ s => (.error (.PermissionError (.val
       (.errorString "access denied"))), s))
     (.PermissionError (.val (.errorString "access denied"))) rfl rfl⟩

/-! ## Rollback after any failure -/

/-- C13. If a key was created and `rotateKeys` returns an error (whichever of
the verify, persist, list or retire steps failed), the trace contains exactly one
`DeleteAccessKey` call for the new key under the principal's user name, and that
call is the last remote call before the return. -/
theorem any_failure_after_creation_rolls_back_once {σ : Type} (c : Clients σ)
    (username secretName : String) (s0 : σ) (k : AccessKey)
    (hk : Event.CreateAccessKey username (.ok k) ∈ (rotateKeys c username secretName s0).trace)
    (herr : (rotateKeys c username secretName s0).ret ≠ none) :
    (deleteCalls (rotateKeys c username secretName s0).trace).count (k.AccessKeyId, username) = 1 ∧
    ∃ d, ((rotateKeys c username secretName s0).trace.filter (fun ev => !ev.isPrintf)).getLast?
      = some (Event.DeleteAccessKey k.AccessKeyId username d) := by
  have hs := rotateKeys_run c username secretName s0
  generalize rotateKeys c username secretName s0 = r at hs hk herr ⊢
  cases hs with
  | createFailed e => simp at hk
  | nothingListed k0 => simp at herr
  | firstIsNew k0 o rest => simp at herr
  | retired k0 o rest => simp at herr
  | configFailed k0 e d =>
    have hkk : k = k0 := by cases d <;> simpa [cleanupEvents] using hk
    subst hkk
    refine ⟨?_, d, ?_⟩ <;> cases d <;>
      simp [cleanupEvents, deleteCalls, Event.isPrintf, List.filter]
  | verifyFailed k0 e d =>
    have hkk : k = k0 := by cases d <;> simpa [cleanupEvents] using hk
    subst hkk
    refine ⟨?_, d, ?_⟩ <;> cases d <;>
      simp [cleanupEvents, deleteCalls, Event.isPrintf, List.filter]
  | persistFailed k0 e d =>
    have hkk : k = k0 := by cases d <;> simpa [cleanupEvents, verifiedSteps] using hk
    subst hkk
    refine ⟨?_, d, ?_⟩ <;> cases d <;>
      simp [cleanupEvents, verifiedSteps, deleteCalls, Event.isPrintf, List.filter]
  | listFailed k0 e d =>
    have hkk : k = k0 := by
      cases d <;> simpa [cleanupEvents, verifiedSteps, persistedSteps] using hk
    subst hkk
    refine ⟨?_, d, ?_⟩ <;> cases d <;>
      simp [cleanupEvents, verifiedSteps, persistedSteps, deleteCalls, Event.isPrintf,
        List.filter]
  | retireFailed k0 o rest e d s1 s2 s3 s4 s5 s6 s7 hc hl hg hp ha ho =>
    have hkk : k = k0 := by
      cases d <;> simpa [cleanupEvents, verifiedSteps, persistedSteps] using hk
    subst hkk
    have hcount : List.count (k.AccessKeyId, username)
        [(o.AccessKeyId, username), (k.AccessKeyId, username)] = 1 := by
      simp [List.count_cons, ho]
    refine ⟨?_, d, ?_⟩
    · cases d <;>
        simpa [cleanupEvents, verifiedSteps, persistedSteps, deleteCalls] using hcount
    · cases d <;>
        simp [cleanupEvents, verifiedSteps, persistedSteps, Event.isPrintf, List.filter]

/-- C13 at a concrete run: the deletion of the old key fails. -/
theorem any_failure_after_creation_rolls_back_once_witness :
    Event.CreateAccessKey "alice" (.ok k2)
      ∈ (rotateKeys (simFailAt 5).clients "alice" "vault/alice-key" alice0).trace ∧
    (rotateKeys (simFailAt 5).clients "alice" "vault/alice-key" alice0).ret ≠ none ∧
    (deleteCalls (rotateKeys (simFailAt 5).clients "alice" "vault/alice-key" alice0).trace).count
      (k2.AccessKeyId, "alice") = 1 ∧
    ∃ d, ((rotateKeys (simFailAt 5).clients "alice" "vault/alice-key" alice0).trace.filter
        (fun ev => !ev.isPrintf)).getLast?
      = some (Event.DeleteAccessKey k2.AccessKeyId "alice" d) :=
  ⟨by decide, by decide,
   any_failure_after_creation_rolls_back_once (simFailAt 5).clients "alice" "vault/alice-key"
     alice0 k2 (by decide) (by decide)⟩

/-! ## Error messages shown to the user -/

/-- C14. `sanitizeError` returns its argument unchanged, and when `rotateKeys`
returns an error the message of the command's error is the rotation banner
followed by the full text of that error. -/
theorem sanitizeError_passes_error_through {σ : Type} (c : Clients σ)
    (username secretName : String) (s0 : σ) (e : Option GoError) (err : GoError)
    (herr : (rotateKeys c username secretName s0).ret = some err) :
    sanitizeError e = e ∧
    ∃ text, err.Error = some text ∧
      (rotateCommandTail c username secretName s0).ret
        = some (.errorString ("❌ Rotation failed: " ++ text)) ∧
      stringsContains ("❌ Rotation failed: " ++ text) text = true := by
  refine ⟨rfl, ?_⟩
  have hs := rotateKeys_run c username secretName s0
  have htail : (rotateCommandTail c username secretName s0).ret
      = some (.errorString ("❌ Rotation failed: " ++ fmtV err)) := by
    simp [rotateCommandTail, herr, sanitizeError, fmtVError]
  rw [htail]
  generalize rotateKeys c username secretName s0 = r at hs herr
  have hwrap : ∃ text inner, err = GoError.wrapError text inner := by
    cases hs <;> simp [Errorf_w] at herr <;> exact ⟨_, _, herr.symm⟩
  obtain ⟨text, inner, rfl⟩ := hwrap
  refine ⟨text, rfl, ?_, stringsContains_append_right _ _⟩
  simp [fmtV, GoError.Error]

/-- C14 at a concrete run: the verification fails with `boom`, and the text of
the error `rotateKeys` returns is part of the command's error message. -/
theorem sanitizeError_passes_error_through_witness :
    (rotateKeys (simFailAt 2).clients "alice" "vault/alice-key" alice0).ret
      = some (Errorf_w "failed to test new access key: " (.errorString "boom")) ∧
    sanitizeError (some (.errorString "boom")) = some (.errorString "boom") ∧
    ∃ text, (Errorf_w "failed to test new access key: " (.errorString "boom")).Error
        = some text ∧
      (rotateCommandTail (simFailAt 2).clients "alice" "vault/alice-key" alice0).ret
        = some (.errorString ("❌ Rotation failed: " ++ text)) ∧
      stringsContains ("❌ Rotation failed: " ++ text) text = true :=
  ⟨by decide,
   sanitizeError_passes_error_through (simFailAt 2).clients "alice" "vault/alice-key" alice0
     (some (.errorString "boom")) (Errorf_w "failed to test new access key: " (.errorString "boom"))
     (by decide)⟩

/-- C15. `handleAWSErrors` never returns nil; its message contains
"credential error" for every `*CredentialError`, "permission error" for every
`*PermissionError`, and "AWS service error" for every `*ServiceError` and every
other error value, nil included. -/
theorem handleAWSErrors_messages (err other : Option GoError) (f : ErrField)
    (hc : isCredentialError other = false) (hp : isPermissionError other = false) :
    handleAWSErrors err ≠ none ∧
    (∃ m, messageOf (handleAWSErrors (some (.CredentialError f))) = some m ∧
      stringsContains m "credential error" = true) ∧
    (∃ m, messageOf (handleAWSErrors (some (.PermissionError f))) = some m ∧
      stringsContains m "permission error" = true) ∧
    (∃ m, messageOf (handleAWSErrors (some (.ServiceError f))) = some m ∧
      stringsContains m "AWS service error" = true) ∧
    (∃ m, messageOf (handleAWSErrors other) = some m ∧
      stringsContains m "AWS service error" = true) := by
  refine ⟨?_, ⟨_, rfl, by decide⟩, ⟨_, rfl, by decide⟩, ⟨_, rfl, by decide⟩, ?_⟩
  · rcases err with _ | (_ | _ | _ | _ | _ | _) <;> simp [handleAWSErrors]
  · rcases other with _ | e
    · exact ⟨_, rfl, by decide⟩
    · cases e with
      | CredentialError g => simp [isCredentialError] at hc
      | PermissionError g => simp [isPermissionError] at hp
      | _ => exact ⟨_, rfl, by decide⟩

/-- C15 at concrete errors: the classification types with a nil field, and a
wrapped configuration error as the other error. -/
theorem handleAWSErrors_messages_witness :
    isCredentialError
      (some (.wrapError "failed to load AWS config: boom" (.errorString "boom"))) = false ∧
    isPermissionError
      (some (.wrapError "failed to load AWS config: boom" (.errorString "boom"))) = false ∧
    handleAWSErrors none ≠ none ∧
    (∃ m, messageOf (handleAWSErrors (some (.CredentialError .nil))) = some m ∧
      stringsContains m "credential error" = true) ∧
    (∃ m, messageOf (handleAWSErrors (some (.PermissionError .nil))) = some m ∧
      stringsContains m "permission error" = true) ∧
    (∃ m, messageOf (handleAWSErrors (some (.ServiceError .nil))) = some m ∧
      stringsContains m "AWS service error" = true) ∧
    (∃ m, messageOf (handleAWSErrors
        (some (.wrapError "failed to load AWS config: boom" (.errorString "boom")))) = some m ∧
      stringsContains m "AWS service error" = true) :=
  ⟨by decide, by decide,
   handleAWSErrors_messages none
     (some (.wrapError "failed to load AWS config: boom" (.errorString "boom"))) .nil
     (by decide) (by decide)⟩

/-- C16. Two errors of the same class get the same result from `handleAWSErrors`
and from `handleRotateAWSErrors`; any two errors get the same result from
`handleMFAErrors` and from `handlePasswordResetErrors`. -/
theorem handlers_depend_on_class_only (e1 e2 e3 e4 : Option GoError)
    (hclass : errorClass e1 = errorClass e2) :
    handleAWSErrors e1 = handleAWSErrors e2 ∧
    handleRotateAWSErrors e1 = handleRotateAWSErrors e2 ∧
    handleMFAErrors e3 = handleMFAErrors e4 ∧
    handlePasswordResetErrors e3 = handlePasswordResetErrors e4 := by
  refine ⟨?_, ?_, rfl, rfl⟩ <;>
    rcases e1 with _ | (_ | _ | _ | _ | _ | _) <;>
    rcases e2 with _ | (_ | _ | _ | _ | _ | _) <;>
    first
    | rfl
    | (simp [errorClass, isCredentialError, isPermissionError] at hclass)

/-- C16 at concrete errors: two permission errors with different detail, and an
error against nil. -/
theorem handlers_depend_on_class_only_witness :
    errorClass (some (.PermissionError (.val (.errorString "access denied for AKIA123"))))
      = errorClass (some (.PermissionError .nil)) ∧
    handleAWSErrors (some (.PermissionError (.val (.errorString "access denied for AKIA123"))))
      = handleAWSErrors (some (.PermissionError .nil)) ∧
    handleRotateAWSErrors
        (some (.PermissionError (.val (.errorString "access denied for AKIA123"))))
      = handleRotateAWSErrors (some (.PermissionError .nil)) ∧
    handleMFAErrors (some (.errorString "secret detail")) = handleMFAErrors none ∧
    handlePasswordResetErrors (some (.errorString "secret detail"))
      = handlePasswordResetErrors none :=
  ⟨by decide,
   handlers_depend_on_class_only
     (some (.PermissionError (.val (.errorString "access denied for AKIA123"))))
     (some (.PermissionError .nil)) (some (.errorString "secret detail")) none (by decide)⟩

/-! ## Password complexity -/

/-- C17, the code at the failing input.  The password has 8 characters and 14
bytes, of three types, and is accepted; the three passwords of the repository's
test behave as the test expects. -/
theorem short_multibyte_password_is_accepted :
    "Aaéééééé".length = 8 ∧ "Aaéééééé".utf8ByteSize = 14 ∧
    isValidPassword "Aaéééééé" = true ∧
    isValidPassword "Short1!" = false ∧
    isValidPassword "onlylowercaseandnumbers123" = false ∧
    isValidPassword "ValidPass123!@" = true := by decide

/-! ## The account id of an ARN -/

/-- C18. Every argument is the join of its colon-separated fields, and
`extractAccountID` returns the fifth of them when there are at least five and
"unknown" otherwise; for an ARN `arn:aws:iam::<account>:user/<name>` with a
colon-free account it returns the account. -/
theorem extractAccountID_is_fifth_field (arn account name : String)
    (hacc : ':' ∉ account.data) :
    (∃ fields : List String, fields ≠ [] ∧ (∀ f ∈ fields, ':' ∉ f.data) ∧
      arn = joinColon fields ∧
      extractAccountID arn = if h : fields.length ≥ 5 then fields[4] else "unknown") ∧
    extractAccountID ("arn:aws:iam::" ++ account ++ ":user/" ++ name) = account := by
  constructor
  · refine ⟨stringsSplitColon arn, ?_, ?_, ?_, rfl⟩
    · simpa [stringsSplitColon] using splitChars_ne_nil ':' arn.data
    · intro f hf
      simp only [stringsSplitColon, List.mem_map] at hf
      obtain ⟨p, hp, rfl⟩ := hf
      exact splitChars_free ':' arn.data p hp
    · unfold joinColon stringsSplitColon
      rw [List.map_map]
      have hid : (String.data ∘ String.mk) = id := rfl
      rw [hid, List.map_id, joinChars_split]
  · have hd : ("arn:aws:iam::" ++ account ++ ":user/" ++ name).data
        = "arn".data ++ ':' :: ("aws".data ++ ':' :: ("iam".data ++ ':' ::
          ([] ++ ':' :: (account.data ++ ':' :: ("user/" ++ name).data)))) := by
      simp only [String.data_append]
      simp
    have hs : stringsSplitColon ("arn:aws:iam::" ++ account ++ ":user/" ++ name)
        = "arn" :: "aws" :: "iam" :: "" :: account
            :: (splitChars ':' ("user/" ++ name).data).map String.mk := by
      unfold stringsSplitColon
      rw [hd, splitChars_append_sep _ _ _ (by decide), splitChars_append_sep _ _ _ (by decide),
        splitChars_append_sep _ _ _ (by decide), splitChars_append_sep _ _ _ (by simp),
        splitChars_append_sep _ _ _ hacc]
      rfl
    unfold extractAccountID
    simp only [hs]
    simp

/-- C18 at the two inputs of the repository's test. -/
theorem extractAccountID_is_fifth_field_witness :
    ':' ∉ "123456789012".data ∧
    (∃ fields : List String, fields ≠ [] ∧ (∀ f ∈ fields, ':' ∉ f.data) ∧
      "invalid-arn" = joinColon fields ∧
      extractAccountID "invalid-arn" = if h : fields.length ≥ 5 then fields[4] else "unknown") ∧
    extractAccountID ("arn:aws:iam::" ++ "123456789012" ++ ":user/" ++ "test-user")
      = "123456789012" :=
  ⟨by decide, extractAccountID_is_fifth_field "invalid-arn" "123456789012" "test-user" (by decide)⟩

/-! ## Password reset -/

/-- C19. Name the answers of the collaborators: `LoadDefaultConfig` answers
`cfg`, and on the states that follow `UpdateLoginProfile` answers `d` and
`CreateLoginProfile` answers `d2`.  `resetPassword` calls `CreateLoginProfile`
if and only if the client was built and `UpdateLoginProfile` failed with an
error whose text contains "NoSuchEntity", and then once, with the same client,
user name and password.  It returns nil when `UpdateLoginProfile` succeeds; in
the fallback case nil or the error of `CreateLoginProfile`, wrapped; for any
other `UpdateLoginProfile` error the error wrapping it, whose message contains
that error's message.  When the client cannot be built it returns that error,
wrapped, and calls neither operation.  In each case the trace and the final
state are those of the calls made. -/
theorem resetPassword_falls_back_on_NoSuchEntity {σ : Type} (c : ResetClients σ)
    (profile username password serialNumber mfaToken : String) (s0 s1 s2 s3 : σ)
    (cfg d d2 : Option GoError)
    (hcfg : c.LoadDefaultConfig profile s0 = (cfg, s1))
    (hup : c.UpdateLoginProfile ⟨profile, "", serialNumber, mfaToken⟩ username password s1
      = (d, s2))
    (hcr : c.CreateLoginProfile ⟨profile, "", serialNumber, mfaToken⟩ username password s2
      = (d2, s3)) :
    (createProfileCalls (resetPassword c profile username password serialNumber mfaToken s0).trace
        ≠ [] ↔
      cfg = none ∧ ∃ e text, d = some e ∧ e.Error = some text ∧
        stringsContains text "NoSuchEntity" = true) ∧
    (∀ e0, cfg = some e0 →
      (resetPassword c profile username password serialNumber mfaToken s0).result
        = .returned (some (Errorf_w "failed to create MFA-enabled client: " e0)) ∧
      (resetPassword c profile username password serialNumber mfaToken s0).trace
        = [ResetEvent.LoadDefaultConfig profile (some e0)] ∧
      (resetPassword c profile username password serialNumber mfaToken s0).state = s1) ∧
    (cfg = none → d = none →
      (resetPassword c profile username password serialNumber mfaToken s0).result
        = .returned none ∧
      (resetPassword c profile username password serialNumber mfaToken s0).trace
        = [ResetEvent.LoadDefaultConfig profile none,
           ResetEvent.UpdateLoginProfile ⟨profile, "", serialNumber, mfaToken⟩ username password
             none] ∧
      (resetPassword c profile username password serialNumber mfaToken s0).state = s2) ∧
    (cfg = none → ∀ e text, d = some e → e.Error = some text →
      stringsContains text "NoSuchEntity" = true →
      (resetPassword c profile username password serialNumber mfaToken s0).result
        = .returned (d2.map (Errorf_w "failed to create login profile: ")) ∧
      (resetPassword c profile username password serialNumber mfaToken s0).trace
        = [ResetEvent.LoadDefaultConfig profile none,
           ResetEvent.UpdateLoginProfile ⟨profile, "", serialNumber, mfaToken⟩ username password
             (some e),
           ResetEvent.CreateLoginProfile ⟨profile, "", serialNumber, mfaToken⟩ username password
             d2] ∧
      (resetPassword c profile username password serialNumber mfaToken s0).state = s3) ∧
    (cfg = none → ∀ e text, d = some e → e.Error = some text →
      stringsContains text "NoSuchEntity" = false →
      (resetPassword c profile username password serialNumber mfaToken s0).result
        = .returned (some (Errorf_w "failed to update login profile: " e)) ∧
      (∃ msg, (Errorf_w "failed to update login profile: " e).Error = some msg ∧
        stringsContains msg text = true) ∧
      (resetPassword c profile username password serialNumber mfaToken s0).trace
        = [ResetEvent.LoadDefaultConfig profile none,
           ResetEvent.UpdateLoginProfile ⟨profile, "", serialNumber, mfaToken⟩ username password
             (some e)] ∧
      (resetPassword c profile username password serialNumber mfaToken s0).state = s2) ∧
    (cfg = none → ∀ e, d = some e → e.Error = none →
      (resetPassword c profile username password serialNumber mfaToken s0).result = .panicked ∧
      (resetPassword c profile username password serialNumber mfaToken s0).trace
        = [ResetEvent.LoadDefaultConfig profile none,
           ResetEvent.UpdateLoginProfile ⟨profile, "", serialNumber, mfaToken⟩ username password
             (some e)] ∧
      (resetPassword c profile username password serialNumber mfaToken s0).state = s2) := by
  unfold resetPassword GetMFAEnabledClient
  cases cfg with
  | some e0 => simp [hcfg, createProfileCalls]
  | none =>
    simp only [hcfg]
    cases d with
    | none => simp [hup, createProfileCalls]
    | some e1 =>
      simp only [hup]
      rcases htext : e1.Error with _ | text
      · simp [createProfileCalls, htext]
        constructor <;>
        · intro e t he ht
          subst he
          rw [htext] at ht
          cases ht
      simp only
      by_cases hns : stringsContains text "NoSuchEntity" = true
      · simp only [hns, if_true]
        cases d2 with
        | none =>
          simp [hcr, createProfileCalls, htext, hns]
          constructor <;>
          · intro e t he ht
            subst he
            rw [htext] at ht
            cases ht
            simp [hns]
        | some e2 =>
          simp [hcr, createProfileCalls, htext, hns]
          constructor <;>
          · intro e t he ht
            subst he
            rw [htext] at ht
            cases ht
            simp [hns]
      · simp only [hns, if_false]
        simp only [Bool.not_eq_true] at hns
        refine ⟨by simp [createProfileCalls, htext, hns], by simp, by simp, ?_, ?_, ?_⟩
        · intro _ e text2 he ht hc
          simp only [Option.some.injEq] at he
          subst he
          rw [htext] at ht
          simp only [Option.some.injEq] at ht
          subst ht
          rw [hns] at hc
          cases hc
        · intro _ e text2 he ht _
          simp only [Option.some.injEq] at he
          subst he
          rw [htext] at ht
          simp only [Option.some.injEq] at ht
          subst ht
          refine ⟨rfl, ⟨_, rfl, ?_⟩, rfl, rfl⟩
          simp only [fmtV, htext]
          exact stringsContains_append_right _ _
        · intro _ e he ht
          simp only [Option.some.injEq] at he
          subst he
          rw [htext] at ht
          cases ht

/-- C19 at a concrete run: the user has no login profile, `UpdateLoginProfile`
answers `NoSuchEntity`, and the profile is created. -/
theorem resetPassword_falls_back_on_NoSuchEntity_witness :
    (resetWorld (some noSuchEntity) none).LoadDefaultConfig "p" () = (none, ()) ∧
    (resetWorld (some noSuchEntity) none).UpdateLoginProfile ⟨"p", "", "serial", "123456"⟩ "testuser"
      "ValidPass123!" () = (some noSuchEntity, ()) ∧
    (resetWorld (some noSuchEntity) none).CreateLoginProfile ⟨"p", "", "serial", "123456"⟩ "testuser"
      "ValidPass123!" () = (none, ()) ∧
    createProfileCalls (resetPassword (resetWorld (some noSuchEntity) none) "p" "testuser" "ValidPass123!"
          "serial" "123456" ()).trace
      = [("testuser", "ValidPass123!", none)] ∧
    (resetPassword (resetWorld (some noSuchEntity) none) "p" "testuser" "ValidPass123!"
          "serial" "123456" ()).result = .returned none ∧
    ((createProfileCalls (resetPassword (resetWorld (some noSuchEntity) none) "p" "testuser" "ValidPass123!"
          "serial" "123456" ()).trace ≠ [] ↔
      (none : Option GoError) = none ∧ ∃ e text, some noSuchEntity = some e ∧
        e.Error = some text ∧ stringsContains text "NoSuchEntity" = true) ∧
    (∀ e0, (none : Option GoError) = some e0 →
      (resetPassword (resetWorld (some noSuchEntity) none) "p" "testuser" "ValidPass123!"
          "serial" "123456" ()).result
        = .returned (some (Errorf_w "failed to create MFA-enabled client: " e0)) ∧
      (resetPassword (resetWorld (some noSuchEntity) none) "p" "testuser" "ValidPass123!"
          "serial" "123456" ()).trace
        = [ResetEvent.LoadDefaultConfig "p" (some e0)] ∧
      (resetPassword (resetWorld (some noSuchEntity) none) "p" "testuser" "ValidPass123!"
          "serial" "123456" ()).state = ()) ∧
    ((none : Option GoError) = none → some noSuchEntity = none →
      (resetPassword (resetWorld (some noSuchEntity) none) "p" "testuser" "ValidPass123!"
          "serial" "123456" ()).result = .returned none ∧
      (resetPassword (resetWorld (some noSuchEntity) none) "p" "testuser" "ValidPass123!"
          "serial" "123456" ()).trace
        = [ResetEvent.LoadDefaultConfig "p" none,
           ResetEvent.UpdateLoginProfile ⟨"p", "", "serial", "123456"⟩ "testuser" "ValidPass123!" none] ∧
      (resetPassword (resetWorld (some noSuchEntity) none) "p" "testuser" "ValidPass123!"
          "serial" "123456" ()).state = ()) ∧
    ((none : Option GoError) = none → ∀ e text, some noSuchEntity = some e →
      e.Error = some text → stringsContains text "NoSuchEntity" = true →
      (resetPassword (resetWorld (some noSuchEntity) none) "p" "testuser" "ValidPass123!"
          "serial" "123456" ()).result
        = .returned ((none : Option GoError).map (Errorf_w "failed to create login profile: ")) ∧
      (resetPassword (resetWorld (some noSuchEntity) none) "p" "testuser" "ValidPass123!"
          "serial" "123456" ()).trace
        = [ResetEvent.LoadDefaultConfig "p" none,
           ResetEvent.UpdateLoginProfile ⟨"p", "", "serial", "123456"⟩ "testuser" "ValidPass123!" (some e),
           ResetEvent.CreateLoginProfile ⟨"p", "", "serial", "123456"⟩ "testuser" "ValidPass123!" none] ∧
      (resetPassword (resetWorld (some noSuchEntity) none) "p" "testuser" "ValidPass123!"
          "serial" "123456" ()).state = ()) ∧
    ((none : Option GoError) = none → ∀ e text, some noSuchEntity = some e →
      e.Error = some text → stringsContains text "NoSuchEntity" = false →
      (resetPassword (resetWorld (some noSuchEntity) none) "p" "testuser" "ValidPass123!"
          "serial" "123456" ()).result
        = .returned (some (Errorf_w "failed to update login profile: " e)) ∧
      (∃ msg, (Errorf_w "failed to update login profile: " e).Error = some msg ∧
        stringsContains msg text = true) ∧
      (resetPassword (resetWorld (some noSuchEntity) none) "p" "testuser" "ValidPass123!"
          "serial" "123456" ()).trace
        = [ResetEvent.LoadDefaultConfig "p" none,
           ResetEvent.UpdateLoginProfile ⟨"p", "", "serial", "123456"⟩ "testuser" "ValidPass123!" (some e)] ∧
      (resetPassword (resetWorld (some noSuchEntity) none) "p" "testuser" "ValidPass123!"
          "serial" "123456" ()).state = ()) ∧
    ((none : Option GoError) = none → ∀ e, some noSuchEntity = some e → e.Error = none →
      (resetPassword (resetWorld (some noSuchEntity) none) "p" "testuser" "ValidPass123!"
          "serial" "123456" ()).result = .panicked ∧
      (resetPassword (resetWorld (some noSuchEntity) none) "p" "testuser" "ValidPass123!"
          "serial" "123456" ()).trace
        = [ResetEvent.LoadDefaultConfig "p" none,
           ResetEvent.UpdateLoginProfile ⟨"p", "", "serial", "123456"⟩ "testuser" "ValidPass123!" (some e)] ∧
      (resetPassword (resetWorld (some noSuchEntity) none) "p" "testuser" "ValidPass123!"
          "serial" "123456" ()).state = ())) :=
  ⟨rfl, rfl, rfl, by decide, by decide,
   resetPassword_falls_back_on_NoSuchEntity (resetWorld (some noSuchEntity) none) "p"
     "testuser" "ValidPass123!" "serial" "123456" () () () () none (some noSuchEntity) none
     rfl rfl rfl⟩

/-! ## MFA enrolment -/

/-- C20. In a run of `enableMFA` that reaches `EnableMFADevice`, the call is made
for the device just created; if it fails, `DeleteVirtualMFADevice` is called
exactly once, with that device's serial number, and the result is the empty
string with the wrapped error; if it succeeds, the result is the device's QR code
data with a nil error and nothing is deleted. -/
theorem enableMFA_cleans_up_after_failed_enable {σ : Type} (c : MfaClients σ)
    (profile username password : String) (mfaToken : List UInt8) (s0 : σ)
    (u serial : String) (code1 code2 : List UInt8) (d : Option GoError)
    (hen : MfaEvent.EnableMFADevice u serial code1 code2 d
      ∈ (enableMFA c profile username password mfaToken s0).trace) :
    ∃ name device,
      MfaEvent.CreateVirtualMFADevice name (.ok device)
        ∈ (enableMFA c profile username password mfaToken s0).trace ∧
      serial = device.SerialNumber ∧
      (∀ e, d = some e →
        deletedDevices (enableMFA c profile username password mfaToken s0).trace
          = [device.SerialNumber] ∧
        (enableMFA c profile username password mfaToken s0).result
          = .returned [] (some (Errorf_w "failed to enable MFA device: " e))) ∧
      (d = none →
        deletedDevices (enableMFA c profile username password mfaToken s0).trace = [] ∧
        (enableMFA c profile username password mfaToken s0).result
          = .returned device.QRCodePNG none) := by
  unfold enableMFA validateCredentials at hen ⊢
  simp only at hen ⊢
  rcases hnow : c.Now s0 with ⟨unix, s1⟩
  simp only [hnow] at hen ⊢
  rcases hcr : c.CreateVirtualMFADevice ("iamctl-" ++ username ++ "-" ++ toString unix) s1
    with ⟨e0 | device, s2⟩
  · simp only [hcr] at hen
    simp at hen
  simp only [hcr] at hen ⊢
  by_cases hlen : mfaToken.length < 6
  · simp only [hlen, if_true] at hen
    simp at hen
  simp only [hlen, if_false] at hen ⊢
  refine ⟨"iamctl-" ++ username ++ "-" ++ toString unix, device, ?_⟩
  rcases hpe : c.EnableMFADevice username device.SerialNumber (mfaToken.take 6)
      (mfaToken.drop 6) s2 with ⟨_ | e1, s3⟩
  · simp only [hpe] at hen ⊢
    simp at hen
    obtain ⟨-, rfl, -, -, rfl⟩ := hen
    simp [deletedDevices]
  simp only [hpe] at hen ⊢
  rcases hdel : c.DeleteVirtualMFADevice device.SerialNumber s3 with ⟨_ | e2, s4⟩
  · simp only [hdel] at hen ⊢
    simp at hen
    obtain ⟨-, rfl, -, -, rfl⟩ := hen
    simp [deletedDevices]
  · simp only [hdel] at hen ⊢
    simp at hen
    obtain ⟨-, rfl, -, -, rfl⟩ := hen
    simp [deletedDevices]

/-- C20 at the run of the repository's test: `EnableMFADevice` is denied. -/
theorem enableMFA_cleans_up_after_failed_enable_witness :
    MfaEvent.EnableMFADevice "testuser" testDevice.SerialNumber (asciiBytes "invali")
        (asciiBytes "d") (some (.PermissionError (.val (.errorString "access denied"))))
      ∈ (enableMFA (mfaWorld (some (.PermissionError (.val (.errorString "access denied"))))
          none) "test-profile" "testuser" "password" (asciiBytes "invalid") ()).trace ∧
    deletedDevices (enableMFA (mfaWorld (some (.PermissionError (.val
        (.errorString "access denied")))) none) "test-profile" "testuser" "password"
        (asciiBytes "invalid") ()).trace = [testDevice.SerialNumber] ∧
    ∃ name device,
      MfaEvent.CreateVirtualMFADevice name (.ok device)
        ∈ (enableMFA (mfaWorld (some (.PermissionError (.val (.errorString "access denied"))))
          none) "test-profile" "testuser" "password" (asciiBytes "invalid") ()).trace ∧
      testDevice.SerialNumber = device.SerialNumber ∧
      (∀ e, some (GoError.PermissionError (.val (.errorString "access denied"))) = some e →
        deletedDevices (enableMFA (mfaWorld (some (.PermissionError (.val
            (.errorString "access denied")))) none) "test-profile" "testuser" "password"
            (asciiBytes "invalid") ()).trace = [device.SerialNumber] ∧
        (enableMFA (mfaWorld (some (.PermissionError (.val (.errorString "access denied"))))
            none) "test-profile" "testuser" "password" (asciiBytes "invalid") ()).result
          = .returned [] (some (Errorf_w "failed to enable MFA device: " e))) ∧
      (some (GoError.PermissionError (.val (.errorString "access denied"))) = none →
        deletedDevices (enableMFA (mfaWorld (some (.PermissionError (.val
            (.errorString "access denied")))) none) "test-profile" "testuser" "password"
            (asciiBytes "invalid") ()).trace = [] ∧
        (enableMFA (mfaWorld (some (.PermissionError (.val (.errorString "access denied"))))
            none) "test-profile" "testuser" "password" (asciiBytes "invalid") ()).result
          = .returned device.QRCodePNG none) :=
  ⟨by decide, by decide,
   enableMFA_cleans_up_after_failed_enable
     (mfaWorld (some (.PermissionError (.val (.errorString "access denied")))) none)
     "test-profile" "testuser" "password" (asciiBytes "invalid") ()
     "testuser" testDevice.SerialNumber (asciiBytes "invali") (asciiBytes "d")
     (some (.PermissionError (.val (.errorString "access denied")))) (by decide)⟩

/-! ## Deletions of a successful rotation -/

/-- C27. In every run of `rotateKeys` that returns nil, `DeleteAccessKey` is
called at most once, and never with the id of the key that the run created. -/
theorem successful_rotation_never_deletes_new_key {σ : Type} (c : Clients σ)
    (username secretName : String) (s0 : σ)
    (hret : (rotateKeys c username secretName s0).ret = none) :
    (deleteCalls (rotateKeys c username secretName s0).trace).length ≤ 1 ∧
    ∀ k, Event.CreateAccessKey username (.ok k) ∈ (rotateKeys c username secretName s0).trace →
      k.AccessKeyId ∉ deletedIds (rotateKeys c username secretName s0).trace := by
  have hs := rotateKeys_run c username secretName s0
  generalize rotateKeys c username secretName s0 = r at hs hret ⊢
  cases hs with
  | createFailed e => simp at hret
  | configFailed k0 e d => simp at hret
  | verifyFailed k0 e d => simp at hret
  | persistFailed k0 e d => simp at hret
  | listFailed k0 e d => simp at hret
  | retireFailed k0 o rest e d => simp at hret
  | nothingListed k0 => simp [verifiedSteps, persistedSteps, deleteCalls, deletedIds]
  | firstIsNew k0 o rest => simp [verifiedSteps, persistedSteps, deleteCalls, deletedIds]
  | retired k0 o rest s1 s2 s3 s4 s5 s6 hc hl hg hp ha ho =>
    refine ⟨by simp [verifiedSteps, persistedSteps, deleteCalls], ?_⟩
    intro k hk
    have hkk : k = k0 := by simpa [verifiedSteps, persistedSteps] using hk
    subst hkk
    simpa [verifiedSteps, persistedSteps, deleteCalls, deletedIds] using fun h => ho h.symm

/-- C27 at a concrete run: the old key `K1` is the only key deleted. -/
theorem successful_rotation_never_deletes_new_key_witness :
    (rotateKeys simOk.clients "alice" "vault/alice-key" alice0).ret = none ∧
    deleteCalls (rotateKeys simOk.clients "alice" "vault/alice-key" alice0).trace
      = [("K1", "alice")] ∧
    ((deleteCalls (rotateKeys simOk.clients "alice" "vault/alice-key" alice0).trace).length ≤ 1 ∧
    ∀ k, Event.CreateAccessKey "alice" (.ok k)
        ∈ (rotateKeys simOk.clients "alice" "vault/alice-key" alice0).trace →
      k.AccessKeyId ∉ deletedIds (rotateKeys simOk.clients "alice" "vault/alice-key" alice0).trace) :=
  ⟨by decide, by decide,
   successful_rotation_never_deletes_new_key simOk.clients "alice" "vault/alice-key" alice0
     (by decide)⟩

/-! ## Dead credentials in the vault -/

/-- C28. On the simulated store, if `ListAccessKeys` fails or the deletion of
another key than the new one fails, and the deletion of the new key succeeds,
then when `rotateKeys` returns the vault holds under `secretName` the payload of
the new key, the new key is not live, and every key that was live before the
call, other than a key with the new key's id, is still live. -/
theorem late_failure_leaves_dead_credentials_in_vault (w : Sim)
    (username secretName : String) (s0 : SimState)
    (hlate : (∃ e, Event.ListAccessKeys username (.error e)
        ∈ (rotateKeys w.clients username secretName s0).trace) ∨
      (∃ id e, id ≠ w.mint.AccessKeyId ∧ Event.DeleteAccessKey id username (some e)
        ∈ (rotateKeys w.clients username secretName s0).trace))
    (hrb : Event.DeleteAccessKey w.mint.AccessKeyId username none
      ∈ (rotateKeys w.clients username secretName s0).trace) :
    (rotateKeys w.clients username secretName s0).state.secret secretName
      = some (secretValue w.mint) ∧
    w.mint.AccessKeyId ∉ (rotateKeys w.clients username secretName s0).state.keys ∧
    ∀ id ∈ s0.keys, id ≠ w.mint.AccessKeyId →
      id ∈ (rotateKeys w.clients username secretName s0).state.keys := by
  have hst := sim_replay w username secretName s0
  have hs := rotateKeys_run w.clients username secretName s0
  generalize rotateKeys w.clients username secretName s0 = r at hs hst hlate hrb ⊢
  cases hs with
  | createFailed e s1 hc => simp at hrb
  | configFailed k e d s1 s2 s3 hc hl hd =>
    obtain rfl := (sim_create hc).2 k rfl
    cases d <;> simp [cleanupEvents] at hlate
  | verifyFailed k e d s1 s2 s3 s4 hc hl hg hd =>
    obtain rfl := (sim_create hc).2 k rfl
    cases d <;> simp [cleanupEvents] at hlate
  | persistFailed k e d s1 s2 s3 s4 s5 hc hl hg hp hd =>
    obtain rfl := (sim_create hc).2 k rfl
    cases d <;> simp [cleanupEvents, verifiedSteps] at hlate
  | nothingListed k => simp [verifiedSteps, persistedSteps] at hrb
  | firstIsNew k o rest => simp [verifiedSteps, persistedSteps] at hrb
  | retired k o rest s1 s2 s3 s4 s5 s6 hc hl hg hp ha ho hr =>
    obtain rfl := (sim_create hc).2 k rfl
    simp [verifiedSteps, persistedSteps] at hlate
  | listFailed k e d s1 s2 s3 s4 s5 s6 hc hl hg hp ha hd =>
    obtain rfl := (sim_create hc).2 k rfl
    simp only at hst
    cases d with
    | some de => simp [cleanupEvents, verifiedSteps, persistedSteps] at hrb
    | none =>
      simp [hst, cleanupEvents, verifiedSteps, persistedSteps, SimState.apply,
        SimState.bump, SimState.removeKey, SimState.putSecret, SimState.secret]
      exact fun id h hn => ⟨h, hn⟩
  | retireFailed k o rest e d s1 s2 s3 s4 s5 s6 s7 hc hl hg hp ha ho hr hd =>
    obtain rfl := (sim_create hc).2 k rfl
    simp only at hst
    cases d with
    | some de => simp [cleanupEvents, verifiedSteps, persistedSteps] at hrb
    | none =>
      simp [hst, cleanupEvents, verifiedSteps, persistedSteps, SimState.apply,
        SimState.bump, SimState.removeKey, SimState.putSecret, SimState.secret]
      exact fun id h hn => ⟨h, hn⟩

/-- C28 at a concrete run: the deletion of the old key `K1` fails and the
rollback succeeds; the vault then holds the payload of the deleted new key while
`K1` is the live key. -/
theorem late_failure_leaves_dead_credentials_in_vault_witness :
    Event.DeleteAccessKey "K1" "alice" (some (.errorString "boom"))
      ∈ (rotateKeys (simFailAt 5).clients "alice" "vault/alice-key" alice0).trace ∧
    Event.DeleteAccessKey k2.AccessKeyId "alice" none
      ∈ (rotateKeys (simFailAt 5).clients "alice" "vault/alice-key" alice0).trace ∧
    (rotateKeys (simFailAt 5).clients "alice" "vault/alice-key" alice0).state.keys = ["K1"] ∧
    ((rotateKeys (simFailAt 5).clients "alice" "vault/alice-key" alice0).state.secret
      "vault/alice-key" = some (secretValue k2) ∧
    k2.AccessKeyId ∉ (rotateKeys (simFailAt 5).clients "alice" "vault/alice-key" alice0).state.keys ∧
    ∀ id ∈ alice0.keys, id ≠ k2.AccessKeyId →
      id ∈ (rotateKeys (simFailAt 5).clients "alice" "vault/alice-key" alice0).state.keys) :=
  ⟨by decide, by decide, by decide,
   late_failure_leaves_dead_credentials_in_vault (simFailAt 5) "alice" "vault/alice-key" alice0
     (Or.inr ⟨"K1", .errorString "boom", by decide, by decide⟩) (by decide)⟩

/-! ## Injectivity of the vault payload -/

/-- Two texts that continue with the same separator, after heads that do not
contain it, have equal heads and equal continuations. -/
theorem append_sep_cancel (q : Char) :
    ∀ (a b r t : List Char), q ∉ a → q ∉ b → a ++ q :: r = b ++ q :: t → a = b ∧ r = t
  | [], [], r, t, _, _, h => by simpa using h
  | [], y :: b, r, t, _, hb, h => by
    simp only [List.nil_append, List.cons_append, List.cons.injEq] at h
    exact absurd (by simp [h.1]) hb
  | x :: a, [], r, t, ha, _, h => by
    simp only [List.nil_append, List.cons_append, List.cons.injEq] at h
    exact absurd (by simp [h.1]) ha
  | x :: a, y :: b, r, t, ha, hb, h => by
    simp only [List.cons_append, List.cons.injEq] at h
    have ih := append_sep_cancel q a b r t (fun m => ha (List.mem_cons_of_mem _ m))
      (fun m => hb (List.mem_cons_of_mem _ m)) h.2
    exact ⟨by rw [h.1, ih.1], ih.2⟩

/-- The payload determines the key pair as soon as the two key ids contain no
double quote. -/
theorem secretValue_inj_of_plain_ids (a b : AccessKey)
    (ha : '"' ∉ a.AccessKeyId.data) (hb : '"' ∉ b.AccessKeyId.data)
    (h : secretValue a = secretValue b) : a = b := by
  have hd := congrArg String.data h
  rw [secretValue_data, secretValue_data] at hd
  simp only [List.cons.injEq, true_and, List.append_cancel_left_eq] at hd
  obtain ⟨hid, hrest⟩ := append_sep_cancel '"' _ _ _ _ ha hb hd
  simp only [List.cons.injEq, true_and, List.append_cancel_left_eq] at hrest
  have hsec : a.SecretAccessKey.data = b.SecretAccessKey.data :=
    List.append_cancel_right hrest
  cases a with
  | mk ai as =>
    cases b with
    | mk bi bs =>
      simp only at hid hsec
      rw [AccessKey.mk.injEq]
      exact ⟨String.ext hid, String.ext hsec⟩

/-- C29. For access key ids and secrets that contain no double-quote character,
the vault payload is injective: two key pairs with the same payload have the same
id and the same secret. -/
theorem secretValue_injective_without_quotes (a b : AccessKey)
    (hai : '"' ∉ a.AccessKeyId.data) (_has : '"' ∉ a.SecretAccessKey.data)
    (hbi : '"' ∉ b.AccessKeyId.data) (_hbs : '"' ∉ b.SecretAccessKey.data)
    (h : secretValue a = secretValue b) :
    a.AccessKeyId = b.AccessKeyId ∧ a.SecretAccessKey = b.SecretAccessKey := by
  have hab := secretValue_inj_of_plain_ids a b hai hbi h
  rw [hab]
  exact ⟨rfl, rfl⟩

/-- C29 at the key pair of the examples. -/
theorem secretValue_injective_without_quotes_witness :
    '"' ∉ k2.AccessKeyId.data ∧ '"' ∉ k2.SecretAccessKey.data ∧
    secretValue k2 = secretValue ⟨"AKIA_NEW_KEY", "new_secret_key"⟩ ∧
    (k2.AccessKeyId = (AccessKey.mk "AKIA_NEW_KEY" "new_secret_key").AccessKeyId ∧
      k2.SecretAccessKey = (AccessKey.mk "AKIA_NEW_KEY" "new_secret_key").SecretAccessKey) :=
  ⟨by decide, by decide, by decide,
   secretValue_injective_without_quotes k2 ⟨"AKIA_NEW_KEY", "new_secret_key"⟩
     (by decide) (by decide) (by decide) (by decide) (by decide)⟩

/-! ## The two authentication codes -/

/-- Every `EnableMFADevice` call of `enableMFA` carries the first 6 bytes of the
token and the bytes after them, and is made only for a token of at least 6
bytes. -/
theorem enableMFA_codes {σ : Type} (c : MfaClients σ)
    (profile username password : String) (mfaToken : List UInt8) (s0 : σ)
    (u serial : String) (code1 code2 : List UInt8) (d : Option GoError)
    (hen : MfaEvent.EnableMFADevice u serial code1 code2 d
      ∈ (enableMFA c profile username password mfaToken s0).trace) :
    6 ≤ mfaToken.length ∧ code1 = mfaToken.take 6 ∧ code2 = mfaToken.drop 6 := by
  unfold enableMFA validateCredentials at hen
  simp only at hen
  rcases hnow : c.Now s0 with ⟨unix, s1⟩
  simp only [hnow] at hen
  rcases hcr : c.CreateVirtualMFADevice ("iamctl-" ++ username ++ "-" ++ toString unix) s1
    with ⟨e0 | device, s2⟩
  · simp only [hcr] at hen
    simp at hen
  simp only [hcr] at hen
  by_cases hlen : mfaToken.length < 6
  · simp only [hlen, if_true] at hen
    simp at hen
  simp only [hlen, if_false] at hen
  refine ⟨Nat.le_of_not_lt hlen, ?_⟩
  rcases hpe : c.EnableMFADevice username device.SerialNumber (mfaToken.take 6)
      (mfaToken.drop 6) s2 with ⟨_ | e1, s3⟩
  · simp only [hpe] at hen
    simp at hen
    exact ⟨hen.2.2.1, hen.2.2.2.1⟩
  simp only [hpe] at hen
  rcases hdel : c.DeleteVirtualMFADevice device.SerialNumber s3 with ⟨_ | e2, s4⟩
  · simp only [hdel] at hen
    simp at hen
    exact ⟨hen.2.2.1, hen.2.2.2.1⟩
  · simp only [hdel] at hen
    simp at hen
    exact ⟨hen.2.2.1, hen.2.2.2.1⟩

/-- C24, refuted as stated.  With the token `invalid` of the repository's test
`TestInvalidToken`, `enableMFA` sends the six bytes `invali` as the first code
and the single byte `d` as the second. -/
theorem seven_byte_token_second_code_is_one_byte :
    (enableMFA (mfaWorld none none) "test-profile" "testuser" "password"
        (asciiBytes "invalid") ()).trace
      = [MfaEvent.Now 1700000000,
         MfaEvent.CreateVirtualMFADevice "iamctl-testuser-1700000000" (.ok testDevice),
         MfaEvent.EnableMFADevice "testuser" testDevice.SerialNumber (asciiBytes "invali")
           (asciiBytes "d") none] ∧
    (asciiBytes "d").length = 1 := by
  decide

/-- C24, amended.  Whenever `enableMFA` calls `EnableMFADevice`, the token has at
least 6 bytes, `AuthenticationCode1` is the token's first 6 bytes and
`AuthenticationCode2` is all the bytes after them; the first code is exactly 6
bytes long, and the second is exactly 6 bytes long if and only if the token has
12 bytes. -/
theorem enableMFA_splits_token_after_six_bytes {σ : Type} (c : MfaClients σ)
    (profile username password : String) (mfaToken : List UInt8) (s0 : σ)
    (u serial : String) (code1 code2 : List UInt8) (d : Option GoError)
    (hen : MfaEvent.EnableMFADevice u serial code1 code2 d
      ∈ (enableMFA c profile username password mfaToken s0).trace) :
    6 ≤ mfaToken.length ∧ code1 = mfaToken.take 6 ∧ code2 = mfaToken.drop 6 ∧
    code1.length = 6 ∧ (code2.length = 6 ↔ mfaToken.length = 12) := by
  obtain ⟨hlen, h1, h2⟩ := enableMFA_codes c profile username password mfaToken s0 u serial
    code1 code2 d hen
  refine ⟨hlen, h1, h2, ?_, ?_⟩
  · rw [h1, List.length_take]
    omega
  · rw [h2, List.length_drop]
    omega

/-- C24 amended, at a token of 12 digits: both codes have 6 bytes. -/
theorem enableMFA_splits_token_after_six_bytes_witness :
    MfaEvent.EnableMFADevice "testuser" testDevice.SerialNumber (asciiBytes "123456")
        (asciiBytes "654321") none
      ∈ (enableMFA (mfaWorld none none) "test-profile" "testuser" "password"
          (asciiBytes "123456654321") ()).trace ∧
    (6 ≤ (asciiBytes "123456654321").length ∧
      asciiBytes "123456" = (asciiBytes "123456654321").take 6 ∧
      asciiBytes "654321" = (asciiBytes "123456654321").drop 6 ∧
      (asciiBytes "123456").length = 6 ∧
      ((asciiBytes "654321").length = 6 ↔ (asciiBytes "123456654321").length = 12)) :=
  ⟨by decide,
   enableMFA_splits_token_after_six_bytes (mfaWorld none none) "test-profile" "testuser"
     "password" (asciiBytes "123456654321") () "testuser" testDevice.SerialNumber
     (asciiBytes "123456") (asciiBytes "654321") none (by decide)⟩

/-! ## Tokens shorter than the first code -/

/-- C30. For a token `long` of at least 6 bytes `enableMFA` does not panic: the
slices `long[:6]` and `long[6:]` are in range, their concatenation is the token,
and they are the codes of every `EnableMFADevice` call.  For a token `short` of
fewer than 6 bytes `enableMFA` panics exactly when `CreateVirtualMFADevice` has
succeeded, the trace then ends with that call, and in no case does it call
`EnableMFADevice` or `DeleteVirtualMFADevice`: the created device stays. -/
theorem enableMFA_short_token_orphans_device {σ : Type} (c : MfaClients σ)
    (profile username password : String) (long short : List UInt8) (s0 : σ)
    (hlong : 6 ≤ long.length) (hshort : short.length < 6) :
    ((enableMFA c profile username password long s0).result ≠ .panicked ∧
      (long.take 6).length = 6 ∧ long.take 6 ++ long.drop 6 = long ∧
      ∀ u serial code1 code2 d, MfaEvent.EnableMFADevice u serial code1 code2 d
          ∈ (enableMFA c profile username password long s0).trace →
        code1 ++ code2 = long) ∧
    (((enableMFA c profile username password short s0).result = .panicked ↔
        ∃ name device, MfaEvent.CreateVirtualMFADevice name (.ok device)
          ∈ (enableMFA c profile username password short s0).trace) ∧
      ((enableMFA c profile username password short s0).result = .panicked →
        ∃ name device, (enableMFA c profile username password short s0).trace.getLast?
          = some (MfaEvent.CreateVirtualMFADevice name (.ok device))) ∧
      deletedDevices (enableMFA c profile username password short s0).trace = [] ∧
      ∀ u serial code1 code2 d, MfaEvent.EnableMFADevice u serial code1 code2 d
        ∉ (enableMFA c profile username password short s0).trace) := by
  constructor
  · refine ⟨?_, ?_, List.take_append_drop 6 long, ?_⟩
    · unfold enableMFA validateCredentials
      simp only
      rcases hnow : c.Now s0 with ⟨unix, s1⟩
      simp only [hnow]
      rcases hcr : c.CreateVirtualMFADevice ("iamctl-" ++ username ++ "-" ++ toString unix) s1
        with ⟨e0 | device, s2⟩
      · simp
      simp only [Nat.not_lt.mpr hlong, if_false]
      rcases hpe : c.EnableMFADevice username device.SerialNumber (long.take 6)
          (long.drop 6) s2 with ⟨_ | e1, s3⟩
      · simp
      simp only
      rcases hdel : c.DeleteVirtualMFADevice device.SerialNumber s3 with ⟨_ | e2, s4⟩
      · simp
      · simp
    · rw [List.length_take]
      omega
    · intro u serial code1 code2 d hen
      obtain ⟨-, h1, h2⟩ := enableMFA_codes c profile username password long s0 u serial
        code1 code2 d hen
      rw [h1, h2, List.take_append_drop]
  · unfold enableMFA validateCredentials
    simp only
    rcases hnow : c.Now s0 with ⟨unix, s1⟩
    simp only [hnow]
    rcases hcr : c.CreateVirtualMFADevice ("iamctl-" ++ username ++ "-" ++ toString unix) s1
      with ⟨e0 | device, s2⟩
    · simp [deletedDevices]
    · simp only [hshort, if_true]
      simp [deletedDevices]

/-- C30 at the tokens `123456654321` and `123`: with the second one the call
panics after the device was created, and nothing deletes the device. -/
theorem enableMFA_short_token_orphans_device_witness :
    6 ≤ (asciiBytes "123456654321").length ∧ (asciiBytes "123").length < 6 ∧
    (enableMFA (mfaWorld none none) "test-profile" "testuser" "password"
      (asciiBytes "123") ()).trace = [MfaEvent.Now 1700000000,
        MfaEvent.CreateVirtualMFADevice "iamctl-testuser-1700000000" (.ok testDevice)] ∧
    (((enableMFA (mfaWorld none none) "test-profile" "testuser" "password"
        (asciiBytes "123456654321") ()).result ≠ .panicked ∧
      ((asciiBytes "123456654321").take 6).length = 6 ∧
      (asciiBytes "123456654321").take 6 ++ (asciiBytes "123456654321").drop 6
        = asciiBytes "123456654321" ∧
      ∀ u serial code1 code2 d, MfaEvent.EnableMFADevice u serial code1 code2 d
          ∈ (enableMFA (mfaWorld none none) "test-profile" "testuser" "password"
            (asciiBytes "123456654321") ()).trace →
        code1 ++ code2 = asciiBytes "123456654321") ∧
    (((enableMFA (mfaWorld none none) "test-profile" "testuser" "password"
          (asciiBytes "123") ()).result = .panicked ↔
        ∃ name device, MfaEvent.CreateVirtualMFADevice name (.ok device)
          ∈ (enableMFA (mfaWorld none none) "test-profile" "testuser" "password"
            (asciiBytes "123") ()).trace) ∧
      ((enableMFA (mfaWorld none none) "test-profile" "testuser" "password"
          (asciiBytes "123") ()).result = .panicked →
        ∃ name device, (enableMFA (mfaWorld none none) "test-profile" "testuser" "password"
            (asciiBytes "123") ()).trace.getLast?
          = some (MfaEvent.CreateVirtualMFADevice name (.ok device))) ∧
      deletedDevices (enableMFA (mfaWorld none none) "test-profile" "testuser" "password"
        (asciiBytes "123") ()).trace = [] ∧
      ∀ u serial code1 code2 d, MfaEvent.EnableMFADevice u serial code1 code2 d
        ∉ (enableMFA (mfaWorld none none) "test-profile" "testuser" "password"
          (asciiBytes "123") ()).trace)) :=
  ⟨by decide, by decide, by decide,
   enableMFA_short_token_orphans_device (mfaWorld none none) "test-profile" "testuser"
     "password" (asciiBytes "123456654321") (asciiBytes "123") () (by decide) (by decide)⟩

/-! ## The test double against the function it stands for -/

/-- C26. Let the verification step succeed and leave the services as they are,
and let Secrets Manager answer independently of the credentials behind its
client.  Then `rotateKeys` and `rotateKeysWithClients`, run against the same
answers, issue the same sequence of `CreateAccessKey`, `CreateSecret`,
`ListAccessKeys` and `DeleteAccessKey` calls with the same arguments and answers,
one returns nil if and only if the other does, and they leave the same state. -/
theorem rotateKeysWithClients_mirrors_rotateKeys {σ : Type} (c : Clients σ)
    (username secretName : String) (s0 : σ)
    (hcfg : ∀ a b s, c.LoadDefaultConfig a b s = (none, s))
    (hget : ∀ a b s, c.GetUser a b s = (none, s))
    (hsm : ∀ a b n v s, c.CreateSecret a b n v s = c.CreateSecret "" "" n v s) :
    (rotateKeys c username secretName s0).trace.filterMap Event.sharedCall
      = (rotateKeysWithClients (mockOf c) username secretName s0).trace.filterMap
          Event.sharedCall ∧
    ((rotateKeys c username secretName s0).ret = none ↔
      (rotateKeysWithClients (mockOf c) username secretName s0).result = .returned none) ∧
    (rotateKeys c username secretName s0).state
      = (rotateKeysWithClients (mockOf c) username secretName s0).state := by
  have hs := rotateKeys_run c username secretName s0
  generalize rotateKeys c username secretName s0 = r at hs ⊢
  cases hs with
  | createFailed e s1 hc =>
    simp [rotateKeysWithClients, mockOf, hc, Event.sharedCall]
  | configFailed k e d s1 s2 s3 hc hl hd =>
    rw [hcfg] at hl
    cases hl
  | verifyFailed k e d s1 s2 s3 s4 hc hl hg hd =>
    rw [hget] at hg
    cases hg
  | persistFailed k e d s1 s2 s3 s4 s5 hc hl hg hp hd =>
    rw [hcfg] at hl
    rw [hget] at hg
    cases hl
    cases hg
    rw [hsm] at hp
    cases d <;>
      simp [rotateKeysWithClients, mockOf, mockReturn, mockCleanup, hc, hp, hd,
        Event.sharedCall, cleanupEvents, verifiedSteps]
  | listFailed k e d s1 s2 s3 s4 s5 s6 hc hl hg hp ha hd =>
    rw [hcfg] at hl
    rw [hget] at hg
    cases hl
    cases hg
    rw [hsm] at hp
    cases d <;>
      simp [rotateKeysWithClients, mockOf, mockReturn, mockCleanup, hc, hp, ha, hd,
        Event.sharedCall, cleanupEvents, verifiedSteps, persistedSteps]
  | nothingListed k s1 s2 s3 s4 s5 hc hl hg hp ha =>
    rw [hcfg] at hl
    rw [hget] at hg
    cases hl
    cases hg
    rw [hsm] at hp
    simp [rotateKeysWithClients, mockOf, mockReturn, mockCleanup, hc, hp, ha,
      Event.sharedCall, verifiedSteps, persistedSteps]
  | firstIsNew k o rest s1 s2 s3 s4 s5 hc hl hg hp ha ho =>
    rw [hcfg] at hl
    rw [hget] at hg
    cases hl
    cases hg
    rw [hsm] at hp
    simp [rotateKeysWithClients, mockOf, mockReturn, mockCleanup, hc, hp, ha, ho,
      Event.sharedCall, verifiedSteps, persistedSteps]
  | retireFailed k o rest e d s1 s2 s3 s4 s5 s6 s7 hc hl hg hp ha ho hr hd =>
    rw [hcfg] at hl
    rw [hget] at hg
    cases hl
    cases hg
    rw [hsm] at hp
    cases d <;>
      simp [rotateKeysWithClients, mockOf, mockReturn, mockCleanup, hc, hp, ha, ho, hr, hd,
        Event.sharedCall, cleanupEvents, verifiedSteps, persistedSteps]
  | retired k o rest s1 s2 s3 s4 s5 s6 hc hl hg hp ha ho hr =>
    rw [hcfg] at hl
    rw [hget] at hg
    cases hl
    cases hg
    rw [hsm] at hp
    simp [rotateKeysWithClients, mockOf, mockReturn, mockCleanup, hc, hp, ha, ho, hr,
      Event.sharedCall, verifiedSteps, persistedSteps]

/-- C26 at a concrete run over a store with the live key `K1`: both functions
create the key, store the payload, list the keys and delete `K1`. -/
theorem rotateKeysWithClients_mirrors_rotateKeys_witness :
    (∀ a b s, (keyStore k2).LoadDefaultConfig a b s = (none, s)) ∧
    (∀ a b s, (keyStore k2).GetUser a b s = (none, s)) ∧
    (∀ a b n v s, (keyStore k2).CreateSecret a b n v s = (keyStore k2).CreateSecret "" "" n v s) ∧
    (rotateKeysWithClients (mockOf (keyStore k2)) "alice" "vault/alice-key" ["K1"]).trace
      = [Event.CreateAccessKey "alice" (.ok k2),
         Event.CreateSecret "" "" "vault/alice-key" (secretValue k2) none,
         Event.ListAccessKeys "alice" (.ok [⟨"K1"⟩, ⟨"AKIA_NEW_KEY"⟩]),
         Event.DeleteAccessKey "K1" "alice" none] ∧
    ((rotateKeys (keyStore k2) "alice" "vault/alice-key" ["K1"]).trace.filterMap Event.sharedCall
      = (rotateKeysWithClients (mockOf (keyStore k2)) "alice" "vault/alice-key"
          ["K1"]).trace.filterMap Event.sharedCall ∧
    ((rotateKeys (keyStore k2) "alice" "vault/alice-key" ["K1"]).ret = none ↔
      (rotateKeysWithClients (mockOf (keyStore k2)) "alice" "vault/alice-key" ["K1"]).result
        = .returned none) ∧
    (rotateKeys (keyStore k2) "alice" "vault/alice-key" ["K1"]).state
      = (rotateKeysWithClients (mockOf (keyStore k2)) "alice" "vault/alice-key" ["K1"]).state) :=
  ⟨fun _ _ _ => rfl, fun _ _ _ => rfl, fun _ _ _ _ _ => rfl, by decide,
   rotateKeysWithClients_mirrors_rotateKeys (keyStore k2) "alice" "vault/alice-key" ["K1"]
     (fun _ _ _ => rfl) (fun _ _ _ => rfl) (fun _ _ _ _ _ => rfl)⟩

/-! ## The confirmation of `mfa disable` -/

/-- Past `validateCredentials`, which always succeeds, `disableMFA` starts with a
`ListMFADevices` call for the user. -/
theorem disableMFA_lists_first {σ : Type} (c : DisableClients σ)
    (profile username password : String) (mfaToken : List UInt8) (s : σ) :
    ∃ res, DisableEvent.ListMFADevices username res
      ∈ (disableMFA c profile username password mfaToken s).trace := by
  unfold disableMFA validateCredentials
  simp only
  rcases hl : c.ListMFADevices username s with ⟨e | devices, s1⟩
  · exact ⟨.error e, by simp⟩
  cases devices with
  | nil => exact ⟨.ok [], by simp⟩
  | cons device rest =>
    refine ⟨.ok (device :: rest), ?_⟩
    simp only
    rcases hd : c.DeactivateMFADevice username device.SerialNumber s1 with ⟨_ | e1, s2⟩
    · simp only
      rcases hv : c.DeleteVirtualMFADevice device.SerialNumber s2 with ⟨_ | e2, s3⟩
      · simp
      · simp
    · simp

/-- C21, refuted as stated.  The input ends after `NO`, before a newline: the
read fails, and the command returns the "Operation failed" error, not the
"Operation cancelled" error; it makes no IAM call. -/
theorem unfinished_confirmation_is_not_cancelled :
    (disableWorldEOF "NO" listedDevices).ReadString ()
      = (("NO", some (.errorString "EOF")), ()) ∧
    stringsTrimSpace "NO" ≠ "YES" ∧
    (disableCommandTail (disableWorldEOF "NO" listedDevices)
        "test-profile" "testuser" "password" (asciiBytes "123456") ()).ret
      = some (.errorString "❌ Operation failed: Invalid credentials") ∧
    (disableCommandTail (disableWorldEOF "NO" listedDevices)
        "test-profile" "testuser" "password" (asciiBytes "123456") ()).ret
      ≠ some (.errorString "❌ Operation cancelled") ∧
    (disableCommandTail (disableWorldEOF "NO" listedDevices)
        "test-profile" "testuser" "password" (asciiBytes "123456") ()).trace
      = [DisableEvent.Print "Are you sure you want to disable MFA? Type 'YES' to confirm: ",
         DisableEvent.ReadString "NO" (some (.errorString "EOF"))] := by
  decide

/-- C21, amended.  Let `ReadString` answer the text `line` and the error `rerr`.
The command makes an IAM call if and only if the read succeeded and `line` with
its surrounding white space trimmed is exactly `YES`; it then runs `disableMFA`
once, on the state the read left, and returns nil exactly when `disableMFA`
does.  For every other line read without error it returns the "Operation
cancelled" error, and when the read fails it returns the "Operation failed"
error; in both cases its trace is the prompt and the read, so that it makes no
`ListMFADevices`, `DeactivateMFADevice` or `DeleteVirtualMFADevice` call. -/
theorem disable_reaches_disableMFA_only_after_YES {σ : Type} (c : DisableClients σ)
    (profile username password : String) (mfaToken : List UInt8) (s0 s1 : σ) (line : String)
    (rerr : Option GoError)
    (hread : c.ReadString s0 = ((line, rerr), s1)) :
    ((∃ ev ∈ (disableCommandTail c profile username password mfaToken s0).trace,
        ev.isIAMCall = true) ↔
      (rerr = none ∧ stringsTrimSpace line = "YES")) ∧
    (rerr = none → stringsTrimSpace line = "YES" →
      (disableCommandTail c profile username password mfaToken s0).trace
        = [DisableEvent.Print "Are you sure you want to disable MFA? Type 'YES' to confirm: ",
           DisableEvent.ReadString line none]
          ++ (disableMFA c profile username password mfaToken s1).trace
          ++ (match (disableMFA c profile username password mfaToken s1).ret with
              | none => [DisableEvent.Print "✅ MFA disabled successfully\n"]
              | some _ => []) ∧
      (disableCommandTail c profile username password mfaToken s0).ret
        = (disableMFA c profile username password mfaToken s1).ret.map
            (fun _ => GoError.errorString "❌ Operation failed: Invalid credentials") ∧
      (disableCommandTail c profile username password mfaToken s0).state
        = (disableMFA c profile username password mfaToken s1).state) ∧
    (rerr = none → stringsTrimSpace line ≠ "YES" →
      (disableCommandTail c profile username password mfaToken s0).ret
        = some (.errorString "❌ Operation cancelled") ∧
      (disableCommandTail c profile username password mfaToken s0).trace
        = [DisableEvent.Print "Are you sure you want to disable MFA? Type 'YES' to confirm: ",
           DisableEvent.ReadString line none] ∧
      (disableCommandTail c profile username password mfaToken s0).state = s1) ∧
    (∀ e, rerr = some e →
      (disableCommandTail c profile username password mfaToken s0).ret
        = some (.errorString "❌ Operation failed: Invalid credentials") ∧
      (disableCommandTail c profile username password mfaToken s0).trace
        = [DisableEvent.Print "Are you sure you want to disable MFA? Type 'YES' to confirm: ",
           DisableEvent.ReadString line (some e)] ∧
      (disableCommandTail c profile username password mfaToken s0).state = s1) := by
  obtain ⟨res, hres⟩ := disableMFA_lists_first c profile username password mfaToken s1
  unfold disableCommandTail
  simp only [hread]
  cases rerr with
  | some e => simp [DisableEvent.isIAMCall]
  | none =>
    simp only
    by_cases h : stringsTrimSpace line = "YES"
    · simp only [h, ne_eq, not_true_eq_false, if_false]
      have hcall : ∀ tl : List DisableEvent,
          ∃ ev ∈ [DisableEvent.Print
              "Are you sure you want to disable MFA? Type 'YES' to confirm: "]
            ++ [DisableEvent.ReadString line none]
            ++ (disableMFA c profile username password mfaToken s1).trace ++ tl,
            ev.isIAMCall = true :=
        fun tl => ⟨DisableEvent.ListMFADevices username res, by simp [hres], rfl⟩
      cases hr : (disableMFA c profile username password mfaToken s1).ret with
      | none =>
        refine ⟨⟨fun _ => by simp, fun _ => ?_⟩, fun _ _ => by simp,
          fun _ hn => hn.elim, fun e he => by cases he⟩
        simpa using hcall [DisableEvent.Print "✅ MFA disabled successfully\n"]
      | some e =>
        refine ⟨⟨fun _ => by simp, fun _ => ?_⟩, fun _ _ => by simp,
          fun _ hn => hn.elim, fun e he => by cases he⟩
        simpa using hcall []
    · simp only [h, ne_eq, not_false_eq_true, if_true]
      simp [DisableEvent.isIAMCall]

/-- C21 amended, at three inputs: `YES` with surrounding white space lets the
command disable the device, lower-case `yes` cancels it, and `YES` without a
newline before the end of the input is a failed read. -/
theorem disable_reaches_disableMFA_only_after_YES_witness :
    (disableWorld "yes\n" listedDevices).ReadString () = (("yes\n", none), ()) ∧
    stringsTrimSpace " YES\r\n" = "YES" ∧ stringsTrimSpace "yes\n" ≠ "YES" ∧
    (disableCommandTail (disableWorld " YES\r\n" listedDevices)
        "test-profile" "testuser" "password" (asciiBytes "123456") ()).trace
      = [DisableEvent.Print "Are you sure you want to disable MFA? Type 'YES' to confirm: ",
         DisableEvent.ReadString " YES\r\n" none,
         DisableEvent.ListMFADevices "testuser" (.ok listedDevices),
         DisableEvent.DeactivateMFADevice "testuser" "arn:aws:iam::123456789012:mfa/testuser" none,
         DisableEvent.DeleteVirtualMFADevice "arn:aws:iam::123456789012:mfa/testuser" none,
         DisableEvent.Print "✅ MFA disabled successfully\n"] ∧
    (disableCommandTail (disableWorldEOF "YES" listedDevices)
        "test-profile" "testuser" "password" (asciiBytes "123456") ()).trace
      = [DisableEvent.Print "Are you sure you want to disable MFA? Type 'YES' to confirm: ",
         DisableEvent.ReadString "YES" (some (.errorString "EOF"))] ∧
    (((∃ ev ∈ (disableCommandTail (disableWorld "yes\n" listedDevices)
          "test-profile" "testuser" "password" (asciiBytes "123456") ()).trace,
        ev.isIAMCall = true) ↔
      ((none : Option GoError) = none ∧ stringsTrimSpace "yes\n" = "YES")) ∧
    ((none : Option GoError) = none → stringsTrimSpace "yes\n" = "YES" →
      (disableCommandTail (disableWorld "yes\n" listedDevices)
          "test-profile" "testuser" "password" (asciiBytes "123456") ()).trace
        = [DisableEvent.Print "Are you sure you want to disable MFA? Type 'YES' to confirm: ",
           DisableEvent.ReadString "yes\n" none]
          ++ (disableMFA (disableWorld "yes\n" listedDevices)
            "test-profile" "testuser" "password" (asciiBytes "123456") ()).trace
          ++ (match (disableMFA (disableWorld "yes\n" listedDevices)
                "test-profile" "testuser" "password" (asciiBytes "123456") ()).ret with
              | none => [DisableEvent.Print "✅ MFA disabled successfully\n"]
              | some _ => []) ∧
      (disableCommandTail (disableWorld "yes\n" listedDevices)
          "test-profile" "testuser" "password" (asciiBytes "123456") ()).ret
        = (disableMFA (disableWorld "yes\n" listedDevices)
            "test-profile" "testuser" "password" (asciiBytes "123456") ()).ret.map
            (fun _ => GoError.errorString "❌ Operation failed: Invalid credentials") ∧
      (disableCommandTail (disableWorld "yes\n" listedDevices)
          "test-profile" "testuser" "password" (asciiBytes "123456") ()).state
        = (disableMFA (disableWorld "yes\n" listedDevices)
            "test-profile" "testuser" "password" (asciiBytes "123456") ()).state) ∧
    ((none : Option GoError) = none → stringsTrimSpace "yes\n" ≠ "YES" →
      (disableCommandTail (disableWorld "yes\n" listedDevices)
          "test-profile" "testuser" "password" (asciiBytes "123456") ()).ret
        = some (.errorString "❌ Operation cancelled") ∧
      (disableCommandTail (disableWorld "yes\n" listedDevices)
          "test-profile" "testuser" "password" (asciiBytes "123456") ()).trace
        = [DisableEvent.Print "Are you sure you want to disable MFA? Type 'YES' to confirm: ",
           DisableEvent.ReadString "yes\n" none] ∧
      (disableCommandTail (disableWorld "yes\n" listedDevices)
          "test-profile" "testuser" "password" (asciiBytes "123456") ()).state = ()) ∧
    (∀ e, (none : Option GoError) = some e →
      (disableCommandTail (disableWorld "yes\n" listedDevices)
          "test-profile" "testuser" "password" (asciiBytes "123456") ()).ret
        = some (.errorString "❌ Operation failed: Invalid credentials") ∧
      (disableCommandTail (disableWorld "yes\n" listedDevices)
          "test-profile" "testuser" "password" (asciiBytes "123456") ()).trace
        = [DisableEvent.Print "Are you sure you want to disable MFA? Type 'YES' to confirm: ",
           DisableEvent.ReadString "yes\n" (some e)] ∧
      (disableCommandTail (disableWorld "yes\n" listedDevices)
          "test-profile" "testuser" "password" (asciiBytes "123456") ()).state = ())) :=
  ⟨rfl, by decide, by decide, by decide, by decide,
   disable_reaches_disableMFA_only_after_YES (disableWorld "yes\n" listedDevices)
     "test-profile" "testuser" "password" (asciiBytes "123456") () () "yes\n" none rfl⟩

/-! ## Classification of a failed `GetUser` -/

/-- C22. When `GetUser` fails with `err`, `GetCurrentUser` returns a nil user and
one error `e` whose `Err` field is `err`: `e` is a `*CredentialError` if and only
if the code of the API error in the chain of `err` is
`UnrecognizedClientException` or `InvalidClientTokenId`, a `*PermissionError` if
and only if that code is `AccessDeniedException`, and a `*ServiceError` in every
other case, among them the errors with no API error in their chain.  When
`GetUser` succeeds, `GetCurrentUser` returns the user and a nil error. -/
theorem GetCurrentUser_classifies_GetUser_failure {σ : Type}
    (GetUser GetUser2 : σ → Except GoError User × σ) (s s1 t t1 : σ) (err : GoError)
    (user : User)
    (hfail : GetUser s = (.error err, s1))
    (hok : GetUser2 t = (.ok user, t1)) :
    (∃ e, (GetCurrentUser GetUser s).1 = (none, some e) ∧
      (e = .CredentialError (.val err) ∨ e = .PermissionError (.val err) ∨
        e = .ServiceError (.val err)) ∧
      (e = .CredentialError (.val err) ↔
        (asAPIErrorCode err = some "UnrecognizedClientException" ∨
          asAPIErrorCode err = some "InvalidClientTokenId")) ∧
      (e = .PermissionError (.val err) ↔ asAPIErrorCode err = some "AccessDeniedException") ∧
      (e = .ServiceError (.val err) ↔
        (asAPIErrorCode err ≠ some "UnrecognizedClientException" ∧
          asAPIErrorCode err ≠ some "InvalidClientTokenId" ∧
          asAPIErrorCode err ≠ some "AccessDeniedException")) ∧
      (asAPIErrorCode err = none → e = .ServiceError (.val err))) ∧
    (GetCurrentUser GetUser2 t).1 = (some user, none) := by
  refine ⟨?_, by simp [GetCurrentUser, hok]⟩
  unfold GetCurrentUser
  simp only [hfail]
  cases hcode : asAPIErrorCode err with
  | none => exact ⟨_, rfl, by simp⟩
  | some code =>
    simp only
    by_cases h1 : code = "UnrecognizedClientException" ∨ code = "InvalidClientTokenId"
    · rw [if_pos h1]
      refine ⟨_, rfl, ?_⟩
      rcases h1 with rfl | rfl <;> simp
    · rw [if_neg h1]
      by_cases h2 : code = "AccessDeniedException"
      · rw [if_pos h2]
        refine ⟨_, rfl, ?_⟩
        subst h2
        simp
      · rw [if_neg h2]
        refine ⟨_, rfl, ?_⟩
        simp only [not_or] at h1
        simp [h1.1, h1.2, h2]

/-- C22 at three answers of `GetUser`: an access-denied API error inside an
operation error, an error that is no API error, and a user. -/
theorem GetCurrentUser_classifies_GetUser_failure_witness :
    (GetCurrentUser (fun (s : Unit) => ((.error (.wrapError
        "operation error IAM: GetUser, api error AccessDeniedException: denied"
        (.APIError "AccessDeniedException" "denied")) : Except GoError User), s)) ()).1
      = (none, some (.PermissionError (.val (.wrapError
        "operation error IAM: GetUser, api error AccessDeniedException: denied"
        (.APIError "AccessDeniedException" "denied"))))) ∧
    (GetCurrentUser (fun (s : Unit) => ((.error (.errorString "dial tcp: timeout") :
        Except GoError User), s)) ()).1
      = (none, some (.ServiceError (.val (.errorString "dial tcp: timeout")))) ∧
    ((∃ e, (GetCurrentUser (fun (s : Unit) => ((.error (.APIError "InvalidClientTokenId"
          "The security token included in the request is invalid") : Except GoError User),
          s)) ()).1 = (none, some e) ∧
      (e = .CredentialError (.val (.APIError "InvalidClientTokenId"
          "The security token included in the request is invalid")) ∨
        e = .PermissionError (.val (.APIError "InvalidClientTokenId"
          "The security token included in the request is invalid")) ∨
        e = .ServiceError (.val (.APIError "InvalidClientTokenId"
          "The security token included in the request is invalid"))) ∧
      (e = .CredentialError (.val (.APIError "InvalidClientTokenId"
          "The security token included in the request is invalid")) ↔
        (asAPIErrorCode (.APIError "InvalidClientTokenId"
            "The security token included in the request is invalid")
            = some "UnrecognizedClientException" ∨
          asAPIErrorCode (.APIError "InvalidClientTokenId"
            "The security token included in the request is invalid")
            = some "InvalidClientTokenId")) ∧
      (e = .PermissionError (.val (.APIError "InvalidClientTokenId"
          "The security token included in the request is invalid")) ↔
        asAPIErrorCode (.APIError "InvalidClientTokenId"
          "The security token included in the request is invalid")
          = some "AccessDeniedException") ∧
      (e = .ServiceError (.val (.APIError "InvalidClientTokenId"
          "The security token included in the request is invalid")) ↔
        (asAPIErrorCode (.APIError "InvalidClientTokenId"
            "The security token included in the request is invalid")
            ≠ some "UnrecognizedClientException" ∧
          asAPIErrorCode (.APIError "InvalidClientTokenId"
            "The security token included in the request is invalid")
            ≠ some "InvalidClientTokenId" ∧
          asAPIErrorCode (.APIError "InvalidClientTokenId"
            "The security token included in the request is invalid")
            ≠ some "AccessDeniedException")) ∧
      (asAPIErrorCode (.APIError "InvalidClientTokenId"
          "The security token included in the request is invalid") = none →
        e = .ServiceError (.val (.APIError "InvalidClientTokenId"
          "The security token included in the request is invalid")))) ∧
    (GetCurrentUser (fun (s : Unit) => ((.ok ⟨"testuser",
        "arn:aws:iam::123456789012:user/testuser"⟩ : Except GoError User), s)) ()).1
      = (some ⟨"testuser", "arn:aws:iam::123456789012:user/testuser"⟩, none)) :=
  ⟨by decide, by decide,
   GetCurrentUser_classifies_GetUser_failure
     (fun (s : Unit) => ((.error (.APIError "InvalidClientTokenId"
        "The security token included in the request is invalid") : Except GoError User), s))
     (fun (s : Unit) => ((.ok ⟨"testuser", "arn:aws:iam::123456789012:user/testuser"⟩ :
        Except GoError User), s))
     () () () () (.APIError "InvalidClientTokenId"
        "The security token included in the request is invalid")
     ⟨"testuser", "arn:aws:iam::123456789012:user/testuser"⟩ rfl rfl⟩

/-! ## The MFA status of a user -/

/-- C23. Let `ListMFADevices` answer `res`.  If `res` is a list of devices,
`getMFAStatus` returns a status and a nil error; the status has `Enabled` true if
and only if the list is non-empty, and it is then `Enabled` with `Status`
"Enabled", the serial number of the first listed device as `Device` and its
enable date as `Enrolled`; for the empty list it is `Enabled` false, `Status`
"Disabled", `Device` "None".  If `res` is an error, `getMFAStatus` returns no
status and the error wrapped with the text "failed to list MFA devices". -/
theorem getMFAStatus_reports_first_device {σ : Type}
    (ListMFADevices : String → σ → Except GoError (List MFADevice) × σ)
    (username : String) (s s1 : σ) (res : Except GoError (List MFADevice))
    (hres : ListMFADevices username s = (res, s1)) :
    (∀ devices, res = .ok devices →
      ∃ st, (getMFAStatus ListMFADevices username s).1 = (some st, none) ∧
        (st.Enabled = true ↔ devices ≠ []) ∧
        (∀ device rest, devices = device :: rest →
          st = ⟨true, "Enabled", device.SerialNumber, device.EnableDate⟩) ∧
        (devices = [] → st.Enabled = false ∧ st.Status = "Disabled" ∧ st.Device = "None")) ∧
    (∀ e, res = .error e →
      (getMFAStatus ListMFADevices username s).1
        = (none, some (Errorf_w "failed to list MFA devices: " e))) := by
  unfold getMFAStatus
  constructor
  · intro devices hd
    subst hd
    cases devices with
    | nil => simp [hres]
    | cons device rest => simp [hres]
  · intro e he
    subst he
    simp [hres]

/-- C23 at three answers of `ListMFADevices`: one device, no device, and a
failure. -/
theorem getMFAStatus_reports_first_device_witness :
    (getMFAStatus (fun _ (s : Unit) => ((.ok [⟨"arn:aws:iam::123456789012:mfa/testuser",
        1699913600⟩] : Except GoError (List MFADevice)), s)) "testuser" ()).1
      = (some ⟨true, "Enabled", "arn:aws:iam::123456789012:mfa/testuser", 1699913600⟩, none) ∧
    (getMFAStatus (fun _ (s : Unit) => ((.ok [] : Except GoError (List MFADevice)), s))
        "testuser" ()).1 = (some ⟨false, "Disabled", "None", 0⟩, none) ∧
    (getMFAStatus (fun _ (s : Unit) => ((.error (.errorString "boom") :
        Except GoError (List MFADevice)), s)) "testuser" ()).1
      = (none, some (.wrapError "failed to list MFA devices: boom" (.errorString "boom"))) ∧
    ((∀ devices, (.ok [⟨"arn:aws:iam::123456789012:mfa/testuser", 1699913600⟩] :
        Except GoError (List MFADevice)) = .ok devices →
      ∃ st, (getMFAStatus (fun _ (s : Unit) => ((.ok [⟨"arn:aws:iam::123456789012:mfa/testuser",
          1699913600⟩] : Except GoError (List MFADevice)), s)) "testuser" ()).1
          = (some st, none) ∧
        (st.Enabled = true ↔ devices ≠ []) ∧
        (∀ device rest, devices = device :: rest →
          st = ⟨true, "Enabled", device.SerialNumber, device.EnableDate⟩) ∧
        (devices = [] → st.Enabled = false ∧ st.Status = "Disabled" ∧ st.Device = "None")) ∧
    (∀ e, (.ok [⟨"arn:aws:iam::123456789012:mfa/testuser", 1699913600⟩] :
        Except GoError (List MFADevice)) = .error e →
      (getMFAStatus (fun _ (s : Unit) => ((.ok [⟨"arn:aws:iam::123456789012:mfa/testuser",
          1699913600⟩] : Except GoError (List MFADevice)), s)) "testuser" ()).1
        = (none, some (Errorf_w "failed to list MFA devices: " e)))) :=
  ⟨by decide, by decide, by decide,
   getMFAStatus_reports_first_device
     (fun _ (s : Unit) => ((.ok [⟨"arn:aws:iam::123456789012:mfa/testuser", 1699913600⟩] :
        Except GoError (List MFADevice)), s)) "testuser" () ()
     (.ok [⟨"arn:aws:iam::123456789012:mfa/testuser", 1699913600⟩]) rfl⟩

/-! ## The MFA check before a password reset -/

/-- C25, the code at the failing input.  The result of `validateMFA` is the same
for any two tokens: its only call loads the configuration of the profile.  On a
profile whose configuration loads, the token `invalid-token` of the repository's
test is accepted. -/
theorem validateMFA_accepts_invalid_token :
    (∀ (σ : Type) (c : ResetClients σ) (profile username serialNumber token1 token2 : String)
        (s : σ),
      validateMFA c profile username serialNumber token1 s
        = validateMFA c profile username serialNumber token2 s) ∧
    validateMFA (resetWorld none none) "test" "testuser" "arn:aws:iam::123456789012:mfa/user"
        "invalid-token" ()
      = (none, [ResetEvent.LoadDefaultConfig "test" none], ()) := by
  refine ⟨?_, by decide⟩
  intro σ c profile username serialNumber token1 token2 s
  unfold validateMFA GetMFAEnabledClient
  rcases h : c.LoadDefaultConfig profile s with ⟨_ | e, s1⟩ <;> rfl

end IamCtl
